import Mathlib

/-!
# Luma3DS exception handling (`source/exceptions.c`)

A shallow embedding of the secondary-processor vector patcher
`installArm11Handlers` and of the exception dump reporter
`detectAndProcessExceptionDumps`, followed by theorems about them.

Conventions of the embedding:

* 32-bit words are natural numbers; every value the code computes is reduced
  modulo `2 ^ 32` where the C arithmetic can wrap.
* The memory starting at `exceptionsPage` is a function from word indices to
  words.  Indices `0 .. 1023` are the exceptions page itself, larger indices are
  the memory that follows it (the code can read and write there).
* Pointers into that memory are word indices; byte addresses are taken relative
  to `exceptionsPage`.
* A read outside the object it indexes (the data-abort snippet, the table of
  exception names) has no defined value: the result is then `none`.
-/

namespace Luma3DS

set_option maxRecDepth 100000

/-! ## Secondary-processor vector patcher -/

/-- Word-addressed memory starting at `exceptionsPage`. -/
abbrev WordMem := Nat → Nat

/-- Store of one word: `mem[i] = v`. -/
def wr (mem : WordMem) (i v : Nat) : WordMem :=
  fun j => if j = i then v else mem j

/-- Modelled from the spec: the macro `MAKE_BRANCH(src, dst)` of `exceptions.h`
(not among the sources), `0xEA000000 | ((((dst - src) >> 2) - 2) & 0xFFFFFF)`.
`src` and `dst` are byte addresses.  The pointer difference is a signed value and
`>> 2` an arithmetic shift (floor division by 4); as the result is masked to 24
bits, every integer congruent to the difference modulo `2 ^ 32` gives the same
word. -/
def MAKE_BRANCH (src dst : Int) : Nat :=
  0xEA000000 ||| (((dst - src) / 4 - 2) % 0x1000000).toNat

/-- Modelled from the spec: the macro `MAKE_BRANCH_LINK(src, dst)` of
`exceptions.h` (not among the sources), the `BL` counterpart of `MAKE_BRANCH`:
`0xEB000000 | ((((dst - src) >> 2) - 2) & 0xFFFFFF)`. -/
def MAKE_BRANCH_LINK (src dst : Int) : Nat :=
  0xEB000000 ||| (((dst - src) / 4 - 2) % 0x1000000).toNat

/-- The handler blob `arm11_exceptions_bin` of the generated `bundled.h` (not
among the sources), given by the parts the patcher reads: the header words at
blob bytes 4, 8 and 12, and the body, bytes `[32, size)`, as 32-bit words. -/
structure Arm11Blob where
  /-- Header word at blob byte 4: `*(u32 *)(arm11_exceptions_bin + 4)`. -/
  fiqOffset : Nat
  /-- Header word at blob byte 8: `*(u32 *)(arm11_exceptions_bin + 8)`. -/
  undefOffset : Nat
  /-- Header word at blob byte 12: `*(u32 *)(arm11_exceptions_bin + 12)`. -/
  pabtOffset : Nat
  /-- Words of `arm11_exceptions_bin + 32`, `arm11_exceptions_bin_size - 32` bytes. -/
  body : List Nat

/-- Number of body words, `(arm11_exceptions_bin_size - 32) / 4`. -/
def Arm11Blob.bodyWords (blob : Arm11Blob) : Nat := blob.body.length

/-- The constant `arm11_exceptions_bin_size`, in bytes. -/
def Arm11Blob.size (blob : Arm11Blob) : Nat := 32 + 4 * blob.body.length

/-- The loop `for(p = start; p < endPos && *p != v; p++);` with `n` words left
before `endPos`; the result is the final value of `p`. -/
def scanFor (mem : WordMem) (v : Nat) : Nat → Nat → Nat
  | p, 0 => p
  | p, n + 1 => if mem p = v then p else scanFor mem v (p + 1) n

/-- Final value of `initFPU` after the first scan (line 54); `0x400` when the
marker is absent. -/
def initFPUPos (page : WordMem) : Nat := scanFor page 0xE1A0D002 0 0x400

/-- Final value of `freeSpace` after the second scan (line 57), which starts at
`initFPU`. -/
def freeSpacePos (page : WordMem) : Nat :=
  scanFor page 0xFFFFFFFF (initFPUPos page) (0x400 - initFPUPos page)

/-- Final value of `mcuReboot` after the third scan (line 60). -/
def mcuRebootPos (page : WordMem) : Nat := scanFor page 0xE3A0A0C2 0 0x400

/-- The word read by the last test of line 62,
`*(u32 *)((u8 *)freeSpace + arm11_exceptions_bin_size - 36)`: the word
`bodyWords - 1` after `freeSpace`. -/
def endWordPos (page : WordMem) (blob : Arm11Blob) : Nat :=
  freeSpacePos page + blob.bodyWords - 1

/-- The condition of line 62 under which the function returns 1.  The last
disjunct is only evaluated when the first three are false. -/
def validationFails (page : WordMem) (blob : Arm11Blob) : Bool :=
  initFPUPos page == 0x400 || freeSpacePos page == 0x400 || mcuRebootPos page == 0x400
    || page (endWordPos page blob) != 0xFFFFFFFF

/-- The call `memcpy(freeSpace, arm11_exceptions_bin + 32, arm11_exceptions_bin_size - 32)`. -/
def memcpyBody (mem : WordMem) (dst : Nat) (body : List Nat) : WordMem :=
  fun j => if dst ≤ j ∧ j < dst + body.length then body.getD (j - dst) 0 else mem j

/-- Lines 69 to 71: the three vector slots. -/
def writeVectors (mem : WordMem) (blob : Arm11Blob) (freeSpace : Nat) : WordMem :=
  let m1 := wr mem 1 (MAKE_BRANCH (4 * 1) (4 * (freeSpace : Int) + blob.undefOffset - 32))
  let m3 := wr m1 3 (MAKE_BRANCH (4 * 3) (4 * (freeSpace : Int) + blob.pabtOffset - 32))
  wr m3 7 (MAKE_BRANCH (4 * 7) (4 * (freeSpace : Int) + blob.fiqOffset - 32))

/-- The value of `va_dst` (line 75). -/
def vaDst (blob : Arm11Blob) (freeSpace : Nat) : Nat :=
  (0xFFFF0000 + (4 * freeSpace + blob.fiqOffset)) % 2 ^ 32

/-- The value of `va_src` (lines 80 and 86) when `pos` is `idx` words after
`dAbtHandler`. -/
def vaSrc (dAbtHandlerMemAddress idx : Nat) : Nat :=
  (dAbtHandlerMemAddress + 4 * idx) % 2 ^ 32

/-- The loop of lines 73 to 90 over the data-abort snippet.  The snippet is the
finite word sequence at `dAbtHandler`; `pos` is the index of the scan in it.  The
result is `none` when the scan leaves the supplied words (what the code does then
depends on memory that is not part of the input) and otherwise the snippet as the
loop leaves it.  `fuel` bounds the number of iterations; `pos` grows in each one. -/
def dAbtLoop (stackAddress dst dAbtHandlerMemAddress : Nat) :
    Nat → Nat → List Nat → Option (List Nat)
  | 0, _, _ => none
  | fuel + 1, pos, snip =>
    match snip[pos]? with
    | none => none
    | some w =>
      if w = stackAddress then some snip
      else if w = 0xF96D0513 then
        dAbtLoop stackAddress dst dAbtHandlerMemAddress fuel (pos + 1)
          (snip.set pos (MAKE_BRANCH (vaSrc dAbtHandlerMemAddress pos) dst))
      else if w = 0xE29EF004 then
        if pos + 2 < snip.length then
          dAbtLoop stackAddress dst dAbtHandlerMemAddress fuel (pos + 3)
            ((snip.set (pos + 1) 0xE8BD000F).set (pos + 2)
              (MAKE_BRANCH (vaSrc dAbtHandlerMemAddress (pos + 2)) dst))
        else none
      else dAbtLoop stackAddress dst dAbtHandlerMemAddress fuel (pos + 1) snip

/-- The positions at which the loop of lines 73 to 90 runs its body, in order:
the control flow of `dAbtLoop` on the words of the snippet (the scan never reads
a word it has written).  It ends at a word equal to `stackAddress`; after a
`subs pc, lr, 4` word it goes on three words later. -/
def dAbtVisited (stackAddress : Nat) : Nat → Nat → List Nat → List Nat
  | 0, _, _ => []
  | fuel + 1, pos, snip =>
    match snip[pos]? with
    | none => []
    | some w =>
      if w = stackAddress then []
      else if w = 0xE29EF004 then pos :: dAbtVisited stackAddress fuel (pos + 3) snip
      else pos :: dAbtVisited stackAddress fuel (pos + 1) snip

/-- Whether the loop of lines 73 to 90 gets to a word equal to `stackAddress`:
the control flow of `dAbtLoop` on the words of the snippet (the scan never reads
a word it has written).  After a `subs pc, lr, 4` word the scan goes on three
words later; the value is `false` when the scan leaves the supplied words. -/
def dAbtReaches (stackAddress : Nat) : Nat → Nat → List Nat → Bool
  | 0, _, _ => false
  | fuel + 1, pos, snip =>
    match snip[pos]? with
    | none => false
    | some w =>
      if w = stackAddress then true
      else if w = 0xF96D0513 then dAbtReaches stackAddress fuel (pos + 1) snip
      else if w = 0xE29EF004 then
        if pos + 2 < snip.length then dAbtReaches stackAddress fuel (pos + 3) snip else false
      else dAbtReaches stackAddress fuel (pos + 1) snip

/-- The parameters of the relocation loop that do not change while it runs. -/
structure RelocCtx where
  stackAddress : Nat
  codeSetOffset : Nat
  /-- Word index of `freeSpace`. -/
  freeSpace : Nat
  /-- Word index of `initFPU` after `initFPU += 3`. -/
  initFPU : Nat
  /-- Word index of `mcuReboot` after `mcuReboot -= 2` (it can be negative). -/
  mcuReboot : Int

/-- One iteration of the relocation loop (the `switch` of lines 95 to 102) with
`pos` at word index `pos`. -/
def relocStep (c : RelocCtx) (mem : WordMem) (pos : Nat) : WordMem :=
  if mem pos = 0xFFFF3000 then wr mem pos ((c.stackAddress + (2 ^ 32 - 0x10)) % 2 ^ 32)
  else if mem pos = 0xEBFFFFFE then
    wr mem pos (MAKE_BRANCH_LINK (4 * (pos : Int)) (4 * (c.initFPU : Int)))
  else if mem pos = 0xEAFFFFFE then
    wr mem pos (MAKE_BRANCH (4 * (pos : Int)) (4 * c.mcuReboot))
  else if mem pos = 0xE12FFF1C then
    wr mem (pos + 1) ((0xFFFF0000 + 4 * c.freeSpace + mem (pos + 1) + (2 ^ 32 - 32)) % 2 ^ 32)
  else if mem pos = 0xBEEFBEEF then wr mem pos c.codeSetOffset
  else mem

/-- The relocation loop of lines 93 to 103, with `n` words left before the end
of the copied region. -/
def relocLoop (c : RelocCtx) : Nat → Nat → WordMem → WordMem
  | 0, _, mem => mem
  | n + 1, pos, mem => relocLoop c n (pos + 1) (relocStep c mem pos)

/-- What a call of `installArm11Handlers` leaves behind. -/
structure InstallResult where
  /-- The returned `u32`. -/
  ret : Nat
  /-- The memory at `exceptionsPage` after the call. -/
  page : WordMem
  /-- The data-abort snippet after the call. -/
  dAbt : List Nat

/-- The function `installArm11Handlers` (lines 49 to 106).  `page` is the memory
at `exceptionsPage`, `dAbtHandler` the words of the data-abort snippet (a region
of its own, disjoint from `page`).  The result is `none` when the scan of the
snippet leaves the supplied words. -/
def installArm11Handlers (blob : Arm11Blob) (page : WordMem) (stackAddress codeSetOffset : Nat)
    (dAbtHandler : List Nat) (dAbtHandlerMemAddress : Nat) : Option InstallResult :=
  let initFPU := initFPUPos page
  let freeSpace := freeSpacePos page
  let mcuReboot := mcuRebootPos page
  if validationFails page blob then some ⟨1, page, dAbtHandler⟩
  else
    let copied := memcpyBody page freeSpace blob.body
    let vectors := writeVectors copied blob freeSpace
    match dAbtLoop stackAddress (vaDst blob freeSpace) dAbtHandlerMemAddress
        (dAbtHandler.length + 1) 0 dAbtHandler with
    | none => none
    | some snip =>
      let c : RelocCtx := ⟨stackAddress, codeSetOffset, freeSpace, initFPU + 3, (mcuReboot : Int) - 2⟩
      some ⟨0, relocLoop c blob.bodyWords freeSpace vectors, snip⟩

/-- The return code of a call, when it returns. -/
def retCode (r : Option InstallResult) : Option Nat := r.map (fun x => x.ret)

/-! ## Exception dump reporter -/

/-- Byte-addressed physical memory: the byte (a value below 256) at each address. -/
abbrev ByteMem := Nat → Nat

/-- A little-endian 16-bit read, `*(vu16 *)a`. -/
def rd16 (mem : ByteMem) (a : Nat) : Nat := mem a + 2 ^ 8 * mem (a + 1)

/-- A little-endian 32-bit read, `*(vu32 *)a`. -/
def rd32 (mem : ByteMem) (a : Nat) : Nat :=
  mem a + 2 ^ 8 * mem (a + 1) + 2 ^ 16 * mem (a + 2) + 2 ^ 24 * mem (a + 3)

/-- A little-endian 64-bit read, `*(vu64 *)a`. -/
def rd64 (mem : ByteMem) (a : Nat) : Nat := rd32 mem a + 2 ^ 32 * rd32 mem (a + 4)

/-- The address the reporter reads the dump header from (line 110). -/
def dumpHeaderAddr : Nat := 0x25000000

/-- Modelled from the spec: the record `ExceptionDumpHeader` is declared in
`exceptions.h`, which is not among the sources.  The spec names its fields (two
magic words, processor, core, type, the four section sizes, totalSize); the
offsets below are those of the packed record `u32 magic[2]; u16 versionMinor,
versionMajor; u16 processor, core; u32 type; u32 totalSize; u32 registerDumpSize;
u32 codeDumpSize; u32 stackDumpSize; u32 additionalDataSize;`.  This is
`sizeof(ExceptionDumpHeader)`. -/
def sizeofExceptionDumpHeader : Nat := 40

/-- Field `dumpHeader->magic[0]`. -/
def magic0 (mem : ByteMem) : Nat := rd32 mem dumpHeaderAddr
/-- Field `dumpHeader->magic[1]`. -/
def magic1 (mem : ByteMem) : Nat := rd32 mem (dumpHeaderAddr + 4)
/-- Field `dumpHeader->processor`. -/
def processor (mem : ByteMem) : Nat := rd16 mem (dumpHeaderAddr + 12)
/-- Field `dumpHeader->core`. -/
def core (mem : ByteMem) : Nat := rd16 mem (dumpHeaderAddr + 14)
/-- Field `dumpHeader->type`. -/
def type (mem : ByteMem) : Nat := rd32 mem (dumpHeaderAddr + 16)
/-- Field `dumpHeader->totalSize`. -/
def totalSize (mem : ByteMem) : Nat := rd32 mem (dumpHeaderAddr + 20)
/-- Field `dumpHeader->registerDumpSize`. -/
def registerDumpSize (mem : ByteMem) : Nat := rd32 mem (dumpHeaderAddr + 24)
/-- Field `dumpHeader->codeDumpSize`. -/
def codeDumpSize (mem : ByteMem) : Nat := rd32 mem (dumpHeaderAddr + 28)
/-- Field `dumpHeader->stackDumpSize`. -/
def stackDumpSize (mem : ByteMem) : Nat := rd32 mem (dumpHeaderAddr + 32)
/-- Field `dumpHeader->additionalDataSize`. -/
def additionalDataSize (mem : ByteMem) : Nat := rd32 mem (dumpHeaderAddr + 36)

/-- The pointer `regs` (line 114). -/
def regsAddr : Nat := dumpHeaderAddr + sizeofExceptionDumpHeader

/-- The value `regs[i]`. -/
def regs (mem : ByteMem) (i : Nat) : Nat := rd32 mem (regsAddr + 4 * i)

/-- The initial pointer `stackDump` (line 115), a 32-bit address. -/
def stackDumpAddr (mem : ByteMem) : Nat :=
  (regsAddr + registerDumpSize mem + codeDumpSize mem) % 2 ^ 32

/-- The pointer `additionalData` (line 116), a 32-bit address. -/
def additionalDataAddr (mem : ByteMem) : Nat :=
  (stackDumpAddr mem + stackDumpSize mem) % 2 ^ 32

/-- The table `handledExceptionNames` (line 118). -/
def handledExceptionNames : List String :=
  ["FIQ", "undefined instruction", "prefetch abort", "data abort"]

/-- The table `specialExceptions` (line 122). -/
def specialExceptions : List String := ["kernel panic", "svcBreak"]

/-- The table `registerNames` (line 126). -/
def registerNames : List String :=
  ["R0", "R1", "R2", "R3", "R4", "R5", "R6", "R7", "R8", "R9", "R10", "R11", "R12",
   "SP", "LR", "PC", "CPSR", "FPEXC"]

/-- The colours `COLOR_RED`, `COLOR_WHITE`, `COLOR_YELLOW` of `draw.h`. -/
inductive Color where
  | red | white | yellow
  deriving DecidableEq, Repr

/-- An argument passed after a format string. -/
inductive FmtArg where
  /-- A string of one of the tables, for a `%s` conversion. -/
  | str (s : String)
  /-- An integer, for `%u`, `%08X`, `%02X` or `%016llX`. -/
  | num (v : Nat)
  /-- A pointer to bytes in memory for `%.8s`, given by the 8 bytes found there. -/
  | chars (bytes : List Nat)
  deriving DecidableEq, Repr

/-- A call to one of the external collaborators, with its arguments. -/
inductive Event where
  | initScreens
  | drawString (isTopScreen : Bool) (posX posY : Nat) (color : Color) (text : String)
  | drawFormattedString (isTopScreen : Bool) (posX posY : Nat) (color : Color)
      (fmt : String) (args : List FmtArg)
  | findDumpFile (folderPath : String)
  | fileWrite (buffer : Nat) (path : String) (size : Nat)
  | waitInput (isMenu : Bool)
  | mcuPowerOff
  deriving DecidableEq, Repr

/-- The external collaborators of the reporter (screen, storage), which are not
part of `exceptions.c`: the layout constants of `draw.h` and what the calls
return. -/
structure Collaborators where
  /-- The constant `SPACING_X`. -/
  SPACING_X : Nat
  /-- The constant `SPACING_Y`. -/
  SPACING_Y : Nat
  /-- The value a call of `drawString` or `drawFormattedString` returns. -/
  drawResult : Event → Nat
  /-- The file name `findDumpFile` stores for a folder. -/
  dumpFileName : String → String
  /-- Whether `fileWrite` to a path succeeds. -/
  fileWriteResult : String → Bool

/-- A call `drawString(...)`: the event and the returned vertical position. -/
def drawString (env : Collaborators) (isTopScreen : Bool) (posX posY : Nat) (color : Color)
    (text : String) : Event × Nat :=
  (Event.drawString isTopScreen posX posY color text,
   env.drawResult (Event.drawString isTopScreen posX posY color text))

/-- A call `drawFormattedString(...)`: the event and the returned vertical position. -/
def drawFormattedString (env : Collaborators) (isTopScreen : Bool) (posX posY : Nat)
    (color : Color) (fmt : String) (args : List FmtArg) : Event × Nat :=
  (Event.drawFormattedString isTopScreen posX posY color fmt args,
   env.drawResult (Event.drawFormattedString isTopScreen posX posY color fmt args))

/-- The read `handledExceptionNames[dumpHeader->type]` of lines 144 to 160.  The
table has four entries and the header field is not checked: for a type above 3
the index is past the table and the read has no defined value, which is
`none`. -/
def exceptionName (mem : ByteMem) : Option String := handledExceptionNames[type mem]?

/-- A call `drawFormattedString(true, 10, posY + SPACING_Y, COLOR_WHITE, fmt, ...)`
of lines 144 to 160 as a one-call list, and the value it assigns to `posY`. -/
def drawTypeLine (env : Collaborators) (posY : Nat) (fmt : String) (args : List FmtArg) :
    List Event × Nat :=
  let d := drawFormattedString env true 10 (posY + env.SPACING_Y) Color.white fmt args
  ([d.1], d.2)

/-- Lines 138 to 160: the calls that draw the exception type, and `posY` after
them.  `posY` is the value before line 138.  The result is `none` when the
branch taken reads `handledExceptionNames` past its end. -/
def drawExceptionType (env : Collaborators) (mem : ByteMem) (posY : Nat) :
    Option (List Event × Nat) :=
  if type mem = 2 then
    if regs mem 16 &&& 0x20 = 0 ∧ codeDumpSize mem ≥ 4 then
      let instr := rd32 mem ((stackDumpAddr mem + (2 ^ 32 - 4)) % 2 ^ 32)
      if instr = 0xE12FFF7E then
        (exceptionName mem).map (fun name =>
          drawTypeLine env posY "Exception type:  %s (%s)"
            [FmtArg.str name, FmtArg.str (specialExceptions.getD 0 "")])
      else if instr = 0xEF00003C then
        (exceptionName mem).map (fun name =>
          drawTypeLine env posY "Exception type:  %s (%s)"
            [FmtArg.str name, FmtArg.str (specialExceptions.getD 1 "")])
      else
        (exceptionName mem).map (fun name =>
          drawTypeLine env posY "Exception type:  %s" [FmtArg.str name])
    else if regs mem 16 &&& 0x20 ≠ 0 ∧ codeDumpSize mem ≥ 2 then
      let instr := rd16 mem ((stackDumpAddr mem + (2 ^ 32 - 2)) % 2 ^ 32)
      if instr = 0xDF3C then
        (exceptionName mem).map (fun name =>
          drawTypeLine env posY "Exception type:  %s (%s)"
            [FmtArg.str name, FmtArg.str (specialExceptions.getD 0 "")])
      else
        (exceptionName mem).map (fun name =>
          drawTypeLine env posY "Exception type:  %s" [FmtArg.str name])
    else some ([], posY)
  else
    (exceptionName mem).map (fun name =>
      drawTypeLine env posY "Exception type:  %s" [FmtArg.str name])

/-- Lines 162 to 164: the current process. -/
def drawCurrentProcess (env : Collaborators) (mem : ByteMem) (posY : Nat) : List Event × Nat :=
  if processor mem = 11 ∧ additionalDataSize mem ≠ 0 then
    let d := drawFormattedString env true 10 (posY + env.SPACING_Y) Color.white
      "Current process: %.8s (%016llX)"
      [FmtArg.chars ((List.range 8).map (fun k => mem ((additionalDataAddr mem + k) % 2 ^ 32))),
       FmtArg.num (rd64 mem ((additionalDataAddr mem + 8) % 2 ^ 32))]
    ([d.1], d.2)
  else ([], posY)

/-- The body of the loop of lines 167 to 173 for one value of `i`. -/
def drawRegisterRow (env : Collaborators) (mem : ByteMem) (i posY : Nat) : List Event × Nat :=
  let l := drawFormattedString env true 10 (posY + env.SPACING_Y) Color.white "%-7s%08X"
    [FmtArg.str (registerNames.getD i ""), FmtArg.num (regs mem i)]
  if i ≠ 16 ∨ processor mem ≠ 9 then
    let r := drawFormattedString env true (10 + 22 * env.SPACING_X) l.2 Color.white "%-7s%08X"
      [FmtArg.str (registerNames.getD (i + 1) ""), FmtArg.num (regs mem (i + 1))]
    ([l.1, r.1], r.2)
  else ([l.1], l.2)

/-- The loop `for(u32 i = 0; i < 17; i += 2)` of lines 167 to 173, with `n`
iterations left and `i` the current index. -/
def drawRegisters (env : Collaborators) (mem : ByteMem) : Nat → Nat → Nat → List Event × Nat
  | 0, _, posY => ([], posY)
  | n + 1, i, posY =>
    let row := drawRegisterRow env mem i posY
    let rest := drawRegisters env mem n (i + 2) row.2
    (row.1 ++ rest.1, rest.2)

/-- The inner loop of line 187, `for(i = 0; i < 8 && stackDump < additionalData;
i++, stackDump++)`, with `n = 8 - i` iterations left: the calls and the final
`stackDump`. -/
def drawStackBytes (env : Collaborators) (mem : ByteMem) (posYBottom : Nat) :
    Nat → Nat → Nat → List Event × Nat
  | 0, _, stackDump => ([], stackDump)
  | n + 1, i, stackDump =>
    if stackDump < additionalDataAddr mem then
      let d := drawFormattedString env false (10 + 10 * env.SPACING_X + 3 * i * env.SPACING_X)
        posYBottom Color.white "%02X" [FmtArg.num (mem stackDump)]
      let rest := drawStackBytes env mem posYBottom n (i + 1) (stackDump + 1)
      (d.1 :: rest.1, rest.2)
    else ([], stackDump)

/-- The loop of lines 183 to 189, `for(line = 0; line < 19 && stackDump <
additionalData; line++)`, with `n = 19 - line` iterations left. -/
def drawStackLines (env : Collaborators) (mem : ByteMem) :
    Nat → Nat → Nat → Nat → List Event
  | 0, _, _, _ => []
  | n + 1, line, stackDump, posYBottom =>
    if stackDump < additionalDataAddr mem then
      let d := drawFormattedString env false 10 (posYBottom + env.SPACING_Y) Color.white "%08X:"
        [FmtArg.num ((regs mem 13 + 8 * line) % 2 ^ 32)]
      let bytes := drawStackBytes env mem d.2 8 0 stackDump
      d.1 :: bytes.1 ++ drawStackLines env mem n (line + 1) bytes.2 d.2
    else []

/-- Modelled from the spec: the helper `memset32` is not among the sources; the
spec has the reporter zero exactly `totalSize` bytes starting at the dump header
address.  This is `memset32(dest, 0, size)`. -/
def memset32Zero (mem : ByteMem) (dest size : Nat) : ByteMem :=
  fun a => if dest ≤ a ∧ a < dest + size then 0 else mem a

/-- The test of line 112 under which the reporter goes on. -/
def dumpPresent (mem : ByteMem) : Bool :=
  magic0 mem == 0xDEADC0DE && magic1 mem == 0xDEADCAFE &&
    (processor mem == 9 || processor mem == 11)

/-- Lines 191 to 206: the dump file and the last messages.  `posY` is the value
after line 179. -/
def writeDumpFile (env : Collaborators) (mem : ByteMem) (posY : Nat) : List Event :=
  let folderPath := "dumps/arm" ++ toString (processor mem)
  let path := folderPath ++ "/" ++ env.dumpFileName folderPath
  let written :=
    if env.fileWriteResult path then
      let d1 := drawString env true 10 (posY + env.SPACING_Y) Color.white
        "You can find a dump in the following file:"
      let d2 := drawString env true 10 (d1.2 + env.SPACING_Y) Color.white path
      ([d1.1, d2.1], d2.2 + env.SPACING_Y)
    else
      let d := drawString env true 10 (posY + env.SPACING_Y) Color.red
        "Error writing the dump file"
      ([d.1], d.2)
  [Event.findDumpFile folderPath, Event.fileWrite dumpHeaderAddr path (totalSize mem)]
    ++ written.1
    ++ [(drawString env true 10 (written.2 + env.SPACING_Y) Color.white
          "Press any button to shutdown").1]

/-- Lines 135 and 136: the processor line, and `posY` after it. -/
def drawProcessor (env : Collaborators) (mem : ByteMem) : Event × Nat :=
  if processor mem = 11 then
    drawFormattedString env true 10 30 Color.white "Processor:       ARM11 (core %u)"
      [FmtArg.num (core mem)]
  else drawString env true 10 30 Color.white "Processor:       ARM9"

/-- The value of `posY` after line 165, `posY` being its value after line 160. -/
def posYBeforeRegisters (env : Collaborators) (mem : ByteMem) (posY : Nat) : Nat :=
  (drawCurrentProcess env mem posY).2 + env.SPACING_Y

/-- The value of `posY` after line 175, `posY` being its value after line 160. -/
def posYAfterRegisters (env : Collaborators) (mem : ByteMem) (posY : Nat) : Nat :=
  (drawRegisters env mem 9 0 (posYBeforeRegisters env mem posY)).2 + env.SPACING_Y

/-- Lines 177 to 179: the warning about an unreliable dump, and `posY` after it.
`posY` is the value after line 175. -/
def drawWarning (env : Collaborators) (mem : ByteMem) (posY : Nat) : List Event × Nat :=
  if type mem = 3 ∧ (regs mem 16 &&& 0xF = 7 ∨ regs mem 16 &&& 0xF = 11) then
    let d := drawString env true 10 (posY + env.SPACING_Y) Color.yellow
      "Incorrect dump: failed to dump code and/or stack"
    ([d.1], d.2 + env.SPACING_Y)
  else ([], posY)

/-- Lines 181 to 189: the stack dump on the bottom screen. -/
def drawStackDump (env : Collaborators) (mem : ByteMem) : List Event :=
  let hdr := drawString env false 10 10 Color.white "Stack dump:"
  hdr.1 :: drawStackLines env mem 19 0 (stackDumpAddr mem) (hdr.2 + env.SPACING_Y)

/-- The function `detectAndProcessExceptionDumps` (lines 108 to 212): the calls
it makes to its collaborators, in order, and the memory it leaves.  When the run
reads `handledExceptionNames` past its end (line 160 with a type above 3), what
follows is not defined by the source: the calls are those made before that read
and no memory is given.  Screen coordinates are small numbers, their 32-bit
wrap-around is not modelled. -/
def detectAndProcessExceptionDumps (env : Collaborators) (mem : ByteMem) :
    List Event × Option ByteMem :=
  if dumpPresent mem then
    match drawExceptionType env mem (drawProcessor env mem).2 with
    | none =>
      ([Event.initScreens, (drawString env true 10 10 Color.red "An exception occurred").1,
        (drawProcessor env mem).1], none)
    | some ty =>
      (Event.initScreens
          :: (drawString env true 10 10 Color.red "An exception occurred").1
          :: ((drawProcessor env mem).1
              :: ty.1
              ++ (drawCurrentProcess env mem ty.2).1
              ++ (drawRegisters env mem 9 0 (posYBeforeRegisters env mem ty.2)).1
              ++ (drawWarning env mem (posYAfterRegisters env mem ty.2)).1
              ++ drawStackDump env mem
              ++ writeDumpFile env mem (drawWarning env mem (posYAfterRegisters env mem ty.2)).2)
          ++ [Event.waitInput false, Event.mcuPowerOff],
        some (memset32Zero mem dumpHeaderAddr (totalSize mem)))
  else ([], some mem)

/-- Modelled from the spec: the formatted-string rendering collaborator is not
among the sources.  This is the text it renders for a format whose conversions
are all `%s`: each `%s` is replaced by the next argument. -/
def renderS : List Char → List String → List Char
  | '%' :: 's' :: rest, a :: as => a.data ++ renderS rest as
  | c :: rest, as => c :: renderS rest as
  | [], _ => []

/-- The text of an event that draws a `%s`-only format with string arguments. -/
def renderedText : Event → Option String
  | Event.drawString _ _ _ _ text => some text
  | Event.drawFormattedString _ _ _ _ fmt args =>
    some (String.mk (renderS fmt.data (args.filterMap (fun a =>
      match a with
      | FmtArg.str s => some s
      | _ => none))))
  | _ => none

/-- The address an ARM `B`/`BL` instruction at byte address `src` branches to:
`src + 8` plus four times the sign-extended 24-bit immediate. -/
def branchTarget (src : Int) (instr : Nat) : Int :=
  src + 8 + 4 * (if instr % 2 ^ 24 < 2 ^ 23 then ((instr % 2 ^ 24 : Nat) : Int)
    else ((instr % 2 ^ 24 : Nat) : Int) - 2 ^ 24)

/-- The four words the relocation loop replaces in place: the stack-pointer
placeholder, `bl .`, `b .` and the code-set placeholder. -/
def IsPlaceholder (w : Nat) : Prop :=
  w = 0xFFFF3000 ∨ w = 0xEBFFFFFE ∨ w = 0xEAFFFFFE ∨ w = 0xBEEFBEEF

instance : DecidablePred IsPlaceholder := fun w => by
  unfold IsPlaceholder
  infer_instance

/-- The five words the relocation loop looks for: the four placeholders and
`bx r12`. -/
def IsSentinel (w : Nat) : Prop :=
  w = 0xFFFF3000 ∨ w = 0xEBFFFFFE ∨ w = 0xEAFFFFFE ∨ w = 0xE12FFF1C ∨ w = 0xBEEFBEEF

instance : DecidablePred IsSentinel := fun w => by
  unfold IsSentinel
  infer_instance

/-- The value line 100 stores in the word after a `bx r12` that held `x`:
`0xFFFF0000 + 4 * freeSpace + x - 32` as a 32-bit value, `freeSpace` being the
word index of the free-space start. -/
def literalValue (freeSpace x : Nat) : Nat :=
  (0xFFFF0000 + 4 * freeSpace + x + (2 ^ 32 - 32)) % 2 ^ 32

/-- The relocation rules for a word `w` at word index `pos`, as the specification
has them: the stack-pointer placeholder becomes `stackAddress - 16`, `bl .` a
`BL` to the adjusted FPU-init word, `b .` a `B` to the adjusted MCU-reboot word,
the code-set placeholder the code-set offset, and every other word stays. -/
def relocated (c : RelocCtx) (pos w : Nat) : Nat :=
  if w = 0xFFFF3000 then (c.stackAddress + (2 ^ 32 - 0x10)) % 2 ^ 32
  else if w = 0xEBFFFFFE then MAKE_BRANCH_LINK (4 * (pos : Int)) (4 * (c.initFPU : Int))
  else if w = 0xEAFFFFFE then MAKE_BRANCH (4 * (pos : Int)) (4 * c.mcuReboot)
  else if w = 0xBEEFBEEF then c.codeSetOffset
  else w

/-- Whether `label` occurs in `text`. -/
def includesText (text label : String) : Bool :=
  text.data.tails.any (fun t => label.data.isPrefixOf t)

/-- The rendered text of a call that draws an `Exception type:` format. -/
def exceptionTypeText : Event → Option String
  | Event.drawFormattedString t x y c fmt args =>
    if "Exception type:".data.isPrefixOf fmt.data then
      renderedText (Event.drawFormattedString t x y c fmt args)
    else none
  | _ => none

/-- The rendered `Exception type:` lines of a list of calls, in order. -/
def exceptionTypeTexts (events : List Event) : List String :=
  events.filterMap exceptionTypeText

/-- The position and the arguments of a call that draws a register, that is, a
call with the format `%-7s%08X`: `(posX, posY, args)`. -/
def registerCell : Event → Option (Nat × Nat × List FmtArg)
  | Event.drawFormattedString _ posX posY _ fmt args =>
    if fmt = "%-7s%08X" then some (posX, posY, args) else none
  | _ => none

/-- The register cells drawn by a list of calls, in order. -/
def registerCells (events : List Event) : List (Nat × Nat × List FmtArg) :=
  events.filterMap registerCell

/-- A register cell without its vertical position: `(posX, args)`. -/
def columnOf (c : Nat × Nat × List FmtArg) : Nat × List FmtArg := (c.1, c.2.2)

/-- The entries of row `k` of the register grid as the specification has it:
register `2k` at the left, register `2k + 1` at the right, the latter left out
in the last row of a processor 9 dump. -/
def expectedRegisterRow (env : Collaborators) (mem : ByteMem) (k : Nat) :
    List (Nat × List FmtArg) :=
  [(10, [FmtArg.str (registerNames.getD (2 * k) ""), FmtArg.num (regs mem (2 * k))])]
    ++ (if k = 8 ∧ processor mem = 9 then []
        else [(10 + 22 * env.SPACING_X,
          [FmtArg.str (registerNames.getD (2 * k + 1) ""), FmtArg.num (regs mem (2 * k + 1))])])

/-- Row `k` of the register grid with all its entries at the vertical position
`y`. -/
def expectedRegisterRowAt (env : Collaborators) (mem : ByteMem) (y k : Nat) :
    List (Nat × Nat × List FmtArg) :=
  (expectedRegisterRow env mem k).map (fun e => (e.1, y, e.2))

/-! ## Primary-processor vector installer -/

/-- A 32-bit little-endian store at a byte address, `*(vu32 *)a = v`. -/
def wr32 (mem : ByteMem) (a v : Nat) : ByteMem :=
  fun x =>
    if x = a then v % 256
    else if x = a + 1 then v / 2 ^ 8 % 256
    else if x = a + 2 then v / 2 ^ 16 % 256
    else if x = a + 3 then v / 2 ^ 24 % 256
    else mem x

/-- A byte copy `memcpy(dst, bytes, bytes.length)`. -/
def memcpyBytes (mem : ByteMem) (dst : Nat) (bytes : List Nat) : ByteMem :=
  fun x => if dst ≤ x ∧ x < dst + bytes.length then bytes.getD (x - dst) 0 else mem x

/-- The handler blob `arm9_exceptions_bin` of the generated `bundled.h` (not among
the sources), given by the parts the installer reads: the 32-bit words of its
header, bytes `[0, 32)`, and the bytes of its body, bytes `[32, size)`. -/
structure Arm9Blob where
  /-- The word `*((u32 *)arm9_exceptions_bin + k)`, for `k < 8`. -/
  headerWord : Nat → Nat
  /-- The bytes of `arm9_exceptions_bin + 32`, `arm9_exceptions_bin_size - 32` of them. -/
  body : List Nat

/-- The table `offsets` of line 40. -/
def offsets : List Nat := [0x08, 0x18, 0x20, 0x28]

/-- The loop of lines 42 to 46 with `n` iterations left and the index `i`. -/
def installStubs (blob : Arm9Blob) : Nat → Nat → ByteMem → ByteMem
  | 0, _, mem => mem
  | n + 1, i, mem =>
    installStubs blob n (i + 1)
      (wr32 (wr32 mem (0x08000000 + offsets.getD i 0) 0xE51FF004)
        (0x08000000 + offsets.getD i 0 + 4) (blob.headerWord (1 + i)))

/-- The function `installArm9Handlers` (lines 33 to 47): the memory it leaves. -/
def installArm9Handlers (blob : Arm9Blob) (mem : ByteMem) : ByteMem :=
  installStubs blob 4 0 (memcpyBytes mem 0x01FF8000 blob.body)

/-! ## Concrete inputs -/

/-- A page in which the only `0xFFFFFFFF` word precedes the FPU-init marker. -/
def sentinelFirstPage : WordMem :=
  fun i => if i = 0 then 0xFFFFFFFF else if i = 1 then 0xE1A0D002
    else if i = 2 then 0xE3A0A0C2 else 0

/-- A blob with a one-word body and all header offsets 32. -/
def oneWordBlob : Arm11Blob := ⟨32, 32, 32, [0]⟩

/-- A page with the FPU-init marker at word 8, the MCU-reboot marker at word 9
and free space from word 10 on. -/
def markedPage : WordMem :=
  fun i => if i = 8 then 0xE1A0D002 else if i = 9 then 0xE3A0A0C2
    else if 10 ≤ i then 0xFFFFFFFF else 0

/-- A blob with a one-word body whose three header offsets are 0. -/
def zeroOffsetBlob : Arm11Blob := ⟨0, 0, 0, [0]⟩

/-- A page with the FPU-init marker at word 0, free space in words 1 to 99 and
the MCU-reboot marker at word 100. -/
def lowFreePage : WordMem :=
  fun i => if i = 0 then 0xE1A0D002 else if i < 100 then 0xFFFFFFFF
    else if i = 100 then 0xE3A0A0C2 else 0

/-- A blob with an eight-word body whose undefined-instruction entry is the first
body word. -/
def entryAtStartBlob : Arm11Blob := ⟨36, 32, 40, [0, 0, 0, 0, 0, 0, 0, 0]⟩

/-- A blob whose body is `bx r12` followed by one literal word. -/
def bxBlob : Arm11Blob := ⟨32, 32, 32, [0xE12FFF1C, 0x20]⟩

/-- A blob whose body is the code-set placeholder. -/
def codeSetBlob : Arm11Blob := ⟨32, 32, 32, [0xBEEFBEEF]⟩

/-- A blob whose body is the single word `bx r12`. -/
def bxLastBlob : Arm11Blob := ⟨32, 32, 32, [0xE12FFF1C]⟩

/-- A page like `markedPage` whose words 10 and 12 hold `0xFFFFFFFF` while word
11, between them, holds other code. -/
def holePage : WordMem :=
  fun i => if i = 8 then 0xE1A0D002 else if i = 9 then 0xE3A0A0C2
    else if i = 10 then 0xFFFFFFFF else if i = 11 then 0xE12FFF1E
    else if i = 12 then 0xFFFFFFFF else 0

/-- A blob with a three-word body. -/
def threeWordBlob : Arm11Blob := ⟨32, 36, 40, [0xE1A00000, 0xE1A00000, 0xE1A00000]⟩

/-- The bytes of a 16-bit value, little-endian. -/
def le16 (v : Nat) : List Nat := [v % 256, v / 2 ^ 8 % 256]

/-- The bytes of a 32-bit value, little-endian. -/
def le32 (v : Nat) : List Nat := [v % 256, v / 2 ^ 8 % 256, v / 2 ^ 16 % 256, v / 2 ^ 24 % 256]

/-- A memory holding, at the dump address, a header with both magic words and
the given fields, followed by the register, code, stack and additional-data
sections; every other byte is 0. -/
def dumpImage (processor core type totalSize : Nat) (regValues code stack additional : List Nat) :
    ByteMem :=
  fun a =>
    if dumpHeaderAddr ≤ a then
      (le32 0xDEADC0DE ++ le32 0xDEADCAFE ++ le16 0 ++ le16 1 ++ le16 processor ++ le16 core
        ++ le32 type ++ le32 totalSize ++ le32 (4 * regValues.length) ++ le32 code.length
        ++ le32 stack.length ++ le32 additional.length
        ++ regValues.flatMap le32 ++ code ++ stack ++ additional).getD (a - dumpHeaderAddr) 0
    else 0

/-- Collaborators with the spacings 8 and 10, whose draw calls return the
vertical position they were given and whose file write succeeds. -/
def sampleEnv : Collaborators :=
  ⟨8, 10,
    fun e =>
      match e with
      | Event.drawString _ _ posY _ _ => posY
      | Event.drawFormattedString _ _ posY _ _ _ => posY
      | _ => 0,
    fun _ => "crash_dump_00000000.dmp",
    fun _ => true⟩

/-- Eighteen register values with `SP = 0x0FFFFF00` and a Thumb-state user-mode
`CPSR`. -/
def thumbRegs : List Nat :=
  [0, 1, 2, 3, 4, 5, 6, 7, 8, 9, 10, 11, 12, 0x0FFFFF00, 0x00100020, 0x00100044, 0x30, 0]

/-- A memory without a dump: all bytes 0. -/
def noDump : ByteMem := fun _ => 0

/-- A processor 11 dump of type 1 (undefined instruction) in Thumb state whose two
code bytes are `svc 0x3C`, with 8 stack bytes. -/
def undefThumbSvcDump : ByteMem :=
  dumpImage 11 0 1 122 thumbRegs [0x3C, 0xDF] [1, 2, 3, 4, 5, 6, 7, 8] []

/-- The dump `undefThumbSvcDump` with a header whose `totalSize` is 0. -/
def zeroSizeDump : ByteMem :=
  dumpImage 11 0 1 0 thumbRegs [0x3C, 0xDF] [1, 2, 3, 4, 5, 6, 7, 8] []

/-- A processor 11 dump of type 2 (prefetch abort) in ARM state whose four code
bytes are `svc 0x3C`. -/
def pabtArmSvcDump : ByteMem :=
  dumpImage 11 0 2 124
    [0, 1, 2, 3, 4, 5, 6, 7, 8, 9, 10, 11, 12, 0x0FFFFF00, 0x00100020, 0x00100044, 0x10, 0]
    [0x3C, 0x00, 0x00, 0xEF] [1, 2, 3, 4, 5, 6, 7, 8] []

/-- A processor 11 dump of type 2 (prefetch abort) in Thumb state whose two code
bytes are `svc 0x3C`. -/
def pabtThumbSvcDump : ByteMem :=
  dumpImage 11 0 2 122 thumbRegs [0x3C, 0xDF] [1, 2, 3, 4, 5, 6, 7, 8] []

/-- A processor 9 dump of type 3 (data abort) in ARM state. -/
def arm9DataAbortDump : ByteMem :=
  dumpImage 9 0 3 124
    [0, 1, 2, 3, 4, 5, 6, 7, 8, 9, 10, 11, 12, 0x0FFFFF00, 0x00100020, 0x00100044, 0x10, 0]
    [0x00, 0x00, 0x90, 0xE5] [1, 2, 3, 4, 5, 6, 7, 8] []

/-- Whether a call draws a text or a format that starts with `Exception type:`. -/
def drawsExceptionType : Event → Bool
  | Event.drawString _ _ _ _ text => "Exception type:".data.isPrefixOf text.data
  | Event.drawFormattedString _ _ _ _ fmt _ => "Exception type:".data.isPrefixOf fmt.data
  | _ => false

/-- Eighteen register values with `SP = 0x0FFFFF00` and an ARM-state user-mode
`CPSR`. -/
def armRegs : List Nat :=
  [0, 1, 2, 3, 4, 5, 6, 7, 8, 9, 10, 11, 12, 0x0FFFFF00, 0x00100020, 0x00100044, 0x10, 0]

/-- A processor 11 dump of type 2 (prefetch abort) in ARM state without code
bytes (`codeDumpSize = 0`). -/
def pabtNoCodeDump : ByteMem :=
  dumpImage 11 0 2 120 armRegs [] [1, 2, 3, 4, 5, 6, 7, 8] []

/-- The arguments of a call that draws a `Current process:` format. -/
def currentProcessEntry : Event → Option (List FmtArg)
  | Event.drawFormattedString _ _ _ _ fmt args =>
    if "Current process:".data.isPrefixOf fmt.data then some args else none
  | _ => none

/-- The arguments of the `Current process:` lines of a list of calls, in order. -/
def currentProcessEntries (events : List Event) : List (List FmtArg) :=
  events.filterMap currentProcessEntry

/-- Modelled from the spec: the formatted-string rendering collaborator is not
among the sources.  This is the text a `%.8s` conversion shows for a pointer to
the given bytes: the characters before the first zero byte, 8 at most. -/
def cString8 (bytes : List Nat) : String :=
  String.mk (((bytes.take 8).takeWhile (fun b => b != 0)).map Char.ofNat)

/-- A processor 11 dump whose additional data is the name `game1` padded with
zero bytes to 8 bytes, followed by the identifier `0x1122334455667788`. -/
def gameProcessDump : ByteMem :=
  dumpImage 11 0 1 140 thumbRegs [0x3C, 0xDF, 0x00, 0x00] [1, 2, 3, 4, 5, 6, 7, 8]
    [103, 97, 109, 101, 49, 0, 0, 0, 0x88, 0x77, 0x66, 0x55, 0x44, 0x33, 0x22, 0x11]

/-- Whether a call draws the warning of line 179 (the only yellow text). -/
def isWarning : Event → Bool
  | Event.drawString _ _ _ Color.yellow text =>
    decide (text = "Incorrect dump: failed to dump code and/or stack")
  | _ => false

/-- A processor 11 dump of type 3 (data abort) whose `CPSR` is `0x17`: ARM state,
abort mode `0b10111`. -/
def dabtAbortModeDump : ByteMem :=
  dumpImage 11 0 3 124
    [0, 1, 2, 3, 4, 5, 6, 7, 8, 9, 10, 11, 12, 0x0FFFFF00, 0x00100020, 0x00100044, 0x17, 0]
    [0x00, 0x00, 0x90, 0xE5] [1, 2, 3, 4, 5, 6, 7, 8] []

/-- A processor 11 dump of type 3 (data abort) whose `CPSR` is `0x11`: ARM state,
FIQ mode `0b10001`. -/
def dabtFiqModeDump : ByteMem :=
  dumpImage 11 0 3 124
    [0, 1, 2, 3, 4, 5, 6, 7, 8, 9, 10, 11, 12, 0x0FFFFF00, 0x00100020, 0x00100044, 0x11, 0]
    [0x00, 0x00, 0x90, 0xE5] [1, 2, 3, 4, 5, 6, 7, 8] []

/-- A processor 11 dump of type 3 (data abort) whose `CPSR` is `0x1B`: ARM state,
undefined mode `0b11011`. -/
def dabtUndefModeDump : ByteMem :=
  dumpImage 11 0 3 124
    [0, 1, 2, 3, 4, 5, 6, 7, 8, 9, 10, 11, 12, 0x0FFFFF00, 0x00100020, 0x00100044, 0x1B, 0]
    [0x00, 0x00, 0x90, 0xE5] [1, 2, 3, 4, 5, 6, 7, 8] []

/-- What a call of the stack loop shows: the address label of a line, or one
byte of the line at a horizontal position. -/
inductive StackItem where
  | label (addr : Nat)
  | byte (posX value : Nat)
  deriving DecidableEq, Repr

/-- The item a call on the bottom screen shows: a `%08X:` format is a label, a
`%02X` format a byte. -/
def stackItem : Event → Option StackItem
  | Event.drawFormattedString false posX _ _ fmt [FmtArg.num v] =>
    if fmt = "%08X:" then some (StackItem.label v)
    else if fmt = "%02X" then some (StackItem.byte posX v)
    else none
  | _ => none

/-- The labels and bytes of the stack dump shown by a list of calls, in order. -/
def stackItems (events : List Event) : List StackItem :=
  events.filterMap stackItem

/-- The vertical position a draw call was given. -/
def eventPosY : Event → Nat
  | Event.drawString _ _ posY _ _ => posY
  | Event.drawFormattedString _ _ posY _ _ _ => posY
  | _ => 0

/-- The item a call on the bottom screen shows, with the vertical position it is
drawn at: `(posY, item)`. -/
def stackCell (e : Event) : Option (Nat × StackItem) :=
  (stackItem e).map (fun it => (eventPosY e, it))

/-- The labels and bytes of the stack dump shown by a list of calls, each with
its vertical position, in order. -/
def stackCells (events : List Event) : List (Nat × StackItem) :=
  events.filterMap stackCell

/-- The labels among a list of items. -/
def stackLabels (items : List StackItem) : List Nat :=
  items.filterMap (fun it =>
    match it with
    | StackItem.label a => some a
    | _ => none)

/-- The byte values among a list of items. -/
def stackByteValues (items : List StackItem) : List Nat :=
  items.filterMap (fun it =>
    match it with
    | StackItem.byte _ v => some v
    | _ => none)

/-- Line `l` of the stack dump as the specification has it, for a stack section
of `n` bytes at address `sd` and the stack pointer `sp`: the label
`(sp + 8 * l) mod 2 ^ 32`, then the bytes `8 * l`, `8 * l + 1`, .. of the section,
8 at most, byte `i` of the line at horizontal position
`10 + 10 * SPACING_X + 3 * i * SPACING_X`. -/
def expectedStackLine (env : Collaborators) (mem : ByteMem) (sp sd n l : Nat) :
    List StackItem :=
  StackItem.label ((sp + 8 * l) % 2 ^ 32)
    :: (List.range (min 8 (n - 8 * l))).map (fun i =>
      StackItem.byte (10 + 10 * env.SPACING_X + 3 * i * env.SPACING_X) (mem (sd + 8 * l + i)))

/-- Line `l` of the stack dump with its label and its bytes at the vertical
position `y`. -/
def expectedStackLineAt (env : Collaborators) (mem : ByteMem) (sp sd n y l : Nat) :
    List (Nat × StackItem) :=
  (expectedStackLine env mem sp sd n l).map (fun it => (y, it))

/-- The dump `pabtArmSvcDump` with the header field `stackDumpSize` set to
`0xFFFFFFF8`. -/
def hugeStackDump : ByteMem := wr32 pabtArmSvcDump (dumpHeaderAddr + 32) 0xFFFFFFF8

/-- A processor 11 dump with a stack section of 40 bytes. -/
def stack40Dump : ByteMem :=
  dumpImage 11 0 1 156 armRegs [0x00, 0x00, 0x90, 0xE5] (List.range 40) []

/-- A processor 11 dump with a stack section of 300 bytes. -/
def stack300Dump : ByteMem :=
  dumpImage 11 0 1 416 armRegs [0x00, 0x00, 0x90, 0xE5] ((List.range 300).map (fun k => k % 256)) []

/-- An arm9 blob with four handler words and a four-byte body. -/
def sampleArm9Blob : Arm9Blob :=
  ⟨fun k => if k = 1 then 0x01FF8000 else if k = 2 then 0x01FF8010 else if k = 3 then 0x01FF8020
    else if k = 4 then 0x01FF8030 else 0, [0x1E, 0xFF, 0x2F, 0xE1]⟩

/-- A memory with the MCU-reboot marker at word 0, the FPU-init marker at word
1022 and `0xFFFFFFFF` from word 1023 on, in the page and after it. -/
def tailPage : WordMem :=
  fun i => if i = 0 then 0xE3A0A0C2 else if i = 1022 then 0xE1A0D002
    else if 1023 ≤ i then 0xFFFFFFFF else 0

/-- A blob whose body is one plain word followed by `bx r12`. -/
def bxSecondBlob : Arm11Blob := ⟨32, 32, 32, [0xE1A00000, 0xE12FFF1C]⟩

/-- A blob whose body holds each of the five words the relocation loop looks
for: the four placeholders, then `bx r12` with its literal, then plain code. -/
def relocBlob : Arm11Blob :=
  ⟨32, 32, 32, [0xFFFF3000, 0xBEEFBEEF, 0xEBFFFFFE, 0xEAFFFFFE, 0xE12FFF1C, 0x20, 0xE1A00000]⟩

/-- A blob whose body is `bx r12` followed by the stack placeholder. -/
def bxStackBlob : Arm11Blob := ⟨32, 32, 32, [0xE12FFF1C, 0xFFFF3000]⟩

/-- A blob whose body is `bx r12` followed by a literal that the rewrite of
line 100 turns into the code-set placeholder when the free space starts at
word 10. -/
def bxLiteralBlob : Arm11Blob := ⟨32, 32, 32, [0xE12FFF1C, 0xBEF0BEE7]⟩

/-- A processor 11 dump whose header has the type 4, past the four entries of the
table of names, with 16 bytes of additional data. -/
def unknownTypeDump : ByteMem :=
  dumpImage 11 0 4 140 thumbRegs [0x3C, 0xDF, 0x00, 0x00] [1, 2, 3, 4, 5, 6, 7, 8]
    [103, 97, 109, 101, 49, 0, 0, 0, 0x88, 0x77, 0x66, 0x55, 0x44, 0x33, 0x22, 0x11]

/-! ## Theorems -/

/-! ### Facts about the scans -/

theorem scanFor_spec (mem : WordMem) (v : Nat) : ∀ n p,
    p ≤ scanFor mem v p n ∧ scanFor mem v p n ≤ p + n ∧
    (∀ j, p ≤ j → j < scanFor mem v p n → mem j ≠ v) ∧
    (scanFor mem v p n < p + n → mem (scanFor mem v p n) = v) := by
  intro n
  induction n with
  | zero => intro p; simp [scanFor]; intro j h1 h2; omega
  | succ n ih =>
    intro p
    unfold scanFor
    by_cases h : mem p = v
    · rw [if_pos h]
      refine ⟨le_refl _, by omega, ?_, fun _ => h⟩
      intro j h1 h2; omega
    · rw [if_neg h]
      obtain ⟨h1, h2, h3, h4⟩ := ih (p + 1)
      refine ⟨by omega, by omega, ?_, fun hlt => h4 (by omega)⟩
      intro j hj1 hj2
      by_cases hjp : j = p
      · subst hjp; exact h
      · exact h3 j (by omega) hj2

theorem scanFor_eq_of_first (mem : WordMem) (v n p a : Nat) (h1 : p ≤ a) (h2 : a < p + n)
    (ha : mem a = v) (hfirst : ∀ j, p ≤ j → j < a → mem j ≠ v) : scanFor mem v p n = a := by
  obtain ⟨s1, s2, s3, s4⟩ := scanFor_spec mem v n p
  rcases Nat.lt_trichotomy (scanFor mem v p n) a with h | h | h
  · exact absurd (s4 (by omega)) (hfirst _ s1 h)
  · exact h
  · exact absurd ha (s3 a h1 h)

theorem scanFor_eq_end_of_absent (mem : WordMem) (v n p : Nat)
    (habs : ∀ j, p ≤ j → j < p + n → mem j ≠ v) : scanFor mem v p n = p + n := by
  obtain ⟨s1, s2, s3, s4⟩ := scanFor_spec mem v n p
  by_contra hne
  have hlt : scanFor mem v p n < p + n := by omega
  exact habs _ s1 hlt (s4 hlt)

theorem initFPUPos_le (page : WordMem) : initFPUPos page ≤ 0x400 := by
  have h := (scanFor_spec page 0xE1A0D002 0x400 0).2.1
  simpa [initFPUPos] using h

theorem freeSpacePos_le (page : WordMem) : freeSpacePos page ≤ 0x400 := by
  have h := (scanFor_spec page 0xFFFFFFFF (0x400 - initFPUPos page) (initFPUPos page)).2.1
  have h2 := initFPUPos_le page
  unfold freeSpacePos
  omega

/-- The scan for the free space starts at a word that holds the FPU-init marker
(or at the end of the page), so `freeSpace` is never the first word of the page:
the subtraction in `endWordPos` does not truncate. -/
theorem freeSpacePos_pos (page : WordMem) : 0 < freeSpacePos page := by
  obtain ⟨s1, s2, s3, s4⟩ := scanFor_spec page 0xE1A0D002 0x400 0
  obtain ⟨t1, t2, t3, t4⟩ :=
    scanFor_spec page 0xFFFFFFFF (0x400 - initFPUPos page) (initFPUPos page)
  by_contra h
  have hf : freeSpacePos page = 0 := by omega
  have hi : initFPUPos page = 0 := by unfold freeSpacePos at hf; omega
  have hfound : page 0 = 0xE1A0D002 := by
    have := s4 (by unfold initFPUPos at hi; omega)
    unfold initFPUPos at hi
    rw [hi] at this
    exact this
  have hsent : page 0 = 0xFFFFFFFF := by
    have := t4 (by unfold freeSpacePos at hf; omega)
    unfold freeSpacePos at hf
    rw [hf] at this
    exact this
  omega

/-! ### Facts about the data-abort scan -/

/-- The scan of the snippet ends exactly when its control flow on the given
words gets to a stack-address word: the words it writes on the way are behind
it. -/
theorem dAbtLoop_isSome_eq (sa dst ma : Nat) : ∀ (fuel pos : Nat) (snip orig : List Nat),
    snip.length = orig.length → (∀ j, pos ≤ j → snip[j]? = orig[j]?) →
    (dAbtLoop sa dst ma fuel pos snip).isSome = dAbtReaches sa fuel pos orig := by
  intro fuel
  induction fuel with
  | zero => intro pos snip orig _ _; rfl
  | succ fuel ih =>
    intro pos snip orig hlen hsame
    unfold dAbtLoop dAbtReaches
    rw [hsame pos (le_refl _)]
    cases hw : orig[pos]? with
    | none => rfl
    | some w =>
      simp only []
      by_cases h1 : w = sa
      · rw [if_pos h1, if_pos h1]
        rfl
      · rw [if_neg h1, if_neg h1]
        by_cases h2 : w = 0xF96D0513
        · rw [if_pos h2, if_pos h2]
          apply ih
          · rw [List.length_set]; exact hlen
          · intro j hj
            rw [List.getElem?_set_ne (by omega)]
            exact hsame j (by omega)
        · rw [if_neg h2, if_neg h2]
          by_cases h3 : w = 0xE29EF004
          · rw [if_pos h3, if_pos h3, hlen]
            by_cases h4 : pos + 2 < orig.length
            · rw [if_pos h4, if_pos h4]
              apply ih
              · rw [List.length_set, List.length_set]; exact hlen
              · intro j hj
                rw [List.getElem?_set_ne (by omega), List.getElem?_set_ne (by omega)]
                exact hsame j (by omega)
            · rw [if_neg h4, if_neg h4]
              rfl
          · rw [if_neg h3, if_neg h3]
            exact ih _ _ _ hlen (fun j hj => hsame j (by omega))

/-- The scan gets to a stack-address word at index `k` or to one before it when
neither of the two words before `k` is `subs pc, lr, 4`, the only word after
which the scan skips words. -/
theorem dAbtReaches_of_stack_word (sa : Nat) (snip : List Nat) (k : Nat)
    (hk : snip[k]? = some sa)
    (hno : ∀ j, j < k → k ≤ j + 2 → snip[j]? ≠ some 0xE29EF004) :
    ∀ (fuel pos : Nat), pos ≤ k → k - pos < fuel → dAbtReaches sa fuel pos snip = true := by
  have hklen : k < snip.length := by
    rcases Nat.lt_or_ge k snip.length with h | h
    · exact h
    · rw [List.getElem?_eq_none h] at hk; cases hk
  intro fuel
  induction fuel with
  | zero => intro pos _ h; omega
  | succ fuel ih =>
    intro pos hpos hfuel
    have hposlen : pos < snip.length := by omega
    unfold dAbtReaches
    rw [List.getElem?_eq_getElem hposlen]
    simp only []
    by_cases h1 : snip[pos] = sa
    · rw [if_pos h1]
    · rw [if_neg h1]
      have hne : pos ≠ k := by
        intro h; subst h
        rw [List.getElem?_eq_getElem hposlen] at hk
        exact h1 (Option.some.inj hk)
      by_cases h2 : snip[pos] = 0xF96D0513
      · rw [if_pos h2]
        exact ih (pos + 1) (by omega) (by omega)
      · rw [if_neg h2]
        by_cases h3 : snip[pos] = 0xE29EF004
        · rw [if_pos h3]
          have hfar : pos + 3 ≤ k := by
            by_contra hc
            apply hno pos (by omega) (by omega)
            rw [List.getElem?_eq_getElem hposlen, h3]
          rw [if_pos (by omega)]
          exact ih (pos + 3) hfar (by omega)
        · rw [if_neg h3]
          exact ih (pos + 1) (by omega) (by omega)

/-! ### The patcher: failure and success -/

/-- Claim C1.  Failure implies no mutation: when `installArm11Handlers` returns
1, the memory at `exceptionsPage` and the data-abort snippet it leaves are the
ones it was given, word for word. -/
theorem installArm11Handlers_failure_no_mutation (blob : Arm11Blob) (page : WordMem)
    (stackAddress codeSetOffset : Nat) (dAbtHandler : List Nat) (dAbtHandlerMemAddress : Nat)
    (h : retCode (installArm11Handlers blob page stackAddress codeSetOffset dAbtHandler
      dAbtHandlerMemAddress) = some 1) :
    ∃ r, installArm11Handlers blob page stackAddress codeSetOffset dAbtHandler
        dAbtHandlerMemAddress = some r ∧
      (∀ i, r.page i = page i) ∧ r.dAbt = dAbtHandler := by
  unfold installArm11Handlers at h ⊢
  by_cases hv : validationFails page blob = true
  · simp only [hv, if_true]
    exact ⟨_, rfl, fun _ => rfl, rfl⟩
  · simp only [hv] at h ⊢
    cases hd : dAbtLoop stackAddress (vaDst blob (freeSpacePos page)) dAbtHandlerMemAddress
        (dAbtHandler.length + 1) 0 dAbtHandler with
    | none => simp [hd, retCode] at h
    | some snip => simp [hd, retCode] at h

/-- Witness for C1: the patcher fails on `sentinelFirstPage`. -/
theorem installArm11Handlers_failure_no_mutation_witness :
    ∃ r, installArm11Handlers oneWordBlob sentinelFirstPage 0x1000 0 [0x1000] 0 = some r ∧
      (∀ i, r.page i = sentinelFirstPage i) ∧ r.dAbt = [0x1000] :=
  installArm11Handlers_failure_no_mutation oneWordBlob sentinelFirstPage 0x1000 0 [0x1000] 0
    (by decide)

/-- The condition of line 62 in terms of the located positions. -/
theorem validationFails_eq_false_iff (page : WordMem) (blob : Arm11Blob) :
    validationFails page blob = false ↔
      initFPUPos page ≠ 0x400 ∧ freeSpacePos page ≠ 0x400 ∧ mcuRebootPos page ≠ 0x400 ∧
        page (endWordPos page blob) = 0xFFFFFFFF := by
  simp [validationFails, and_assoc]

/-- The patcher returns 0 once the validation passes and the scan of the
snippet stops. -/
theorem installArm11Handlers_of_valid (blob : Arm11Blob) (page : WordMem)
    (stackAddress codeSetOffset : Nat) (dAbtHandler : List Nat) (dAbtHandlerMemAddress : Nat)
    (snip : List Nat) (hv : validationFails page blob = false)
    (hd : dAbtLoop stackAddress (vaDst blob (freeSpacePos page)) dAbtHandlerMemAddress
      (dAbtHandler.length + 1) 0 dAbtHandler = some snip) :
    installArm11Handlers blob page stackAddress codeSetOffset dAbtHandler dAbtHandlerMemAddress
      = some ⟨0, relocLoop ⟨stackAddress, codeSetOffset, freeSpacePos page,
          initFPUPos page + 3, (mcuRebootPos page : Int) - 2⟩ blob.bodyWords (freeSpacePos page)
          (writeVectors (memcpyBody page (freeSpacePos page) blob.body) blob
            (freeSpacePos page)), snip⟩ := by
  unfold installArm11Handlers
  simp only [hv, hd]
  rfl

/-- A successful call passed the validation and its result is the relocated
page. -/
theorem installArm11Handlers_success_inv (blob : Arm11Blob) (page : WordMem)
    (stackAddress codeSetOffset : Nat) (dAbtHandler : List Nat) (dAbtHandlerMemAddress : Nat)
    (h : retCode (installArm11Handlers blob page stackAddress codeSetOffset dAbtHandler
      dAbtHandlerMemAddress) = some 0) :
    validationFails page blob = false ∧
    ∃ snip, installArm11Handlers blob page stackAddress codeSetOffset dAbtHandler
        dAbtHandlerMemAddress
      = some ⟨0, relocLoop ⟨stackAddress, codeSetOffset, freeSpacePos page,
          initFPUPos page + 3, (mcuRebootPos page : Int) - 2⟩ blob.bodyWords (freeSpacePos page)
          (writeVectors (memcpyBody page (freeSpacePos page) blob.body) blob
            (freeSpacePos page)), snip⟩ := by
  have hv : validationFails page blob = false := by
    by_contra hv
    have hv2 : validationFails page blob = true := by simpa using hv
    unfold installArm11Handlers at h
    simp [hv2, retCode] at h
  refine ⟨hv, ?_⟩
  cases hd : dAbtLoop stackAddress (vaDst blob (freeSpacePos page)) dAbtHandlerMemAddress
      (dAbtHandler.length + 1) 0 dAbtHandler with
  | none =>
    unfold installArm11Handlers at h
    simp [hv, hd, retCode] at h
  | some snip =>
    exact ⟨snip, installArm11Handlers_of_valid blob page stackAddress codeSetOffset dAbtHandler
      dAbtHandlerMemAddress snip hv hd⟩

/-- Claim C2, as the code has it.  The sentinel `0xFFFFFFFF` is searched from the
located FPU-init marker on, not from the page start, and the call returns only
when the scan of the data-abort snippet gets to a word equal to `stackAddress`.
When the forward scans find the FPU-init marker at `a`, the first sentinel at or
after `a` at `f`, and the MCU-reboot marker, all inside the page, when the word
`bodyWords - 1` after `f` holds the sentinel, and when the scan of the snippet
gets to a stack-address word, `installArm11Handlers` returns 0; the scan does get
there when the snippet has a stack-address word neither of whose two
predecessors is `0xE29EF004`; and a call that returns 0 has got there.  The call
returns 1, leaving everything as it was, when one of the three scans finds
nothing or the sentinel is not at the expected end offset. -/
theorem installArm11Handlers_success_condition (blob : Arm11Blob) (page : WordMem)
    (stackAddress codeSetOffset : Nat) (dAbtHandler : List Nat) (dAbtHandlerMemAddress : Nat) :
    (∀ a f m : Nat,
      a < 0x400 → page a = 0xE1A0D002 → (∀ j, j < a → page j ≠ 0xE1A0D002) →
      a ≤ f → f < 0x400 → page f = 0xFFFFFFFF → (∀ j, a ≤ j → j < f → page j ≠ 0xFFFFFFFF) →
      m < 0x400 → page m = 0xE3A0A0C2 →
      page (f + blob.bodyWords - 1) = 0xFFFFFFFF →
      dAbtReaches stackAddress (dAbtHandler.length + 1) 0 dAbtHandler = true →
      retCode (installArm11Handlers blob page stackAddress codeSetOffset dAbtHandler
        dAbtHandlerMemAddress) = some 0) ∧
    (∀ k : Nat, dAbtHandler[k]? = some stackAddress →
      (∀ j, j < k → k ≤ j + 2 → dAbtHandler[j]? ≠ some 0xE29EF004) →
      dAbtReaches stackAddress (dAbtHandler.length + 1) 0 dAbtHandler = true) ∧
    (retCode (installArm11Handlers blob page stackAddress codeSetOffset dAbtHandler
        dAbtHandlerMemAddress) = some 0 →
      dAbtReaches stackAddress (dAbtHandler.length + 1) 0 dAbtHandler = true) ∧
    ((∀ i, i < 0x400 → page i ≠ 0xE1A0D002) ∨
      (∀ i, initFPUPos page ≤ i → i < 0x400 → page i ≠ 0xFFFFFFFF) ∨
      (∀ i, i < 0x400 → page i ≠ 0xE3A0A0C2) ∨
      page (freeSpacePos page + blob.bodyWords - 1) ≠ 0xFFFFFFFF →
      installArm11Handlers blob page stackAddress codeSetOffset dAbtHandler
        dAbtHandlerMemAddress = some ⟨1, page, dAbtHandler⟩) := by
  have hreach : (dAbtLoop stackAddress (vaDst blob (freeSpacePos page)) dAbtHandlerMemAddress
      (dAbtHandler.length + 1) 0 dAbtHandler).isSome
      = dAbtReaches stackAddress (dAbtHandler.length + 1) 0 dAbtHandler :=
    dAbtLoop_isSome_eq stackAddress _ _ _ 0 dAbtHandler dAbtHandler rfl (fun _ _ => rfl)
  refine ⟨?_, ?_, ?_, ?_⟩
  · intro a f m ha hpa hfa haf hf hpf hff hm hpm hend hscan
    have hA : initFPUPos page = a :=
      scanFor_eq_of_first page _ 0x400 0 a (Nat.zero_le _) (by omega) hpa
        (fun j _ hj => hfa j hj)
    have hF : freeSpacePos page = f := by
      unfold freeSpacePos
      rw [hA]
      exact scanFor_eq_of_first page _ _ a f haf (by omega) hpf hff
    have hM : mcuRebootPos page ≠ 0x400 := by
      intro hM
      obtain ⟨_, _, s3, _⟩ := scanFor_spec page 0xE3A0A0C2 0x400 0
      exact s3 m (Nat.zero_le _) (by unfold mcuRebootPos at hM; omega) hpm
    have hv : validationFails page blob = false := by
      rw [validationFails_eq_false_iff]
      refine ⟨by omega, by omega, hM, ?_⟩
      unfold endWordPos
      rw [hF]; exact hend
    rw [← hreach] at hscan
    obtain ⟨snip, hsnip⟩ := Option.isSome_iff_exists.mp hscan
    rw [installArm11Handlers_of_valid blob page stackAddress codeSetOffset dAbtHandler
      dAbtHandlerMemAddress snip hv hsnip]
    rfl
  · intro k hk hno
    have hklen : k < dAbtHandler.length := by
      rcases Nat.lt_or_ge k dAbtHandler.length with h | h
      · exact h
      · rw [List.getElem?_eq_none h] at hk; cases hk
    exact dAbtReaches_of_stack_word stackAddress dAbtHandler k hk hno _ 0 (Nat.zero_le _)
      (by omega)
  · intro h
    have hv : validationFails page blob = false :=
      (installArm11Handlers_success_inv blob page stackAddress codeSetOffset dAbtHandler
        dAbtHandlerMemAddress h).1
    rw [← hreach]
    cases hd : dAbtLoop stackAddress (vaDst blob (freeSpacePos page)) dAbtHandlerMemAddress
        (dAbtHandler.length + 1) 0 dAbtHandler with
    | none =>
      unfold installArm11Handlers at h
      simp [hv, hd, retCode] at h
    | some snip => rfl
  · intro h
    have hv : validationFails page blob = true := by
      rcases h with h | h | h | h
      · have := scanFor_eq_end_of_absent page 0xE1A0D002 0x400 0
          (fun j _ hj => h j (by omega))
        simp [validationFails, initFPUPos, this]
      · have h2 := initFPUPos_le page
        have := scanFor_eq_end_of_absent page 0xFFFFFFFF (0x400 - initFPUPos page)
          (initFPUPos page) (fun j hj1 hj2 => h j hj1 (by omega))
        have h3 : freeSpacePos page = 0x400 := by unfold freeSpacePos; omega
        simp [validationFails, h3]
      · have := scanFor_eq_end_of_absent page 0xE3A0A0C2 0x400 0
          (fun j _ hj => h j (by omega))
        simp [validationFails, mcuRebootPos, this]
      · simp [validationFails, endWordPos, h]
    unfold installArm11Handlers
    simp [hv]

/-- Witness for C2: success on `markedPage` with a snippet in which a `srsdb`
word and a `subs pc, lr, 4` word precede the stack address; a successful call
whose scan gets to a stack-address word right after the two words it skips;
failure on `sentinelFirstPage`. -/
theorem installArm11Handlers_success_condition_witness :
    retCode (installArm11Handlers oneWordBlob markedPage 0x1000 0
      [0xF96D0513, 0xE29EF004, 0, 0, 0x1000] 0) = some 0 ∧
    dAbtReaches 0x1000 ([0xF96D0513, 0xE29EF004, 0, 0, 0x1000].length + 1) 0
      [0xF96D0513, 0xE29EF004, 0, 0, 0x1000] = true ∧
    dAbtReaches 0x1000 ([0xE29EF004, 0xE29EF004, 0, 0x1000].length + 1) 0
      [0xE29EF004, 0xE29EF004, 0, 0x1000] = true ∧
    installArm11Handlers oneWordBlob sentinelFirstPage 0x1000 0 [0x1000] 0
      = some ⟨1, sentinelFirstPage, [0x1000]⟩ :=
  ⟨(installArm11Handlers_success_condition oneWordBlob markedPage 0x1000 0
      [0xF96D0513, 0xE29EF004, 0, 0, 0x1000] 0).1
      8 10 9 (by decide) (by decide) (by decide) (by decide) (by decide) (by decide)
      (by decide) (by decide) (by decide) (by decide) (by decide),
   (installArm11Handlers_success_condition oneWordBlob markedPage 0x1000 0
      [0xF96D0513, 0xE29EF004, 0, 0, 0x1000] 0).2.1 4 (by decide) (by decide),
   (installArm11Handlers_success_condition oneWordBlob markedPage 0x1000 0
      [0xE29EF004, 0xE29EF004, 0, 0x1000] 0).2.2.1 (by decide),
   (installArm11Handlers_success_condition oneWordBlob sentinelFirstPage 0x1000 0 [0x1000] 0).2.2.2
      (Or.inr (Or.inl (by decide)))⟩

/-- Counterexample to C2 as stated: in `sentinelFirstPage` a forward scan from the
page start finds all three markers (the sentinel at word 0, the FPU-init marker
at word 1, the MCU-reboot marker at word 2) and the sentinel is at the expected
end offset from that first sentinel, the snippet holds the stack address, and
yet the patcher returns 1: no sentinel follows the FPU-init marker. -/
theorem installArm11Handlers_success_condition_counterexample :
    (∃ i, i < 0x400 ∧ sentinelFirstPage i = 0xE1A0D002) ∧
    (∃ i, i < 0x400 ∧ sentinelFirstPage i = 0xE3A0A0C2) ∧
    (∃ s, s < 0x400 ∧ sentinelFirstPage s = 0xFFFFFFFF ∧
      (∀ j, j < s → sentinelFirstPage j ≠ 0xFFFFFFFF) ∧
      sentinelFirstPage (s + oneWordBlob.bodyWords - 1) = 0xFFFFFFFF) ∧
    retCode (installArm11Handlers oneWordBlob sentinelFirstPage 0x1000 0 [0x1000] 0)
      = some 1 :=
  ⟨⟨1, by decide, by decide⟩, ⟨2, by decide, by decide⟩,
   ⟨0, by decide, by decide, by decide, by decide⟩, by decide⟩

/-! ### The writes of a successful call -/

theorem MAKE_BRANCH_eq_add (src dst : Int) :
    MAKE_BRANCH src dst = 0xEA000000 + (((dst - src) / 4 - 2) % 0x1000000).toNat := by
  unfold MAKE_BRANCH
  have hlt : (((dst - src) / 4 - 2) % 0x1000000).toNat < 2 ^ 24 := by omega
  have h := Nat.mul_add_lt_is_or hlt 0xEA
  norm_num at h ⊢
  omega

theorem MAKE_BRANCH_LINK_eq_add (src dst : Int) :
    MAKE_BRANCH_LINK src dst = 0xEB000000 + (((dst - src) / 4 - 2) % 0x1000000).toNat := by
  unfold MAKE_BRANCH_LINK
  have hlt : (((dst - src) / 4 - 2) % 0x1000000).toNat < 2 ^ 24 := by omega
  have h := Nat.mul_add_lt_is_or hlt 0xEB
  norm_num at h ⊢
  omega

/-- Decoding a branch made by `MAKE_BRANCH` whose word offset fits in 24 signed
bits gives the destination, rounded down to a word. -/
theorem branchTarget_MAKE_BRANCH (src dst : Int)
    (hlo : -(2 ^ 23 : Int) ≤ (dst - src) / 4 - 2) (hhi : (dst - src) / 4 - 2 < 2 ^ 23) :
    branchTarget src (MAKE_BRANCH src dst) = src + 4 * ((dst - src) / 4) := by
  rw [MAKE_BRANCH_eq_add]
  unfold branchTarget
  split_ifs with h <;> omega

theorem wr_same (mem : WordMem) (i v : Nat) : wr mem i v i = v := by simp [wr]

theorem wr_other (mem : WordMem) (i v j : Nat) (h : j ≠ i) : wr mem i v j = mem j := by
  simp [wr, h]

/-- One relocation step writes at `pos` or `pos + 1` only. -/
theorem relocStep_frame (c : RelocCtx) (mem : WordMem) (pos j : Nat)
    (h : j < pos ∨ pos + 1 < j) : relocStep c mem pos j = mem j := by
  unfold relocStep
  split_ifs <;> first | rfl | exact wr_other _ _ _ _ (by omega)

/-- The relocation loop over `n` words from `pos` writes inside
`[pos, pos + n]` only: the scanned words and the one word after them. -/
theorem relocLoop_frame (c : RelocCtx) : ∀ (n pos : Nat) (mem : WordMem) (j : Nat),
    j < pos ∨ pos + n < j → relocLoop c n pos mem j = mem j := by
  intro n
  induction n with
  | zero => intro pos mem j _; rfl
  | succ n ih =>
    intro pos mem j h
    unfold relocLoop
    rw [ih (pos + 1) _ j (by omega)]
    exact relocStep_frame c mem pos j (by omega)

theorem memcpyBody_outside (mem : WordMem) (dst : Nat) (body : List Nat) (j : Nat)
    (h : j < dst ∨ dst + body.length ≤ j) : memcpyBody mem dst body j = mem j := by
  unfold memcpyBody
  rw [if_neg (by omega)]

theorem writeVectors_other (mem : WordMem) (blob : Arm11Blob) (f j : Nat)
    (h1 : j ≠ 1) (h3 : j ≠ 3) (h7 : j ≠ 7) : writeVectors mem blob f j = mem j := by
  simp [writeVectors, wr, h1, h3, h7]

/-- A vector slot below the free space holds, after a successful call, the
branch that `writeVectors` stored there. -/
theorem relocated_slot (c : RelocCtx) (page : WordMem) (blob : Arm11Blob) (f j : Nat)
    (hj : j < f) : relocLoop c blob.bodyWords f (writeVectors (memcpyBody page f blob.body)
      blob f) j = writeVectors (memcpyBody page f blob.body) blob f j :=
  relocLoop_frame c blob.bodyWords f _ j (Or.inl hj)

/-- Claim C3, as the code has it.  The header words at blob bytes 4, 8 and 12 are
offsets from the start of the blob (the code subtracts 32 from them), so they
point into the body when they lie in `[32, arm11_exceptions_bin_size)`.  For such
a blob, when `installArm11Handlers` returns 0, the free space starts after the
eight vector words and the copied region ends inside the page, the page words 7,
1 and 3 are the `B` instructions `MAKE_BRANCH(slot, freeSpace + offset - 32)` and
their decoded targets lie in the copied region. -/
theorem installArm11Handlers_vector_slots (blob : Arm11Blob) (page : WordMem)
    (stackAddress codeSetOffset : Nat) (dAbtHandler : List Nat) (dAbtHandlerMemAddress : Nat)
    (h : retCode (installArm11Handlers blob page stackAddress codeSetOffset dAbtHandler
      dAbtHandlerMemAddress) = some 0)
    (hfiq : 32 ≤ blob.fiqOffset ∧ blob.fiqOffset < blob.size)
    (hundef : 32 ≤ blob.undefOffset ∧ blob.undefOffset < blob.size)
    (hpabt : 32 ≤ blob.pabtOffset ∧ blob.pabtOffset < blob.size)
    (hf : 8 ≤ freeSpacePos page) (hfit : freeSpacePos page + blob.bodyWords ≤ 0x400) :
    ∃ r, installArm11Handlers blob page stackAddress codeSetOffset dAbtHandler
        dAbtHandlerMemAddress = some r ∧
      r.page 7 = MAKE_BRANCH (4 * 7) (4 * (freeSpacePos page : Int) + blob.fiqOffset - 32) ∧
      r.page 1 = MAKE_BRANCH (4 * 1) (4 * (freeSpacePos page : Int) + blob.undefOffset - 32) ∧
      r.page 3 = MAKE_BRANCH (4 * 3) (4 * (freeSpacePos page : Int) + blob.pabtOffset - 32) ∧
      (4 * (freeSpacePos page : Int) ≤ branchTarget (4 * 7) (r.page 7) ∧
        branchTarget (4 * 7) (r.page 7) < 4 * ((freeSpacePos page : Int) + blob.bodyWords)) ∧
      (4 * (freeSpacePos page : Int) ≤ branchTarget (4 * 1) (r.page 1) ∧
        branchTarget (4 * 1) (r.page 1) < 4 * ((freeSpacePos page : Int) + blob.bodyWords)) ∧
      (4 * (freeSpacePos page : Int) ≤ branchTarget (4 * 3) (r.page 3) ∧
        branchTarget (4 * 3) (r.page 3) < 4 * ((freeSpacePos page : Int) + blob.bodyWords)) := by
  obtain ⟨_, snip, hr⟩ := installArm11Handlers_success_inv blob page stackAddress codeSetOffset
    dAbtHandler dAbtHandlerMemAddress h
  refine ⟨_, hr, ?_⟩
  simp only [Arm11Blob.size, Arm11Blob.bodyWords] at *
  have e7 := relocated_slot ⟨stackAddress, codeSetOffset, freeSpacePos page,
    initFPUPos page + 3, (mcuRebootPos page : Int) - 2⟩ page blob (freeSpacePos page) 7
    (by omega)
  have e1 := relocated_slot ⟨stackAddress, codeSetOffset, freeSpacePos page,
    initFPUPos page + 3, (mcuRebootPos page : Int) - 2⟩ page blob (freeSpacePos page) 1
    (by omega)
  have e3 := relocated_slot ⟨stackAddress, codeSetOffset, freeSpacePos page,
    initFPUPos page + 3, (mcuRebootPos page : Int) - 2⟩ page blob (freeSpacePos page) 3
    (by omega)
  simp only [Arm11Blob.bodyWords] at e7 e1 e3
  rw [e7, e1, e3]
  have w7 : writeVectors (memcpyBody page (freeSpacePos page) blob.body) blob
      (freeSpacePos page) 7
      = MAKE_BRANCH (4 * 7) (4 * (freeSpacePos page : Int) + blob.fiqOffset - 32) := by
    simp [writeVectors, wr]
  have w1 : writeVectors (memcpyBody page (freeSpacePos page) blob.body) blob
      (freeSpacePos page) 1
      = MAKE_BRANCH (4 * 1) (4 * (freeSpacePos page : Int) + blob.undefOffset - 32) := by
    simp [writeVectors, wr]
  have w3 : writeVectors (memcpyBody page (freeSpacePos page) blob.body) blob
      (freeSpacePos page) 3
      = MAKE_BRANCH (4 * 3) (4 * (freeSpacePos page : Int) + blob.pabtOffset - 32) := by
    simp [writeVectors, wr]
  rw [w7, w1, w3]
  refine ⟨rfl, rfl, rfl, ?_, ?_, ?_⟩
  · rw [branchTarget_MAKE_BRANCH _ _ (by omega) (by omega)]
    constructor <;> omega
  · rw [branchTarget_MAKE_BRANCH _ _ (by omega) (by omega)]
    constructor <;> omega
  · rw [branchTarget_MAKE_BRANCH _ _ (by omega) (by omega)]
    constructor <;> omega

/-- Witness for C3: `markedPage` with `oneWordBlob`, free space at word 10. -/
theorem installArm11Handlers_vector_slots_witness :
    ∃ r, installArm11Handlers oneWordBlob markedPage 0x1000 0 [0x1000] 0 = some r ∧
      r.page 7 = MAKE_BRANCH (4 * 7) (4 * (freeSpacePos markedPage : Int)
        + oneWordBlob.fiqOffset - 32) ∧
      r.page 1 = MAKE_BRANCH (4 * 1) (4 * (freeSpacePos markedPage : Int)
        + oneWordBlob.undefOffset - 32) ∧
      r.page 3 = MAKE_BRANCH (4 * 3) (4 * (freeSpacePos markedPage : Int)
        + oneWordBlob.pabtOffset - 32) ∧
      (4 * (freeSpacePos markedPage : Int) ≤ branchTarget (4 * 7) (r.page 7) ∧
        branchTarget (4 * 7) (r.page 7)
          < 4 * ((freeSpacePos markedPage : Int) + oneWordBlob.bodyWords)) ∧
      (4 * (freeSpacePos markedPage : Int) ≤ branchTarget (4 * 1) (r.page 1) ∧
        branchTarget (4 * 1) (r.page 1)
          < 4 * ((freeSpacePos markedPage : Int) + oneWordBlob.bodyWords)) ∧
      (4 * (freeSpacePos markedPage : Int) ≤ branchTarget (4 * 3) (r.page 3) ∧
        branchTarget (4 * 3) (r.page 3)
          < 4 * ((freeSpacePos markedPage : Int) + oneWordBlob.bodyWords)) :=
  installArm11Handlers_vector_slots oneWordBlob markedPage 0x1000 0 [0x1000] 0 (by decide)
    (by decide) (by decide) (by decide) (by decide) (by decide)

/-- Counterexample to C3 as stated.  First conjunct group: `zeroOffsetBlob` obeys
the stated contract (each header offset is smaller than the body size, 4 bytes),
the patcher returns 0 on `markedPage` with the free space at word 10, bytes
`[40, 44)`, and the branch in slot 7 decodes to byte 8, before the copied region.
Second group: with `entryAtStartBlob` (offsets inside the blob body) on
`lowFreePage` the free space starts at word 1, so slot 1 lies in the copied
region; the branch stored there is the word `0xEAFFFFFE`, which the relocation
loop rewrites, and slot 1 ends as a branch to byte 392, outside the copied bytes
`[4, 36)`. -/
theorem installArm11Handlers_vector_slots_counterexample :
    (zeroOffsetBlob.fiqOffset < zeroOffsetBlob.size - 32 ∧
      zeroOffsetBlob.undefOffset < zeroOffsetBlob.size - 32 ∧
      zeroOffsetBlob.pabtOffset < zeroOffsetBlob.size - 32 ∧
      retCode (installArm11Handlers zeroOffsetBlob markedPage 0x1000 0 [0x1000] 0) = some 0 ∧
      freeSpacePos markedPage = 10 ∧
      (installArm11Handlers zeroOffsetBlob markedPage 0x1000 0 [0x1000] 0).map
        (fun r => branchTarget (4 * 7) (r.page 7)) = some 8) ∧
    (retCode (installArm11Handlers entryAtStartBlob lowFreePage 0x1000 0 [0x1000] 0) = some 0 ∧
      freeSpacePos lowFreePage = 1 ∧
      (installArm11Handlers entryAtStartBlob lowFreePage 0x1000 0 [0x1000] 0).map
        (fun r => branchTarget (4 * 1) (r.page 1)) = some 392) := by
  refine ⟨⟨by decide, by decide, by decide, by decide, by decide, by decide⟩,
    by decide, by decide, by decide⟩

/-! ### Relocation -/

/-- The word a relocation step leaves at `pos` is no placeholder when the
replacement values are none. -/
theorem relocStep_no_placeholder (c : RelocCtx) (mem : WordMem) (pos : Nat)
    (hstack : ¬ IsPlaceholder ((c.stackAddress + (2 ^ 32 - 0x10)) % 2 ^ 32))
    (hcso : ¬ IsPlaceholder c.codeSetOffset)
    (hpos : pos < 0x400) (hfpu : c.initFPU ≤ 0x403) (hfpu2 : c.initFPU ≠ pos)
    (hmcu : -2 ≤ c.mcuReboot ∧ c.mcuReboot ≤ 0x400) (hmcu2 : c.mcuReboot ≠ pos) :
    ¬ IsPlaceholder (relocStep c mem pos pos) := by
  unfold relocStep
  split_ifs with h1 h2 h3 h4 h5
  · rw [wr_same]; exact hstack
  · rw [wr_same, MAKE_BRANCH_LINK_eq_add]
    unfold IsPlaceholder
    omega
  · rw [wr_same, MAKE_BRANCH_eq_add]
    unfold IsPlaceholder
    omega
  · rw [wr_other _ _ _ _ (by omega), h4]
    unfold IsPlaceholder
    omega
  · rw [wr_same]; exact hcso
  · unfold IsPlaceholder
    omega

/-- After the relocation loop over `[pos, pos + n)`, inside a range `[lo, hi)`
that holds neither branch target, no scanned word is a placeholder. -/
theorem relocLoop_no_placeholder (c : RelocCtx) (lo hi : Nat)
    (hstack : ¬ IsPlaceholder ((c.stackAddress + (2 ^ 32 - 0x10)) % 2 ^ 32))
    (hcso : ¬ IsPlaceholder c.codeSetOffset) (hhi : hi ≤ 0x400)
    (hfpu : c.initFPU ≤ 0x403) (hfpu2 : c.initFPU < lo ∨ hi ≤ c.initFPU)
    (hmcu : -2 ≤ c.mcuReboot ∧ c.mcuReboot ≤ 0x400)
    (hmcu2 : c.mcuReboot < lo ∨ (hi : Int) ≤ c.mcuReboot) :
    ∀ (n pos : Nat) (mem : WordMem), lo ≤ pos → pos + n ≤ hi →
      ∀ i, pos ≤ i → i < pos + n → ¬ IsPlaceholder (relocLoop c n pos mem i) := by
  intro n
  induction n with
  | zero => intro pos mem _ _ i h1 h2; omega
  | succ n ih =>
    intro pos mem hlo hn i h1 h2
    unfold relocLoop
    by_cases hi1 : i = pos
    · subst hi1
      rw [relocLoop_frame c n (i + 1) _ i (Or.inl (by omega))]
      exact relocStep_no_placeholder c mem i hstack hcso (by omega) hfpu (by omega) hmcu
        (by omega)
    · exact ih (pos + 1) _ (by omega) (by omega) i (by omega) (by omega)

/-- Claim C4, as the code has it.  The relocation loop replaces four placeholder
words; the fifth word of the list, `0xE12FFF1C` (`bx r12`), is kept and the word
after it is rewritten.  When `installArm11Handlers` returns 0, the copied region
ends inside the page, the values `stackAddress - 16` and `codeSetOffset` are no
placeholder words and the two branch targets (the word 3 after the FPU-init
marker, the word 2 before the MCU-reboot marker) lie outside the copied region,
no word of the copied region equals `0xFFFF3000`, `0xEBFFFFFE`, `0xEAFFFFFE` or
`0xBEEFBEEF` after the call. -/
theorem installArm11Handlers_relocation_complete (blob : Arm11Blob) (page : WordMem)
    (stackAddress codeSetOffset : Nat) (dAbtHandler : List Nat) (dAbtHandlerMemAddress : Nat)
    (h : retCode (installArm11Handlers blob page stackAddress codeSetOffset dAbtHandler
      dAbtHandlerMemAddress) = some 0)
    (hfit : freeSpacePos page + blob.bodyWords ≤ 0x400)
    (hstack : ¬ IsPlaceholder ((stackAddress + (2 ^ 32 - 0x10)) % 2 ^ 32))
    (hcso : ¬ IsPlaceholder codeSetOffset)
    (hfpu : initFPUPos page + 3 < freeSpacePos page ∨
      freeSpacePos page + blob.bodyWords ≤ initFPUPos page + 3)
    (hmcu : (mcuRebootPos page : Int) - 2 < freeSpacePos page ∨
      ((freeSpacePos page + blob.bodyWords : Nat) : Int) ≤ (mcuRebootPos page : Int) - 2) :
    ∃ r, installArm11Handlers blob page stackAddress codeSetOffset dAbtHandler
        dAbtHandlerMemAddress = some r ∧
      ∀ i, freeSpacePos page ≤ i → i < freeSpacePos page + blob.bodyWords →
        r.page i ≠ 0xFFFF3000 ∧ r.page i ≠ 0xEBFFFFFE ∧ r.page i ≠ 0xEAFFFFFE ∧
          r.page i ≠ 0xBEEFBEEF := by
  obtain ⟨_, snip, hr⟩ := installArm11Handlers_success_inv blob page stackAddress codeSetOffset
    dAbtHandler dAbtHandlerMemAddress h
  refine ⟨_, hr, ?_⟩
  intro i hi1 hi2
  have ha := initFPUPos_le page
  have hm : mcuRebootPos page ≤ 0x400 := by
    have := (scanFor_spec page 0xE3A0A0C2 0x400 0).2.1
    simpa [mcuRebootPos] using this
  have key := relocLoop_no_placeholder ⟨stackAddress, codeSetOffset, freeSpacePos page,
    initFPUPos page + 3, (mcuRebootPos page : Int) - 2⟩ (freeSpacePos page)
    (freeSpacePos page + blob.bodyWords) hstack hcso hfit (by simp only []; omega) hfpu
    (by simp only []; omega) hmcu blob.bodyWords (freeSpacePos page)
    (writeVectors (memcpyBody page (freeSpacePos page) blob.body) blob (freeSpacePos page))
    (le_refl _) (le_refl _) i hi1 hi2
  unfold IsPlaceholder at key
  simp only []
  omega

/-- Witness for C4: `codeSetBlob` on `markedPage` with code-set offset `0x100000`. -/
theorem installArm11Handlers_relocation_complete_witness :
    ∃ r, installArm11Handlers codeSetBlob markedPage 0x1000 0x100000 [0x1000] 0 = some r ∧
      ∀ i, freeSpacePos markedPage ≤ i → i < freeSpacePos markedPage + codeSetBlob.bodyWords →
        r.page i ≠ 0xFFFF3000 ∧ r.page i ≠ 0xEBFFFFFE ∧ r.page i ≠ 0xEAFFFFFE ∧
          r.page i ≠ 0xBEEFBEEF :=
  installArm11Handlers_relocation_complete codeSetBlob markedPage 0x1000 0x100000 [0x1000] 0
    (by decide) (by decide) (by decide) (by decide) (by decide) (by decide)

/-- Counterexample to C4 as stated.  With `bxBlob` on `markedPage` the patcher
returns 0, the copied region is words 10 and 11, and word 10 still holds
`0xE12FFF1C` after the call.  With `codeSetBlob` and the code-set offset
`0xBEEFBEEF` the patcher returns 0 and word 10 of the copied region holds
`0xBEEFBEEF`. -/
theorem installArm11Handlers_relocation_complete_counterexample :
    (retCode (installArm11Handlers bxBlob markedPage 0x1000 0 [0x1000] 0) = some 0 ∧
      freeSpacePos markedPage = 10 ∧ bxBlob.bodyWords = 2 ∧
      (installArm11Handlers bxBlob markedPage 0x1000 0 [0x1000] 0).map
        (fun r => r.page 10) = some 0xE12FFF1C) ∧
    (retCode (installArm11Handlers codeSetBlob markedPage 0x1000 0xBEEFBEEF [0x1000] 0)
        = some 0 ∧
      codeSetBlob.bodyWords = 1 ∧
      (installArm11Handlers codeSetBlob markedPage 0x1000 0xBEEFBEEF [0x1000] 0).map
        (fun r => r.page 10) = some 0xBEEFBEEF) := by
  refine ⟨⟨by decide, by decide, by decide, by decide⟩, by decide, by decide, by decide⟩

/-! ### Frame and free space -/

/-- Claim C5, as the code has it.  When `installArm11Handlers` returns 0, every
word of the memory at `exceptionsPage` that is neither word 1, 3 or 7 nor inside
`[freeSpace, freeSpace + bodyWords]`, the copied region and the one word after it
(which the relocation of a `0xE12FFF1C` in the last body word rewrites), has the
value it had before the call. -/
theorem installArm11Handlers_page_frame (blob : Arm11Blob) (page : WordMem)
    (stackAddress codeSetOffset : Nat) (dAbtHandler : List Nat) (dAbtHandlerMemAddress : Nat)
    (h : retCode (installArm11Handlers blob page stackAddress codeSetOffset dAbtHandler
      dAbtHandlerMemAddress) = some 0) :
    ∃ r, installArm11Handlers blob page stackAddress codeSetOffset dAbtHandler
        dAbtHandlerMemAddress = some r ∧
      ∀ i, i ≠ 1 → i ≠ 3 → i ≠ 7 →
        (i < freeSpacePos page ∨ freeSpacePos page + blob.bodyWords < i) →
        r.page i = page i := by
  obtain ⟨_, snip, hr⟩ := installArm11Handlers_success_inv blob page stackAddress codeSetOffset
    dAbtHandler dAbtHandlerMemAddress h
  refine ⟨_, hr, ?_⟩
  intro i h1 h3 h7 hout
  simp only []
  rw [relocLoop_frame _ _ _ _ i hout, writeVectors_other _ _ _ _ h1 h3 h7]
  exact memcpyBody_outside _ _ _ _ (by unfold Arm11Blob.bodyWords at hout; omega)

/-- Witness for C5: `oneWordBlob` on `markedPage`. -/
theorem installArm11Handlers_page_frame_witness :
    ∃ r, installArm11Handlers oneWordBlob markedPage 0x1000 0 [0x1000] 0 = some r ∧
      ∀ i, i ≠ 1 → i ≠ 3 → i ≠ 7 →
        (i < freeSpacePos markedPage ∨ freeSpacePos markedPage + oneWordBlob.bodyWords < i) →
        r.page i = markedPage i :=
  installArm11Handlers_page_frame oneWordBlob markedPage 0x1000 0 [0x1000] 0 (by decide)

/-- Counterexample to C5 as stated.  With `bxLastBlob` on `markedPage` the patcher
returns 0 and the copied region is the single word 10; word 11 of the page, which
is none of 1, 3, 7 and lies outside the copied region, held `0xFFFFFFFF` before
the call and holds `0xFFFF0007` after it. -/
theorem installArm11Handlers_page_frame_counterexample :
    retCode (installArm11Handlers bxLastBlob markedPage 0x1000 0 [0x1000] 0) = some 0 ∧
    freeSpacePos markedPage = 10 ∧ bxLastBlob.bodyWords = 1 ∧
    markedPage 11 = 0xFFFFFFFF ∧
    (installArm11Handlers bxLastBlob markedPage 0x1000 0 [0x1000] 0).map
      (fun r => r.page 11) = some 0xFFFF0007 := by
  refine ⟨by decide, by decide, by decide, by decide, by decide⟩

/-- Claim C6, as the code has it.  The validation reads two words: when
`installArm11Handlers` returns 0, the free-space start lies in the page and the
word there and the word `arm11_exceptions_bin_size - 36` bytes after it, the
first and the last word the copy of the body overwrites, held `0xFFFFFFFF` before
the call. -/
theorem installArm11Handlers_free_space_ends (blob : Arm11Blob) (page : WordMem)
    (stackAddress codeSetOffset : Nat) (dAbtHandler : List Nat) (dAbtHandlerMemAddress : Nat)
    (h : retCode (installArm11Handlers blob page stackAddress codeSetOffset dAbtHandler
      dAbtHandlerMemAddress) = some 0) :
    freeSpacePos page < 0x400 ∧ page (freeSpacePos page) = 0xFFFFFFFF ∧
      page (freeSpacePos page + blob.bodyWords - 1) = 0xFFFFFFFF := by
  obtain ⟨hv, _⟩ := installArm11Handlers_success_inv blob page stackAddress codeSetOffset
    dAbtHandler dAbtHandlerMemAddress h
  rw [validationFails_eq_false_iff] at hv
  obtain ⟨_, hf, _, hend⟩ := hv
  have hle := freeSpacePos_le page
  have hlt : freeSpacePos page < 0x400 := by omega
  refine ⟨hlt, ?_, hend⟩
  have h4 := (scanFor_spec page 0xFFFFFFFF (0x400 - initFPUPos page) (initFPUPos page)).2.2.2
  have ha := initFPUPos_le page
  exact h4 (by unfold freeSpacePos at hlt; omega)

/-- Witness for C6: `threeWordBlob` on `markedPage`. -/
theorem installArm11Handlers_free_space_ends_witness :
    freeSpacePos markedPage < 0x400 ∧ markedPage (freeSpacePos markedPage) = 0xFFFFFFFF ∧
      markedPage (freeSpacePos markedPage + threeWordBlob.bodyWords - 1) = 0xFFFFFFFF :=
  installArm11Handlers_free_space_ends threeWordBlob markedPage 0x1000 0 [0x1000] 0 (by decide)

/-- Counterexample to C6 as stated.  With `threeWordBlob` on `holePage` the
patcher returns 0 and the copy overwrites words 10, 11 and 12; word 11 held
`0xE12FFF1E`, not the free-space value, before the call and holds the second body
word after it. -/
theorem installArm11Handlers_free_space_counterexample :
    retCode (installArm11Handlers threeWordBlob holePage 0x1000 0 [0x1000] 0) = some 0 ∧
    freeSpacePos holePage = 10 ∧ threeWordBlob.bodyWords = 3 ∧
    holePage 11 = 0xE12FFF1E ∧
    (installArm11Handlers threeWordBlob holePage 0x1000 0 [0x1000] 0).map
      (fun r => r.page 11) = some 0xE1A00000 := by
  refine ⟨by decide, by decide, by decide, by decide, by decide⟩

/-! ### The reporter: absence and consumption -/

theorem dumpPresent_iff (mem : ByteMem) :
    dumpPresent mem = true ↔
      magic0 mem = 0xDEADC0DE ∧ magic1 mem = 0xDEADCAFE ∧
        (processor mem = 9 ∨ processor mem = 11) := by
  simp [dumpPresent, and_assoc]

/-- The read of the table of names is defined for the types 0 to 3. -/
theorem exceptionName_of_le (mem : ByteMem) (h : type mem ≤ 3) :
    exceptionName mem = some (handledExceptionNames.getD (type mem) "") := by
  unfold exceptionName
  have h4 : type mem = 0 ∨ type mem = 1 ∨ type mem = 2 ∨ type mem = 3 := by omega
  rcases h4 with h | h | h | h <;> rw [h] <;> rfl

/-- The read of the table of names is past its end for a type above 3. -/
theorem exceptionName_of_gt (mem : ByteMem) (h : 4 ≤ type mem) : exceptionName mem = none := by
  unfold exceptionName
  exact List.getElem?_eq_none h

/-- For a type above 3 the branch of line 160 is taken and reads past the
table. -/
theorem drawExceptionType_of_gt (env : Collaborators) (mem : ByteMem) (posY : Nat)
    (h : 4 ≤ type mem) : drawExceptionType env mem posY = none := by
  unfold drawExceptionType
  rw [if_neg (by omega), exceptionName_of_gt mem h]
  rfl

/-- For a type of 0 to 3 the lines 138 to 160 stay inside the table. -/
theorem drawExceptionType_of_le (env : Collaborators) (mem : ByteMem) (posY : Nat)
    (h : type mem ≤ 3) : ∃ ty, drawExceptionType env mem posY = some ty := by
  unfold drawExceptionType
  rw [exceptionName_of_le mem h]
  simp only [Option.map_some']
  split_ifs <;> exact ⟨_, rfl⟩

/-- The run when the read of the table is past its end. -/
theorem detect_of_none (env : Collaborators) (mem : ByteMem) (hp : dumpPresent mem = true)
    (h : drawExceptionType env mem (drawProcessor env mem).2 = none) :
    detectAndProcessExceptionDumps env mem
      = ([Event.initScreens, (drawString env true 10 10 Color.red "An exception occurred").1,
          (drawProcessor env mem).1], none) := by
  unfold detectAndProcessExceptionDumps
  rw [if_pos hp, h]

/-- The run when the lines 138 to 160 stay inside the table. -/
theorem detect_of_some (env : Collaborators) (mem : ByteMem) (ty : List Event × Nat)
    (hp : dumpPresent mem = true)
    (h : drawExceptionType env mem (drawProcessor env mem).2 = some ty) :
    detectAndProcessExceptionDumps env mem
      = (Event.initScreens
          :: (drawString env true 10 10 Color.red "An exception occurred").1
          :: ((drawProcessor env mem).1
              :: ty.1
              ++ (drawCurrentProcess env mem ty.2).1
              ++ (drawRegisters env mem 9 0 (posYBeforeRegisters env mem ty.2)).1
              ++ (drawWarning env mem (posYAfterRegisters env mem ty.2)).1
              ++ drawStackDump env mem
              ++ writeDumpFile env mem (drawWarning env mem (posYAfterRegisters env mem ty.2)).2)
          ++ [Event.waitInput false, Event.mcuPowerOff],
        some (memset32Zero mem dumpHeaderAddr (totalSize mem))) := by
  unfold detectAndProcessExceptionDumps
  rw [if_pos hp, h]

/-- Claim C7.  When a magic word differs or the processor field is neither 9 nor
11, the reporter makes no call at all (no draw, no file write, no power-off) and
leaves the memory as it is.  When both magic words are set and the processor is 9
or 11, it goes on to render: it initialises the screens, draws the title and
draws the processor line, whatever the other header fields hold; and when the
type is one of the four of the table of names (0 to 3), the run ends with the
wait for input and the power-off. -/
theorem detectAndProcessExceptionDumps_absent_noop (env : Collaborators) (mem : ByteMem) :
    (magic0 mem ≠ 0xDEADC0DE ∨ magic1 mem ≠ 0xDEADCAFE ∨
        (processor mem ≠ 9 ∧ processor mem ≠ 11) →
      detectAndProcessExceptionDumps env mem = ([], some mem)) ∧
    (magic0 mem = 0xDEADC0DE ∧ magic1 mem = 0xDEADCAFE ∧
        (processor mem = 9 ∨ processor mem = 11) →
      ∃ rest, (detectAndProcessExceptionDumps env mem).1 =
        Event.initScreens :: Event.drawString true 10 10 Color.red "An exception occurred"
          :: (if processor mem = 11 then
                Event.drawFormattedString true 10 30 Color.white
                  "Processor:       ARM11 (core %u)" [FmtArg.num (core mem)]
              else Event.drawString true 10 30 Color.white "Processor:       ARM9")
          :: rest) ∧
    (magic0 mem = 0xDEADC0DE ∧ magic1 mem = 0xDEADCAFE ∧
        (processor mem = 9 ∨ processor mem = 11) → type mem ≤ 3 →
      ∃ rest, (detectAndProcessExceptionDumps env mem).1 =
        Event.initScreens :: Event.drawString true 10 10 Color.red "An exception occurred"
          :: rest ++ [Event.waitInput false, Event.mcuPowerOff]) := by
  have hproc : (drawProcessor env mem).1
      = (if processor mem = 11 then
          Event.drawFormattedString true 10 30 Color.white
            "Processor:       ARM11 (core %u)" [FmtArg.num (core mem)]
        else Event.drawString true 10 30 Color.white "Processor:       ARM9") := by
    unfold drawProcessor
    split_ifs <;> rfl
  refine ⟨?_, ?_, ?_⟩
  · intro h
    have hp : dumpPresent mem = false := by
      rw [← Bool.not_eq_true, dumpPresent_iff]
      intro ⟨h0, h1, h2⟩
      rcases h with h | h | h
      · exact h h0
      · exact h h1
      · rcases h2 with h2 | h2
        · exact h.1 h2
        · exact h.2 h2
    unfold detectAndProcessExceptionDumps
    simp [hp]
  · intro h
    have hp : dumpPresent mem = true := (dumpPresent_iff mem).mpr h
    rw [← hproc]
    cases hty : drawExceptionType env mem (drawProcessor env mem).2 with
    | none =>
      rw [detect_of_none env mem hp hty]
      exact ⟨[], rfl⟩
    | some ty =>
      rw [detect_of_some env mem ty hp hty]
      exact ⟨_, rfl⟩
  · intro h ht
    have hp : dumpPresent mem = true := (dumpPresent_iff mem).mpr h
    obtain ⟨ty, hty⟩ := drawExceptionType_of_le env mem (drawProcessor env mem).2 ht
    rw [detect_of_some env mem ty hp hty]
    exact ⟨_, rfl⟩

/-- Witness for C7: no call on the all-zero memory; the first three calls on
`unknownTypeDump`, whose type is 4; a run to the power-off on
`undefThumbSvcDump`. -/
theorem detectAndProcessExceptionDumps_absent_noop_witness :
    detectAndProcessExceptionDumps sampleEnv noDump = ([], some noDump) ∧
    (∃ rest, (detectAndProcessExceptionDumps sampleEnv unknownTypeDump).1 =
      Event.initScreens :: Event.drawString true 10 10 Color.red "An exception occurred"
        :: (if processor unknownTypeDump = 11 then
              Event.drawFormattedString true 10 30 Color.white
                "Processor:       ARM11 (core %u)" [FmtArg.num (core unknownTypeDump)]
            else Event.drawString true 10 30 Color.white "Processor:       ARM9")
        :: rest) ∧
    ∃ rest, (detectAndProcessExceptionDumps sampleEnv undefThumbSvcDump).1 =
      Event.initScreens :: Event.drawString true 10 10 Color.red "An exception occurred"
        :: rest ++ [Event.waitInput false, Event.mcuPowerOff] :=
  ⟨(detectAndProcessExceptionDumps_absent_noop sampleEnv noDump).1 (Or.inl (by decide)),
   (detectAndProcessExceptionDumps_absent_noop sampleEnv unknownTypeDump).2.1
     ⟨by decide, by decide, Or.inr (by decide)⟩,
   (detectAndProcessExceptionDumps_absent_noop sampleEnv undefThumbSvcDump).2.2
     ⟨by decide, by decide, Or.inr (by decide)⟩ (by decide)⟩

/-- Zeroing at least four bytes from the header address clears the first magic
word. -/
theorem magic0_memset32Zero (mem : ByteMem) (size : Nat) (h : 4 ≤ size) :
    magic0 (memset32Zero mem dumpHeaderAddr size) = 0 := by
  unfold magic0 rd32 memset32Zero
  rw [if_pos (by omega), if_pos (by omega), if_pos (by omega), if_pos (by omega)]
  norm_num

/-- Claim C8, as the code has it.  The header is not validated: the zeroing
clears the magic words only when `totalSize` covers them, and the run reaches
the zeroing only when the type is one of the four of the table of names.  For a
valid dump whose type is at most 3 and whose `totalSize` is at least 4, the
reporter leaves the memory with `totalSize` bytes from the header address zeroed,
and a second invocation on that memory makes no call and changes nothing. -/
theorem detectAndProcessExceptionDumps_consumed (env env2 : Collaborators) (mem : ByteMem)
    (hm0 : magic0 mem = 0xDEADC0DE) (hm1 : magic1 mem = 0xDEADCAFE)
    (hp : processor mem = 9 ∨ processor mem = 11) (hty : type mem ≤ 3)
    (hsize : 4 ≤ totalSize mem) :
    (detectAndProcessExceptionDumps env mem).2
        = some (memset32Zero mem dumpHeaderAddr (totalSize mem)) ∧
      detectAndProcessExceptionDumps env2 (memset32Zero mem dumpHeaderAddr (totalSize mem))
        = ([], some (memset32Zero mem dumpHeaderAddr (totalSize mem))) := by
  have hpres : dumpPresent mem = true := (dumpPresent_iff mem).mpr ⟨hm0, hm1, hp⟩
  obtain ⟨ty, hdraw⟩ := drawExceptionType_of_le env mem (drawProcessor env mem).2 hty
  refine ⟨by rw [detect_of_some env mem ty hpres hdraw], ?_⟩
  have hz := magic0_memset32Zero mem (totalSize mem) hsize
  have hnot : dumpPresent (memset32Zero mem dumpHeaderAddr (totalSize mem)) = false := by
    rw [← Bool.not_eq_true, dumpPresent_iff]
    intro ⟨h0, _, _⟩
    rw [hz] at h0
    omega
  unfold detectAndProcessExceptionDumps
  simp only [hnot]
  rfl

/-- Witness for C8: `undefThumbSvcDump`, whose type is 1 and whose `totalSize` is
122. -/
theorem detectAndProcessExceptionDumps_consumed_witness :
    (detectAndProcessExceptionDumps sampleEnv undefThumbSvcDump).2
        = some (memset32Zero undefThumbSvcDump dumpHeaderAddr (totalSize undefThumbSvcDump)) ∧
      detectAndProcessExceptionDumps sampleEnv
          (memset32Zero undefThumbSvcDump dumpHeaderAddr (totalSize undefThumbSvcDump))
        = ([], some (memset32Zero undefThumbSvcDump dumpHeaderAddr
            (totalSize undefThumbSvcDump))) :=
  detectAndProcessExceptionDumps_consumed sampleEnv sampleEnv undefThumbSvcDump (by decide)
    (by decide) (Or.inr (by decide)) (by decide) (by decide)

/-- Counterexample to C8 as stated.  First group: `zeroSizeDump` holds a valid
dump (both magic words, processor 11) with `totalSize = 0`; the reporter zeroes
no byte, and a second invocation on the memory it leaves starts a report again.
Second group: `unknownTypeDump` holds a valid dump whose type is 4; the run makes
three calls, reads the table of names past its end and does not get to the
zeroing. -/
theorem detectAndProcessExceptionDumps_consumed_counterexample :
    (magic0 zeroSizeDump = 0xDEADC0DE ∧ magic1 zeroSizeDump = 0xDEADCAFE ∧
      processor zeroSizeDump = 11 ∧ totalSize zeroSizeDump = 0 ∧
      (detectAndProcessExceptionDumps sampleEnv zeroSizeDump).2.map
        (fun m => (detectAndProcessExceptionDumps sampleEnv m).1.head?)
          = some (some Event.initScreens)) ∧
    (magic0 unknownTypeDump = 0xDEADC0DE ∧ magic1 unknownTypeDump = 0xDEADCAFE ∧
      processor unknownTypeDump = 11 ∧ type unknownTypeDump = 4 ∧
      (detectAndProcessExceptionDumps sampleEnv unknownTypeDump).1.length = 3 ∧
      (detectAndProcessExceptionDumps sampleEnv unknownTypeDump).2.isSome = false) := by
  refine ⟨⟨by decide, by decide, by decide, by decide, by decide⟩,
    by decide, by decide, by decide, by decide, by decide, by decide⟩

/-! ### The calls of a report -/

theorem filterMap_nil_of_forall {α β : Type} (f : α → Option β) (l : List α)
    (h : ∀ e, e ∈ l → f e = none) : l.filterMap f = [] := by
  induction l with
  | nil => rfl
  | cons a t ih =>
    rw [List.filterMap_cons, h a (List.mem_cons_self _ _)]
    exact ih (fun e he => h e (List.mem_cons_of_mem _ he))

/-- The register loop only makes `%-7s%08X` calls. -/
theorem drawRegisters_events (env : Collaborators) (mem : ByteMem) :
    ∀ (n i posY : Nat) (e : Event), e ∈ (drawRegisters env mem n i posY).1 →
      ∃ x y a, e = Event.drawFormattedString true x y Color.white "%-7s%08X" a := by
  intro n
  induction n with
  | zero => intro i posY e he; simp [drawRegisters] at he
  | succ n ih =>
    intro i posY e he
    simp only [drawRegisters, List.mem_append] at he
    rcases he with he | he
    · unfold drawRegisterRow at he
      simp only [drawFormattedString] at he
      split_ifs at he
      · simp only [List.mem_cons, List.mem_singleton, List.not_mem_nil, or_false] at he
        rcases he with he | he
        · exact ⟨_, _, _, he⟩
        · exact ⟨_, _, _, he⟩
      · simp only [List.mem_singleton] at he
        exact ⟨_, _, _, he⟩
    · exact ih _ _ e he

/-- The inner stack loop only makes `%02X` calls. -/
theorem drawStackBytes_events (env : Collaborators) (mem : ByteMem) (posYBottom : Nat) :
    ∀ (n i stackDump : Nat) (e : Event),
      e ∈ (drawStackBytes env mem posYBottom n i stackDump).1 →
      ∃ x y a, e = Event.drawFormattedString false x y Color.white "%02X" a := by
  intro n
  induction n with
  | zero => intro i sd e he; simp [drawStackBytes] at he
  | succ n ih =>
    intro i sd e he
    unfold drawStackBytes at he
    split_ifs at he
    · simp only [drawFormattedString, List.mem_cons] at he
      rcases he with he | he
      · exact ⟨_, _, _, he⟩
      · exact ih _ _ e he
    · simp at he

/-- The stack loop only makes `%08X:` and `%02X` calls. -/
theorem drawStackLines_events (env : Collaborators) (mem : ByteMem) :
    ∀ (n line stackDump posYBottom : Nat) (e : Event),
      e ∈ drawStackLines env mem n line stackDump posYBottom →
      ∃ x y fmt a, e = Event.drawFormattedString false x y Color.white fmt a ∧
        (fmt = "%08X:" ∨ fmt = "%02X") := by
  intro n
  induction n with
  | zero => intro l sd y e he; simp [drawStackLines] at he
  | succ n ih =>
    intro l sd y e he
    unfold drawStackLines at he
    split_ifs at he
    · simp only [drawFormattedString, List.mem_cons, List.mem_append, List.cons_append] at he
      rcases he with he | he | he
      · exact ⟨_, _, _, _, he, Or.inl rfl⟩
      · obtain ⟨x, y2, a, h⟩ := drawStackBytes_events env mem _ _ _ _ e he
        exact ⟨_, _, _, _, h, Or.inr rfl⟩
      · exact ih _ _ _ e he
    · simp at he

/-- The calls of lines 191 to 206 are plain draws, `findDumpFile` and
`fileWrite`. -/
theorem writeDumpFile_events (env : Collaborators) (mem : ByteMem) (posY : Nat) (e : Event)
    (he : e ∈ writeDumpFile env mem posY) :
    (∃ t x y c s, e = Event.drawString t x y c s) ∨ (∃ f, e = Event.findDumpFile f) ∨
      (∃ b p n, e = Event.fileWrite b p n) := by
  unfold writeDumpFile at he
  simp only [drawString, List.mem_append, List.mem_cons, List.mem_singleton,
    List.not_mem_nil, or_false] at he
  rcases he with ((he | he) | he) | he
  · exact Or.inr (Or.inl ⟨_, he⟩)
  · exact Or.inr (Or.inr ⟨_, _, _, he⟩)
  · split_ifs at he
    · simp only [List.mem_cons, List.mem_singleton, List.not_mem_nil, or_false] at he
      rcases he with he | he
      · exact Or.inl ⟨_, _, _, _, _, he⟩
      · exact Or.inl ⟨_, _, _, _, _, he⟩
    · simp only [List.mem_singleton] at he
      exact Or.inl ⟨_, _, _, _, _, he⟩
  · exact Or.inl ⟨_, _, _, _, _, he⟩

/-- A selection of calls that skips the plain draws and the calls without text
only sees, in a report that stays inside the table of names, the formatted draws
of the processor line, the exception type, the current process, the registers
and the stack lines. -/
theorem detect_filterMap {β : Type} (f : Event → Option β) (env : Collaborators)
    (mem : ByteMem) (ty : List Event × Nat) (h : dumpPresent mem = true)
    (hty : drawExceptionType env mem (drawProcessor env mem).2 = some ty)
    (hds : ∀ t x y c s, f (Event.drawString t x y c s) = none)
    (hinit : f Event.initScreens = none)
    (hfind : ∀ p, f (Event.findDumpFile p) = none)
    (hwrite : ∀ b p n, f (Event.fileWrite b p n) = none)
    (hwait : ∀ b, f (Event.waitInput b) = none)
    (hoff : f Event.mcuPowerOff = none) :
    (detectAndProcessExceptionDumps env mem).1.filterMap f =
      [(drawProcessor env mem).1].filterMap f
        ++ ty.1.filterMap f
        ++ (drawCurrentProcess env mem ty.2).1.filterMap f
        ++ (drawRegisters env mem 9 0 (posYBeforeRegisters env mem ty.2)).1.filterMap f
        ++ (drawStackLines env mem 19 0 (stackDumpAddr mem)
            ((drawString env false 10 10 Color.white "Stack dump:").2 + env.SPACING_Y)).filterMap f
      := by
  have hw : (drawWarning env mem (posYAfterRegisters env mem ty.2)).1.filterMap f = [] := by
    apply filterMap_nil_of_forall
    intro e he
    unfold drawWarning at he
    split_ifs at he
    · simp only [drawString, List.mem_singleton] at he
      rw [he]; exact hds _ _ _ _ _
    · simp at he
  have hd : (writeDumpFile env mem (drawWarning env mem (posYAfterRegisters env mem ty.2)).2).filterMap
      f = [] := by
    apply filterMap_nil_of_forall
    intro e he
    rcases writeDumpFile_events env mem _ e he with ⟨t, x, y, c, s, rfl⟩ | ⟨p, rfl⟩ | ⟨b, p, n, rfl⟩
    · exact hds _ _ _ _ _
    · exact hfind _
    · exact hwrite _ _ _
  rw [detect_of_some env mem ty h hty]
  simp only [drawStackDump]
  simp only [List.cons_append, List.filterMap_cons, List.filterMap_append, List.filterMap_nil,
    hinit, hwait, hoff, hw, hd, drawString, hds, List.append_nil, List.nil_append,
    List.append_assoc]
  cases f (drawProcessor env mem).1 <;> rfl

/-- The calls of lines 138 to 160 draw one of the two `Exception type:` formats. -/
theorem drawExceptionType_events (env : Collaborators) (mem : ByteMem) (posY : Nat)
    (ty : List Event × Nat) (hty : drawExceptionType env mem posY = some ty) (e : Event)
    (he : e ∈ ty.1) :
    ∃ y fmt a, e = Event.drawFormattedString true 10 y Color.white fmt a ∧
      (fmt = "Exception type:  %s (%s)" ∨ fmt = "Exception type:  %s") := by
  unfold drawExceptionType at hty
  cases hn : exceptionName mem with
  | none =>
    rw [hn] at hty
    simp only [Option.map_none'] at hty
    split_ifs at hty
    rw [← Option.some.inj hty] at he
    simp at he
  | some n =>
    rw [hn] at hty
    simp only [Option.map_some', drawTypeLine, drawFormattedString] at hty
    split_ifs at hty <;> rw [← Option.some.inj hty] at he <;>
      simp only [List.mem_singleton, List.not_mem_nil] at he
    all_goals first
      | exact ⟨_, _, _, he, Or.inl rfl⟩
      | exact ⟨_, _, _, he, Or.inr rfl⟩

/-- The processor line is no `Exception type:`, `Current process:`, register or
stack line. -/
theorem drawProcessor_filterMap {β : Type} (f : Event → Option β) (env : Collaborators)
    (mem : ByteMem) (hds : ∀ t x y c s, f (Event.drawString t x y c s) = none)
    (hproc : ∀ t x y c a,
      f (Event.drawFormattedString t x y c "Processor:       ARM11 (core %u)" a) = none) :
    [(drawProcessor env mem).1].filterMap f = [] := by
  apply filterMap_nil_of_forall
  intro e he
  unfold drawProcessor at he
  split_ifs at he
  · simp only [drawFormattedString, List.mem_singleton] at he
    rw [he]; exact hproc _ _ _ _ _
  · simp only [drawString, List.mem_singleton] at he
    rw [he]; exact hds _ _ _ _ _

/-! ### The exception type line -/

theorem exceptionTypeText_other (t : Bool) (x y : Nat) (c : Color) (fmt : String)
    (args : List FmtArg) (h : "Exception type:".data.isPrefixOf fmt.data = false) :
    exceptionTypeText (Event.drawFormattedString t x y c fmt args) = none := by
  simp [exceptionTypeText, h]

theorem exceptionTypeText_match (t : Bool) (x y : Nat) (c : Color) (fmt : String)
    (args : List FmtArg) (h : "Exception type:".data.isPrefixOf fmt.data = true) :
    exceptionTypeText (Event.drawFormattedString t x y c fmt args)
      = renderedText (Event.drawFormattedString t x y c fmt args) := by
  simp [exceptionTypeText, h]

/-- In a report, the `Exception type:` lines are those of lines 138 to 160. -/
theorem exceptionTypeTexts_detect (env : Collaborators) (mem : ByteMem) (ty : List Event × Nat)
    (h : dumpPresent mem = true)
    (hty : drawExceptionType env mem (drawProcessor env mem).2 = some ty) :
    exceptionTypeTexts (detectAndProcessExceptionDumps env mem).1 = exceptionTypeTexts ty.1 := by
  unfold exceptionTypeTexts
  rw [detect_filterMap exceptionTypeText env mem ty h hty (fun _ _ _ _ _ => rfl) rfl
    (fun _ => rfl) (fun _ _ _ => rfl) (fun _ => rfl) rfl]
  have h1 : [(drawProcessor env mem).1].filterMap exceptionTypeText = [] :=
    drawProcessor_filterMap exceptionTypeText env mem (fun _ _ _ _ _ => rfl)
      (fun _ _ _ _ _ => exceptionTypeText_other _ _ _ _ _ _ (by decide))
  have h2 : (drawCurrentProcess env mem ty.2).1.filterMap exceptionTypeText = [] := by
    apply filterMap_nil_of_forall
    intro e he
    unfold drawCurrentProcess at he
    split_ifs at he
    · simp only [drawFormattedString, List.mem_singleton] at he
      rw [he]; exact exceptionTypeText_other _ _ _ _ _ _ (by decide)
    · simp at he
  have h3 : (drawRegisters env mem 9 0 (posYBeforeRegisters env mem ty.2)).1.filterMap
      exceptionTypeText = [] := by
    apply filterMap_nil_of_forall
    intro e he
    obtain ⟨x, y, a, rfl⟩ := drawRegisters_events env mem _ _ _ e he
    exact exceptionTypeText_other _ _ _ _ _ _ (by decide)
  have h4 : (drawStackLines env mem 19 0 (stackDumpAddr mem)
      ((drawString env false 10 10 Color.white "Stack dump:").2 + env.SPACING_Y)).filterMap
      exceptionTypeText = [] := by
    apply filterMap_nil_of_forall
    intro e he
    obtain ⟨x, y, fmt, a, rfl, hf | hf⟩ := drawStackLines_events env mem _ _ _ _ e he
    · subst hf; exact exceptionTypeText_other _ _ _ _ _ _ (by decide)
    · subst hf; exact exceptionTypeText_other _ _ _ _ _ _ (by decide)
  rw [h1, h2, h3, h4]
  simp

theorem exceptionName_two (mem : ByteMem) (h : type mem = 2) :
    exceptionName mem = some "prefetch abort" := by
  unfold exceptionName
  rw [h]
  rfl

/-- Claim C9, as the code has it.  The reporter looks for a special instruction
in dumps of type 2, the category drawn as `prefetch abort`, not in those of the
undefined-instruction category.  For a valid dump of type 2: in Thumb state with
at least 2 code bytes, the last two being `0xDF3C`, the `Exception type` line is
the category name followed by a label of the table `specialExceptions` in
parentheses; in ARM state with at least 4 code bytes, the last four being
`0xEF00003C` (`svc 0x3C`), the line is `Exception type:  prefetch abort (svcBreak)`,
which includes the label `svcBreak`. -/
theorem detectAndProcessExceptionDumps_special_label (env : Collaborators) (mem : ByteMem)
    (hm0 : magic0 mem = 0xDEADC0DE) (hm1 : magic1 mem = 0xDEADCAFE)
    (hp : processor mem = 9 ∨ processor mem = 11) (hty : type mem = 2) :
    (regs mem 16 &&& 0x20 ≠ 0 → 2 ≤ codeDumpSize mem →
      rd16 mem ((stackDumpAddr mem + (2 ^ 32 - 2)) % 2 ^ 32) = 0xDF3C →
      ∃ label, label ∈ specialExceptions ∧
        exceptionTypeTexts (detectAndProcessExceptionDumps env mem).1
          = ["Exception type:  prefetch abort (" ++ label ++ ")"]) ∧
    (regs mem 16 &&& 0x20 = 0 → 4 ≤ codeDumpSize mem →
      rd32 mem ((stackDumpAddr mem + (2 ^ 32 - 4)) % 2 ^ 32) = 0xEF00003C →
      exceptionTypeTexts (detectAndProcessExceptionDumps env mem).1
          = ["Exception type:  prefetch abort (svcBreak)"] ∧
        ∀ t, t ∈ exceptionTypeTexts (detectAndProcessExceptionDumps env mem).1 →
          includesText t "svcBreak" = true) := by
  have hpres : dumpPresent mem = true := (dumpPresent_iff mem).mpr ⟨hm0, hm1, hp⟩
  constructor
  · intro hthumb hsize hinstr
    refine ⟨"kernel panic", by decide, ?_⟩
    have hdraw : drawExceptionType env mem (drawProcessor env mem).2
        = some (drawTypeLine env (drawProcessor env mem).2 "Exception type:  %s (%s)"
            [FmtArg.str "prefetch abort", FmtArg.str (specialExceptions.getD 0 "")]) := by
      unfold drawExceptionType
      rw [if_pos hty, if_neg (fun hc => hthumb hc.1), if_pos ⟨hthumb, hsize⟩,
        exceptionName_two mem hty]
      simp only [hinstr, if_true, Option.map_some']
    rw [exceptionTypeTexts_detect env mem _ hpres hdraw]
    simp only [drawTypeLine, drawFormattedString, exceptionTypeTexts, List.filterMap_cons,
      List.filterMap_nil]
    rw [exceptionTypeText_match _ _ _ _ _ _ (by decide)]
    rfl
  · intro harm hsize hinstr
    have hdraw : drawExceptionType env mem (drawProcessor env mem).2
        = some (drawTypeLine env (drawProcessor env mem).2 "Exception type:  %s (%s)"
            [FmtArg.str "prefetch abort", FmtArg.str (specialExceptions.getD 1 "")]) := by
      unfold drawExceptionType
      rw [if_pos hty, if_pos ⟨harm, hsize⟩, exceptionName_two mem hty]
      simp only [hinstr, Option.map_some']
      rw [if_neg (by decide), if_pos trivial]
    have key : exceptionTypeTexts (detectAndProcessExceptionDumps env mem).1
        = ["Exception type:  prefetch abort (svcBreak)"] := by
      rw [exceptionTypeTexts_detect env mem _ hpres hdraw]
      simp only [drawTypeLine, drawFormattedString, exceptionTypeTexts, List.filterMap_cons,
        List.filterMap_nil]
      rw [exceptionTypeText_match _ _ _ _ _ _ (by decide)]
      rfl
    rw [key]
    refine ⟨rfl, ?_⟩
    intro t ht
    rw [List.mem_singleton] at ht
    subst ht
    decide

/-- Witness for C9: the Thumb-state dump `pabtThumbSvcDump` and the ARM-state dump
`pabtArmSvcDump`, both of type 2. -/
theorem detectAndProcessExceptionDumps_special_label_witness :
    (∃ label, label ∈ specialExceptions ∧
      exceptionTypeTexts (detectAndProcessExceptionDumps sampleEnv pabtThumbSvcDump).1
        = ["Exception type:  prefetch abort (" ++ label ++ ")"]) ∧
    (exceptionTypeTexts (detectAndProcessExceptionDumps sampleEnv pabtArmSvcDump).1
        = ["Exception type:  prefetch abort (svcBreak)"] ∧
      ∀ t, t ∈ exceptionTypeTexts (detectAndProcessExceptionDumps sampleEnv pabtArmSvcDump).1 →
        includesText t "svcBreak" = true) :=
  ⟨(detectAndProcessExceptionDumps_special_label sampleEnv pabtThumbSvcDump (by decide)
      (by decide) (Or.inr (by decide)) (by decide)).1 (by decide) (by decide) (by decide),
   (detectAndProcessExceptionDumps_special_label sampleEnv pabtArmSvcDump (by decide)
      (by decide) (Or.inr (by decide)) (by decide)).2 (by decide) (by decide) (by decide)⟩

/-- Counterexample to C9 as stated: `undefThumbSvcDump` is a valid processor 11
dump of the type drawn as `undefined instruction`, its `CPSR` has the Thumb bit,
it has two code bytes and they are `0xDF3C`; the only `Exception type` line of the
report is `Exception type:  undefined instruction`, without the label
`svcBreak`. -/
theorem detectAndProcessExceptionDumps_special_label_counterexample :
    magic0 undefThumbSvcDump = 0xDEADC0DE ∧ magic1 undefThumbSvcDump = 0xDEADCAFE ∧
    processor undefThumbSvcDump = 11 ∧
    handledExceptionNames.getD (type undefThumbSvcDump) "" = "undefined instruction" ∧
    regs undefThumbSvcDump 16 &&& 0x20 ≠ 0 ∧ 2 ≤ codeDumpSize undefThumbSvcDump ∧
    rd16 undefThumbSvcDump ((stackDumpAddr undefThumbSvcDump + (2 ^ 32 - 2)) % 2 ^ 32)
      = 0xDF3C ∧
    exceptionTypeTexts (detectAndProcessExceptionDumps sampleEnv undefThumbSvcDump).1
      = ["Exception type:  undefined instruction"] ∧
    includesText "Exception type:  undefined instruction" "svcBreak" = false := by
  refine ⟨by decide, by decide, by decide, by decide, by decide, by decide, by decide,
    by decide, by decide⟩

/-- The Thumb-state branch of line 154 passes `specialExceptions[0]`: for the
type 2 dump `pabtThumbSvcDump`, whose last code bytes are the Thumb `svc 0x3C`,
the line reads `kernel panic`, while the ARM-state branch of line 146 labels
`svc 0x3C` as `svcBreak`. -/
theorem thumb_svc_line_reads_kernel_panic :
    exceptionTypeTexts (detectAndProcessExceptionDumps sampleEnv pabtThumbSvcDump).1
      = ["Exception type:  prefetch abort (kernel panic)"] := by
  decide

/-! ### The exception type line: every type -/

/-- Claim C18, evaluated where the code departs from it: `pabtNoCodeDump` is a
valid processor 11 dump of type 2 with `codeDumpSize = 0`.  Neither branch of
lines 140 and 150 is taken and the `if` of line 138 has no other branch: the
report has no call at all that draws an `Exception type:` text. -/
theorem detectAndProcessExceptionDumps_type_line_missing :
    magic0 pabtNoCodeDump = 0xDEADC0DE ∧ magic1 pabtNoCodeDump = 0xDEADCAFE ∧
    processor pabtNoCodeDump = 11 ∧ type pabtNoCodeDump = 2 ∧
    codeDumpSize pabtNoCodeDump = 0 ∧
    handledExceptionNames.getD (type pabtNoCodeDump) "" = "prefetch abort" ∧
    (detectAndProcessExceptionDumps sampleEnv pabtNoCodeDump).1.filter drawsExceptionType = [] ∧
    exceptionTypeTexts (detectAndProcessExceptionDumps sampleEnv pabtNoCodeDump).1 = [] := by
  refine ⟨by decide, by decide, by decide, by decide, by decide, by decide, by decide,
    by decide⟩

/-- The run on `pabtNoCodeDump` stays inside the table of names and goes on to
the power-off: the missing line is not the effect of a read past the table. -/
theorem pabtNoCodeDump_run_complete :
    (detectAndProcessExceptionDumps sampleEnv pabtNoCodeDump).2.isSome = true ∧
    (detectAndProcessExceptionDumps sampleEnv pabtNoCodeDump).1.getLast? = some Event.mcuPowerOff
    := by
  refine ⟨by decide, by decide⟩

/-- Where a line is drawn, C18 holds: for a valid dump of type 0, 1 or 3, and for
one of type 2 that takes one of the branches of lines 140 and 150, the report has
exactly one `Exception type:` line and it includes the name of the category. -/
theorem exceptionTypeTexts_one_line (env : Collaborators) (mem : ByteMem)
    (hm0 : magic0 mem = 0xDEADC0DE) (hm1 : magic1 mem = 0xDEADCAFE)
    (hp : processor mem = 9 ∨ processor mem = 11) (hty : type mem ≤ 3)
    (hcode : type mem = 2 → (regs mem 16 &&& 0x20 = 0 ∧ 4 ≤ codeDumpSize mem) ∨
      (regs mem 16 &&& 0x20 ≠ 0 ∧ 2 ≤ codeDumpSize mem)) :
    ∃ t, exceptionTypeTexts (detectAndProcessExceptionDumps env mem).1 = [t] ∧
      includesText t (handledExceptionNames.getD (type mem) "") = true := by
  have hpres : dumpPresent mem = true := (dumpPresent_iff mem).mpr ⟨hm0, hm1, hp⟩
  obtain ⟨ty, hdraw⟩ := drawExceptionType_of_le env mem (drawProcessor env mem).2 hty
  rw [exceptionTypeTexts_detect env mem ty hpres hdraw]
  unfold drawExceptionType at hdraw
  by_cases h2 : type mem = 2
  · rw [if_pos h2, exceptionName_two mem h2] at hdraw
    rw [h2]
    rcases hcode h2 with ⟨harm, hsz⟩ | ⟨hth, hsz⟩
    · rw [if_pos ⟨harm, hsz⟩] at hdraw
      simp only [Option.map_some', drawTypeLine, drawFormattedString] at hdraw
      split_ifs at hdraw <;> rw [← Option.some.inj hdraw]
      · exact ⟨_, rfl, by decide⟩
      · exact ⟨_, rfl, by decide⟩
      · exact ⟨_, rfl, by decide⟩
    · rw [if_neg (fun hc => hth hc.1), if_pos ⟨hth, hsz⟩] at hdraw
      simp only [Option.map_some', drawTypeLine, drawFormattedString] at hdraw
      split_ifs at hdraw <;> rw [← Option.some.inj hdraw]
      · exact ⟨_, rfl, by decide⟩
      · exact ⟨_, rfl, by decide⟩
  · rw [if_neg h2, exceptionName_of_le mem hty] at hdraw
    simp only [Option.map_some', drawTypeLine, drawFormattedString] at hdraw
    rw [← Option.some.inj hdraw]
    have h013 : type mem = 0 ∨ type mem = 1 ∨ type mem = 3 := by omega
    rcases h013 with h | h | h <;> rw [h] <;> exact ⟨_, rfl, by decide⟩

/-! ### The register grid -/

theorem registerCell_other (t : Bool) (x y : Nat) (c : Color) (fmt : String)
    (args : List FmtArg) (h : fmt ≠ "%-7s%08X") :
    registerCell (Event.drawFormattedString t x y c fmt args) = none := by
  simp [registerCell, h]

/-- The nine iterations of the register loop draw the entries of the nine
expected rows, in order. -/
theorem registerCells_drawRegisters (env : Collaborators) (mem : ByteMem) (posY : Nat) :
    (registerCells (drawRegisters env mem 9 0 posY).1).map columnOf
      = (List.range 9).flatMap (expectedRegisterRow env mem) := by
  by_cases h9 : processor mem = 9
  · simp [registerCells, drawRegisters, drawRegisterRow, drawFormattedString, registerCell,
      expectedRegisterRow, columnOf, h9, List.range, List.range.loop, List.flatMap]
  · simp [registerCells, drawRegisters, drawRegisterRow, drawFormattedString, registerCell,
      expectedRegisterRow, columnOf, h9, List.range, List.range.loop, List.flatMap]

/-- When a register draw returns the vertical position it was given, `n`
iterations of the register loop from the index `2 * k` draw `n` rows, each at one
vertical position, `SPACING_Y` apart, and leave `posY` at the last of them. -/
theorem registerCells_drawRegisters_rows (env : Collaborators) (mem : ByteMem)
    (hdraw : ∀ x y a,
      env.drawResult (Event.drawFormattedString true x y Color.white "%-7s%08X" a) = y) :
    ∀ (n k posY : Nat),
      registerCells (drawRegisters env mem n (2 * k) posY).1
        = (List.range n).flatMap (fun j =>
            expectedRegisterRowAt env mem (posY + (j + 1) * env.SPACING_Y) (k + j)) ∧
      (drawRegisters env mem n (2 * k) posY).2 = posY + n * env.SPACING_Y := by
  intro n
  induction n with
  | zero => intro k posY; simp [drawRegisters, registerCells]
  | succ n ih =>
    intro k posY
    have e2 : 2 * k + 2 = 2 * (k + 1) := by omega
    have hrow : (drawRegisterRow env mem (2 * k) posY).2 = posY + env.SPACING_Y := by
      unfold drawRegisterRow
      simp only [drawFormattedString, hdraw]
      split_ifs <;> rfl
    have hcells : registerCells (drawRegisterRow env mem (2 * k) posY).1
        = expectedRegisterRowAt env mem (posY + env.SPACING_Y) k := by
      unfold drawRegisterRow expectedRegisterRowAt expectedRegisterRow
      simp only [drawFormattedString, hdraw]
      by_cases hlast : k = 8 ∧ processor mem = 9
      · have hc : ¬ (2 * k ≠ 16 ∨ processor mem ≠ 9) := by
          intro hc
          rcases hc with hc | hc
          · omega
          · exact hc hlast.2
        rw [if_neg hc, if_pos hlast]
        simp [registerCells, registerCell]
      · have hc : 2 * k ≠ 16 ∨ processor mem ≠ 9 := by
          by_cases h8 : k = 8
          · exact Or.inr (fun h9 => hlast ⟨h8, h9⟩)
          · exact Or.inl (by omega)
        rw [if_pos hc, if_neg hlast]
        simp [registerCells, registerCell]
    obtain ⟨ih1, ih2⟩ := ih (k + 1) (posY + env.SPACING_Y)
    constructor
    · simp only [drawRegisters]
      rw [hrow, e2]
      simp only [registerCells, List.filterMap_append] at ih1 hcells ⊢
      rw [ih1, hcells, List.range_succ_eq_map, List.flatMap_cons, List.flatMap_map]
      refine congrArg₂ _ ?_ ?_
      · simp
      · apply List.flatMap_congr
        intro j _
        simp only [Function.comp, Nat.succ_eq_add_one]
        have e3 : posY + env.SPACING_Y + (j + 1) * env.SPACING_Y
            = posY + (j + 1 + 1) * env.SPACING_Y := by
          rw [Nat.add_mul (j + 1) 1, Nat.one_mul]
          omega
        have e4 : k + 1 + j = k + (j + 1) := by omega
        rw [e3, e4]
    · simp only [drawRegisters]
      rw [hrow, e2, ih2, Nat.add_mul n 1, Nat.one_mul]
      omega

/-- In a report, the register cells are those of the loop of lines 167 to
173. -/
theorem registerCells_detect (env : Collaborators) (mem : ByteMem) (ty : List Event × Nat)
    (h : dumpPresent mem = true)
    (hty : drawExceptionType env mem (drawProcessor env mem).2 = some ty) :
    registerCells (detectAndProcessExceptionDumps env mem).1
      = registerCells (drawRegisters env mem 9 0 (posYBeforeRegisters env mem ty.2)).1 := by
  unfold registerCells
  rw [detect_filterMap registerCell env mem ty h hty (fun _ _ _ _ _ => rfl) rfl (fun _ => rfl)
    (fun _ _ _ => rfl) (fun _ => rfl) rfl]
  have h1 : [(drawProcessor env mem).1].filterMap registerCell = [] :=
    drawProcessor_filterMap registerCell env mem (fun _ _ _ _ _ => rfl)
      (fun _ _ _ _ _ => registerCell_other _ _ _ _ _ _ (by decide))
  have h2 : ty.1.filterMap registerCell = [] := by
    apply filterMap_nil_of_forall
    intro e he
    obtain ⟨y, fmt, a, rfl, hf | hf⟩ := drawExceptionType_events env mem _ ty hty e he
    · subst hf; exact registerCell_other _ _ _ _ _ _ (by decide)
    · subst hf; exact registerCell_other _ _ _ _ _ _ (by decide)
  have h3 : (drawCurrentProcess env mem ty.2).1.filterMap registerCell = [] := by
    apply filterMap_nil_of_forall
    intro e he
    unfold drawCurrentProcess at he
    split_ifs at he
    · simp only [drawFormattedString, List.mem_singleton] at he
      rw [he]; exact registerCell_other _ _ _ _ _ _ (by decide)
    · simp at he
  have h4 : (drawStackLines env mem 19 0 (stackDumpAddr mem)
      ((drawString env false 10 10 Color.white "Stack dump:").2 + env.SPACING_Y)).filterMap
      registerCell = [] := by
    apply filterMap_nil_of_forall
    intro e he
    obtain ⟨x, y, fmt, a, rfl, hf | hf⟩ := drawStackLines_events env mem _ _ _ _ e he
    · subst hf; exact registerCell_other _ _ _ _ _ _ (by decide)
    · subst hf; exact registerCell_other _ _ _ _ _ _ (by decide)
  rw [h1, h2, h3, h4]
  simp

/-- Claim C10, as the code has it.  The register loop is reached only when the
type is one of the four of the table of names.  For a valid dump whose type is at
most 3 the register cells the reporter draws are, in order, those of 9 rows: row
`k` has the name and value of register `2k` at horizontal position 10 and those
of register `2k + 1` at position `10 + 22 * SPACING_X`, with the names of the
table `R0` .. `R12`, `SP`, `LR`, `PC`, `CPSR`, `FPEXC`; only the right entry of
the last row (`FPEXC`) of a processor 9 dump is left out.  That gives 18 entries
for processor 11 and 17 for processor 9.  When a register draw returns the
vertical position it was given, the entries of a row share one vertical position
and row `k` lies `(k + 1) * SPACING_Y` below the position before the loop. -/
theorem detectAndProcessExceptionDumps_register_grid (env : Collaborators) (mem : ByteMem)
    (hm0 : magic0 mem = 0xDEADC0DE) (hm1 : magic1 mem = 0xDEADCAFE)
    (hp : processor mem = 9 ∨ processor mem = 11) (hty : type mem ≤ 3) :
    (registerCells (detectAndProcessExceptionDumps env mem).1).map columnOf
        = (List.range 9).flatMap (expectedRegisterRow env mem) ∧
      registerNames = ["R0", "R1", "R2", "R3", "R4", "R5", "R6", "R7", "R8", "R9", "R10",
        "R11", "R12", "SP", "LR", "PC", "CPSR", "FPEXC"] ∧
      (processor mem = 11 →
        (registerCells (detectAndProcessExceptionDumps env mem).1).length = 18) ∧
      (processor mem = 9 →
        (registerCells (detectAndProcessExceptionDumps env mem).1).length = 17) ∧
      ((∀ x y a,
          env.drawResult (Event.drawFormattedString true x y Color.white "%-7s%08X" a) = y) →
        ∃ y0, registerCells (detectAndProcessExceptionDumps env mem).1
          = (List.range 9).flatMap (fun k =>
              expectedRegisterRowAt env mem (y0 + (k + 1) * env.SPACING_Y) k)) := by
  have hpres : dumpPresent mem = true := (dumpPresent_iff mem).mpr ⟨hm0, hm1, hp⟩
  obtain ⟨ty, hdraw⟩ := drawExceptionType_of_le env mem (drawProcessor env mem).2 hty
  have key : (registerCells (detectAndProcessExceptionDumps env mem).1).map columnOf
      = (List.range 9).flatMap (expectedRegisterRow env mem) := by
    rw [registerCells_detect env mem ty hpres hdraw, registerCells_drawRegisters]
  have hlen : (registerCells (detectAndProcessExceptionDumps env mem).1).length
      = ((List.range 9).flatMap (expectedRegisterRow env mem)).length := by
    rw [← key, List.length_map]
  refine ⟨key, rfl, ?_, ?_, ?_⟩
  · intro h11
    rw [hlen]
    simp [expectedRegisterRow, h11, List.range, List.range.loop, List.flatMap]
  · intro h9
    rw [hlen]
    simp [expectedRegisterRow, h9, List.range, List.range.loop, List.flatMap]
  · intro hret
    refine ⟨posYBeforeRegisters env mem ty.2, ?_⟩
    rw [registerCells_detect env mem ty hpres hdraw]
    have hrows := (registerCells_drawRegisters_rows env mem hret 9 0
      (posYBeforeRegisters env mem ty.2)).1
    simp only [Nat.mul_zero, Nat.zero_add] at hrows
    exact hrows

/-- Witness for C10: the processor 9 dump `arm9DataAbortDump` and the processor 11
dump `dabtAbortModeDump`, both of type 3, with collaborators whose draws return
the position they were given. -/
theorem detectAndProcessExceptionDumps_register_grid_witness :
    (registerCells (detectAndProcessExceptionDumps sampleEnv arm9DataAbortDump).1).map columnOf
        = (List.range 9).flatMap (expectedRegisterRow sampleEnv arm9DataAbortDump) ∧
      (registerCells (detectAndProcessExceptionDumps sampleEnv arm9DataAbortDump).1).length
        = 17 ∧
      (registerCells (detectAndProcessExceptionDumps sampleEnv dabtAbortModeDump).1).length
        = 18 ∧
      ∃ y0, registerCells (detectAndProcessExceptionDumps sampleEnv arm9DataAbortDump).1
        = (List.range 9).flatMap (fun k =>
            expectedRegisterRowAt sampleEnv arm9DataAbortDump
              (y0 + (k + 1) * sampleEnv.SPACING_Y) k) :=
  ⟨(detectAndProcessExceptionDumps_register_grid sampleEnv arm9DataAbortDump (by decide)
      (by decide) (Or.inl (by decide)) (by decide)).1,
   (detectAndProcessExceptionDumps_register_grid sampleEnv arm9DataAbortDump (by decide)
      (by decide) (Or.inl (by decide)) (by decide)).2.2.2.1 (by decide),
   (detectAndProcessExceptionDumps_register_grid sampleEnv dabtAbortModeDump (by decide)
      (by decide) (Or.inr (by decide)) (by decide)).2.2.1 (by decide),
   (detectAndProcessExceptionDumps_register_grid sampleEnv arm9DataAbortDump (by decide)
      (by decide) (Or.inl (by decide)) (by decide)).2.2.2.2 (fun _ _ _ => rfl)⟩

/-- Counterexample to C10 as stated: `unknownTypeDump` is a valid processor 11
dump (both magic words set) whose type is 4.  The run makes three calls, reads
the table of names past its end at line 160, before the register loop, and no
register is drawn. -/
theorem detectAndProcessExceptionDumps_register_grid_counterexample :
    magic0 unknownTypeDump = 0xDEADC0DE ∧ magic1 unknownTypeDump = 0xDEADCAFE ∧
    processor unknownTypeDump = 11 ∧ type unknownTypeDump = 4 ∧
    exceptionName unknownTypeDump = none ∧
    (detectAndProcessExceptionDumps sampleEnv unknownTypeDump).1.length = 3 ∧
    registerCells (detectAndProcessExceptionDumps sampleEnv unknownTypeDump).1 = [] := by
  refine ⟨by decide, by decide, by decide, by decide, by decide, by decide, by decide⟩

/-! ### The current process line -/

theorem currentProcessEntry_other (t : Bool) (x y : Nat) (c : Color) (fmt : String)
    (args : List FmtArg) (h : "Current process:".data.isPrefixOf fmt.data = false) :
    currentProcessEntry (Event.drawFormattedString t x y c fmt args) = none := by
  simp [currentProcessEntry, h]

/-- In a report, the `Current process:` lines are those of lines 162 to 164. -/
theorem currentProcessEntries_detect (env : Collaborators) (mem : ByteMem)
    (ty : List Event × Nat) (h : dumpPresent mem = true)
    (hty : drawExceptionType env mem (drawProcessor env mem).2 = some ty) :
    currentProcessEntries (detectAndProcessExceptionDumps env mem).1
      = currentProcessEntries (drawCurrentProcess env mem ty.2).1 := by
  unfold currentProcessEntries
  rw [detect_filterMap currentProcessEntry env mem ty h hty (fun _ _ _ _ _ => rfl) rfl
    (fun _ => rfl) (fun _ _ _ => rfl) (fun _ => rfl) rfl]
  have h1 : [(drawProcessor env mem).1].filterMap currentProcessEntry = [] :=
    drawProcessor_filterMap currentProcessEntry env mem (fun _ _ _ _ _ => rfl)
      (fun _ _ _ _ _ => currentProcessEntry_other _ _ _ _ _ _ (by decide))
  have h2 : ty.1.filterMap currentProcessEntry = [] := by
    apply filterMap_nil_of_forall
    intro e he
    obtain ⟨y, fmt, a, rfl, hf | hf⟩ := drawExceptionType_events env mem _ ty hty e he
    · subst hf; exact currentProcessEntry_other _ _ _ _ _ _ (by decide)
    · subst hf; exact currentProcessEntry_other _ _ _ _ _ _ (by decide)
  have h3 : (drawRegisters env mem 9 0 (posYBeforeRegisters env mem ty.2)).1.filterMap
      currentProcessEntry = [] := by
    apply filterMap_nil_of_forall
    intro e he
    obtain ⟨x, y, a, rfl⟩ := drawRegisters_events env mem _ _ _ e he
    exact currentProcessEntry_other _ _ _ _ _ _ (by decide)
  have h4 : (drawStackLines env mem 19 0 (stackDumpAddr mem)
      ((drawString env false 10 10 Color.white "Stack dump:").2 + env.SPACING_Y)).filterMap
      currentProcessEntry = [] := by
    apply filterMap_nil_of_forall
    intro e he
    obtain ⟨x, y, fmt, a, rfl, hf | hf⟩ := drawStackLines_events env mem _ _ _ _ e he
    · subst hf; exact currentProcessEntry_other _ _ _ _ _ _ (by decide)
    · subst hf; exact currentProcessEntry_other _ _ _ _ _ _ (by decide)
  rw [h1, h2, h3, h4]
  simp

/-- The additional data starts at the header end plus the three section sizes, as
a 32-bit address. -/
theorem additionalDataAddr_eq (mem : ByteMem) :
    additionalDataAddr mem = (dumpHeaderAddr + sizeofExceptionDumpHeader + registerDumpSize mem
      + codeDumpSize mem + stackDumpSize mem) % 2 ^ 32 := by
  unfold additionalDataAddr stackDumpAddr regsAddr
  omega

/-- Claim C12, as the code has it.  Line 162 is reached only when the type is one
of the four of the table of names.  For a valid dump whose type is at most 3 a
`Current process` line is drawn exactly when the processor is 11 and
`additionalDataSize` is not 0.  Its first argument is the 8 bytes at the start of
the additional data, which lies at the header end plus
`registerDumpSize + codeDumpSize + stackDumpSize` (a 32-bit address), and its
second argument is the little-endian 64-bit value of the 8 bytes that follow. -/
theorem detectAndProcessExceptionDumps_current_process (env : Collaborators) (mem : ByteMem)
    (hm0 : magic0 mem = 0xDEADC0DE) (hm1 : magic1 mem = 0xDEADCAFE)
    (hp : processor mem = 9 ∨ processor mem = 11) (hty : type mem ≤ 3) :
    (currentProcessEntries (detectAndProcessExceptionDumps env mem).1 ≠ [] ↔
      processor mem = 11 ∧ additionalDataSize mem ≠ 0) ∧
    (processor mem = 11 ∧ additionalDataSize mem ≠ 0 →
      currentProcessEntries (detectAndProcessExceptionDumps env mem).1 =
        [[FmtArg.chars ((List.range 8).map
            (fun k => mem ((additionalDataAddr mem + k) % 2 ^ 32))),
          FmtArg.num (rd64 mem ((additionalDataAddr mem + 8) % 2 ^ 32))]]) ∧
    additionalDataAddr mem = (dumpHeaderAddr + sizeofExceptionDumpHeader + registerDumpSize mem
      + codeDumpSize mem + stackDumpSize mem) % 2 ^ 32 ∧
    (dumpHeaderAddr + sizeofExceptionDumpHeader + registerDumpSize mem + codeDumpSize mem
        + stackDumpSize mem < 2 ^ 32 →
      additionalDataAddr mem = dumpHeaderAddr + sizeofExceptionDumpHeader + registerDumpSize mem
        + codeDumpSize mem + stackDumpSize mem) := by
  have hpres : dumpPresent mem = true := (dumpPresent_iff mem).mpr ⟨hm0, hm1, hp⟩
  obtain ⟨ty, hdraw⟩ := drawExceptionType_of_le env mem (drawProcessor env mem).2 hty
  rw [currentProcessEntries_detect env mem ty hpres hdraw]
  have haddr := additionalDataAddr_eq mem
  refine ⟨?_, ?_, haddr, fun hlt => by rw [haddr]; exact Nat.mod_eq_of_lt hlt⟩
  · unfold drawCurrentProcess
    by_cases hc : processor mem = 11 ∧ additionalDataSize mem ≠ 0
    · rw [if_pos hc]
      simp [currentProcessEntries, currentProcessEntry, drawFormattedString, hc]
    · rw [if_neg hc]
      simp [currentProcessEntries, hc]
  · intro hc
    unfold drawCurrentProcess
    rw [if_pos hc]
    simp [currentProcessEntries, currentProcessEntry, drawFormattedString]

/-- Witness for C12: `gameProcessDump`, a processor 11 dump of type 1 with 16
bytes of additional data (the line is drawn, with the name bytes and the
identifier), and `arm9DataAbortDump`, a processor 9 dump (no line is drawn). -/
theorem detectAndProcessExceptionDumps_current_process_witness :
    currentProcessEntries (detectAndProcessExceptionDumps sampleEnv gameProcessDump).1 ≠ [] ∧
    currentProcessEntries (detectAndProcessExceptionDumps sampleEnv gameProcessDump).1 =
      [[FmtArg.chars ((List.range 8).map
          (fun k => gameProcessDump ((additionalDataAddr gameProcessDump + k) % 2 ^ 32))),
        FmtArg.num (rd64 gameProcessDump ((additionalDataAddr gameProcessDump + 8) % 2 ^ 32))]] ∧
    additionalDataAddr gameProcessDump = dumpHeaderAddr + sizeofExceptionDumpHeader
      + registerDumpSize gameProcessDump + codeDumpSize gameProcessDump
      + stackDumpSize gameProcessDump ∧
    ¬ currentProcessEntries (detectAndProcessExceptionDumps sampleEnv arm9DataAbortDump).1 ≠ []
    :=
  ⟨(detectAndProcessExceptionDumps_current_process sampleEnv gameProcessDump (by decide)
      (by decide) (Or.inr (by decide)) (by decide)).1.mpr ⟨by decide, by decide⟩,
   (detectAndProcessExceptionDumps_current_process sampleEnv gameProcessDump (by decide)
      (by decide) (Or.inr (by decide)) (by decide)).2.1 ⟨by decide, by decide⟩,
   (detectAndProcessExceptionDumps_current_process sampleEnv gameProcessDump (by decide)
      (by decide) (Or.inr (by decide)) (by decide)).2.2.2 (by decide),
   fun h => absurd ((detectAndProcessExceptionDumps_current_process sampleEnv arm9DataAbortDump
      (by decide) (by decide) (Or.inl (by decide)) (by decide)).1.mp h).1 (by decide)⟩

/-- Counterexample to C12 as stated: `unknownTypeDump` is a valid processor 11
dump (both magic words set) with 16 bytes of additional data, and its type is 4.
The run makes three calls and reads the table of names past its end at line 160,
before line 162: no `Current process` line is drawn. -/
theorem detectAndProcessExceptionDumps_current_process_counterexample :
    magic0 unknownTypeDump = 0xDEADC0DE ∧ magic1 unknownTypeDump = 0xDEADCAFE ∧
    processor unknownTypeDump = 11 ∧ additionalDataSize unknownTypeDump = 16 ∧
    type unknownTypeDump = 4 ∧ exceptionName unknownTypeDump = none ∧
    (detectAndProcessExceptionDumps sampleEnv unknownTypeDump).1.length = 3 ∧
    currentProcessEntries (detectAndProcessExceptionDumps sampleEnv unknownTypeDump).1 = [] := by
  refine ⟨by decide, by decide, by decide, by decide, by decide, by decide, by decide,
    by decide⟩

/-- The example of the specification: for `gameProcessDump` the line has the name
bytes of `game1` and the identifier `0x1122334455667788`, and a `%.8s` conversion
shows the name bytes as `game1`. -/
theorem current_process_example :
    currentProcessEntries (detectAndProcessExceptionDumps sampleEnv gameProcessDump).1
      = [[FmtArg.chars [103, 97, 109, 101, 49, 0, 0, 0], FmtArg.num 0x1122334455667788]] ∧
    cString8 [103, 97, 109, 101, 49, 0, 0, 0] = "game1" := by
  refine ⟨by decide, by decide⟩

/-! ### The warning about an unreliable dump -/

theorem any_false_of_forall {α : Type} (p : α → Bool) (l : List α)
    (h : ∀ e, e ∈ l → p e = false) : l.any p = false := by
  induction l with
  | nil => rfl
  | cons a t ih =>
    rw [List.any_cons, h a (List.mem_cons_self _ _),
      ih (fun e he => h e (List.mem_cons_of_mem _ he))]
    rfl

/-- The calls of lines 191 to 206 do not draw the warning. -/
theorem writeDumpFile_no_warning (env : Collaborators) (mem : ByteMem) (posY : Nat) :
    (writeDumpFile env mem posY).any isWarning = false := by
  apply any_false_of_forall
  intro e he
  unfold writeDumpFile at he
  simp only [drawString, List.mem_append, List.mem_cons, List.mem_singleton,
    List.not_mem_nil, or_false] at he
  rcases he with ((he | he) | he) | he
  · rw [he]; rfl
  · rw [he]; rfl
  · split_ifs at he
    · simp only [List.mem_cons, List.mem_singleton, List.not_mem_nil, or_false] at he
      rcases he with he | he <;> rw [he] <;> rfl
    · simp only [List.mem_singleton] at he
      rw [he]; rfl
  · rw [he]; rfl

theorem isWarning_drawProcessor (env : Collaborators) (mem : ByteMem) :
    isWarning (drawProcessor env mem).1 = false := by
  unfold drawProcessor
  split_ifs <;> rfl

/-- In a report that stays inside the table of names, the warning is drawn
exactly when line 178 says so. -/
theorem any_isWarning_detect (env : Collaborators) (mem : ByteMem) (ty : List Event × Nat)
    (h : dumpPresent mem = true)
    (hty : drawExceptionType env mem (drawProcessor env mem).2 = some ty) :
    (detectAndProcessExceptionDumps env mem).1.any isWarning
      = (drawWarning env mem (posYAfterRegisters env mem ty.2)).1.any isWarning := by
  have h1 := isWarning_drawProcessor env mem
  have h2 : ty.1.any isWarning = false := by
    apply any_false_of_forall
    intro e he
    obtain ⟨y, fmt, a, rfl, _⟩ := drawExceptionType_events env mem _ ty hty e he
    rfl
  have h3 : (drawCurrentProcess env mem ty.2).1.any isWarning = false := by
    apply any_false_of_forall
    intro e he
    unfold drawCurrentProcess at he
    split_ifs at he
    · simp only [drawFormattedString, List.mem_singleton] at he
      rw [he]; rfl
    · simp at he
  have h4 : (drawRegisters env mem 9 0 (posYBeforeRegisters env mem ty.2)).1.any isWarning
      = false := by
    apply any_false_of_forall
    intro e he
    obtain ⟨x, y, a, rfl⟩ := drawRegisters_events env mem _ _ _ e he
    rfl
  have h5 : (drawStackDump env mem).any isWarning = false := by
    apply any_false_of_forall
    intro e he
    unfold drawStackDump at he
    simp only [drawString, List.mem_cons] at he
    rcases he with he | he
    · rw [he]; rfl
    · obtain ⟨x, y, fmt, a, rfl, _⟩ := drawStackLines_events env mem _ _ _ _ e he
      rfl
  have h6 := writeDumpFile_no_warning env mem
    (drawWarning env mem (posYAfterRegisters env mem ty.2)).2
  rw [detect_of_some env mem ty h hty]
  simp only [List.cons_append, List.any_cons, List.any_append, List.any_nil, h1, h2, h3, h4, h5,
    h6, Bool.false_or, Bool.or_false]
  have h0 : isWarning Event.initScreens = false := rfl
  have h7 : isWarning (drawString env true 10 10 Color.red "An exception occurred").1 = false :=
    rfl
  have h8 : isWarning (Event.waitInput false) = false := rfl
  have h9 : isWarning Event.mcuPowerOff = false := rfl
  rw [h0, h7, h8, h9]
  simp

/-- Claim C17, as the code has it.  Line 177 keeps the low four bits of the
`CPSR`, and line 178 compares them with 7 and 11: those of the abort mode
`0b10111` and of the undefined mode `0b11011` (the FIQ mode `0b10001` has the low
bits 1).  For a valid dump the warning is drawn exactly when the type is 3 and
the low four bits of register 16 are 7 or 11.  For a valid dump whose type is at
most 3, with or without the warning, the report goes on with the stack dump, the
file write, the zeroing of `totalSize` bytes and the power-off. -/
theorem detectAndProcessExceptionDumps_warning (env : Collaborators) (mem : ByteMem)
    (hm0 : magic0 mem = 0xDEADC0DE) (hm1 : magic1 mem = 0xDEADCAFE)
    (hp : processor mem = 9 ∨ processor mem = 11) :
    ((detectAndProcessExceptionDumps env mem).1.any isWarning = true ↔
      type mem = 3 ∧ (regs mem 16 &&& 0xF = 7 ∨ regs mem 16 &&& 0xF = 11)) ∧
    (type mem ≤ 3 →
      Event.drawString false 10 10 Color.white "Stack dump:"
        ∈ (detectAndProcessExceptionDumps env mem).1 ∧
      (∃ path, Event.fileWrite dumpHeaderAddr path (totalSize mem)
        ∈ (detectAndProcessExceptionDumps env mem).1) ∧
      Event.mcuPowerOff ∈ (detectAndProcessExceptionDumps env mem).1 ∧
      (detectAndProcessExceptionDumps env mem).2
        = some (memset32Zero mem dumpHeaderAddr (totalSize mem))) := by
  have hpres : dumpPresent mem = true := (dumpPresent_iff mem).mpr ⟨hm0, hm1, hp⟩
  constructor
  · by_cases hty : type mem ≤ 3
    · obtain ⟨ty, hdraw⟩ := drawExceptionType_of_le env mem (drawProcessor env mem).2 hty
      rw [any_isWarning_detect env mem ty hpres hdraw]
      unfold drawWarning
      by_cases hc : type mem = 3 ∧ (regs mem 16 &&& 0xF = 7 ∨ regs mem 16 &&& 0xF = 11)
      · rw [if_pos hc]
        simp only [drawString, List.any_cons, List.any_nil, Bool.or_false, hc, and_self,
          iff_true]
        rfl
      · rw [if_neg hc]
        simp [hc]
    · have hdraw := drawExceptionType_of_gt env mem (drawProcessor env mem).2 (by omega)
      rw [detect_of_none env mem hpres hdraw]
      have h1 := isWarning_drawProcessor env mem
      have h3 : ¬ type mem = 3 := by omega
      have h0 : isWarning Event.initScreens = false := rfl
      have h7 : isWarning (drawString env true 10 10 Color.red "An exception occurred").1
          = false := rfl
      simp only [List.any_cons, List.any_nil, h0, h7, h1, Bool.or_false]
      constructor
      · intro h
        cases h
      · intro h
        exact absurd h.1 h3
  · intro hty
    obtain ⟨ty, hdraw⟩ := drawExceptionType_of_le env mem (drawProcessor env mem).2 hty
    rw [detect_of_some env mem ty hpres hdraw]
    refine ⟨?_, ?_, ?_, rfl⟩
    · simp only [drawStackDump, drawString]
      simp
    · simp only [writeDumpFile]
      refine ⟨"dumps/arm" ++ toString (processor mem) ++ "/"
        ++ env.dumpFileName ("dumps/arm" ++ toString (processor mem)), ?_⟩
      simp
    · simp

/-- Witness for C17: `dabtAbortModeDump`, of type 3 with the `CPSR` `0x17`: the
warning is drawn and the report goes on to the power-off. -/
theorem detectAndProcessExceptionDumps_warning_witness :
    (detectAndProcessExceptionDumps sampleEnv dabtAbortModeDump).1.any isWarning = true ∧
    Event.drawString false 10 10 Color.white "Stack dump:"
      ∈ (detectAndProcessExceptionDumps sampleEnv dabtAbortModeDump).1 ∧
    (∃ path, Event.fileWrite dumpHeaderAddr path (totalSize dabtAbortModeDump)
      ∈ (detectAndProcessExceptionDumps sampleEnv dabtAbortModeDump).1) ∧
    Event.mcuPowerOff ∈ (detectAndProcessExceptionDumps sampleEnv dabtAbortModeDump).1 ∧
    (detectAndProcessExceptionDumps sampleEnv dabtAbortModeDump).2
      = some (memset32Zero dabtAbortModeDump dumpHeaderAddr (totalSize dabtAbortModeDump)) :=
  ⟨(detectAndProcessExceptionDumps_warning sampleEnv dabtAbortModeDump (by decide) (by decide)
      (Or.inr (by decide))).1.mpr ⟨by decide, Or.inl (by decide)⟩,
   (detectAndProcessExceptionDumps_warning sampleEnv dabtAbortModeDump (by decide) (by decide)
      (Or.inr (by decide))).2 (by decide)⟩

/-- Counterexample to C17 as stated.  `dabtFiqModeDump` is a valid dump of type 3
whose captured mode bits are those of the FIQ mode, `0b10001`, and the report has
no warning.  `dabtUndefModeDump` is a valid dump of type 3 whose mode bits,
`0b11011`, are neither those of the abort mode nor those of the FIQ mode, and the
report has the warning.  `unknownTypeDump` is a valid dump of type 4: the run
reads the table of names past its end after three calls, and neither the stack
dump nor the power-off follows. -/
theorem detectAndProcessExceptionDumps_warning_counterexample :
    (magic0 dabtFiqModeDump = 0xDEADC0DE ∧ magic1 dabtFiqModeDump = 0xDEADCAFE ∧
      processor dabtFiqModeDump = 11 ∧ type dabtFiqModeDump = 3 ∧
      regs dabtFiqModeDump 16 &&& 0x1F = 0b10001 ∧
      (detectAndProcessExceptionDumps sampleEnv dabtFiqModeDump).1.any isWarning = false) ∧
    (magic0 dabtUndefModeDump = 0xDEADC0DE ∧ magic1 dabtUndefModeDump = 0xDEADCAFE ∧
      processor dabtUndefModeDump = 11 ∧ type dabtUndefModeDump = 3 ∧
      regs dabtUndefModeDump 16 &&& 0x1F = 0b11011 ∧
      (detectAndProcessExceptionDumps sampleEnv dabtUndefModeDump).1.any isWarning = true) ∧
    (magic0 unknownTypeDump = 0xDEADC0DE ∧ magic1 unknownTypeDump = 0xDEADCAFE ∧
      processor unknownTypeDump = 11 ∧ type unknownTypeDump = 4 ∧
      Event.drawString false 10 10 Color.white "Stack dump:"
        ∉ (detectAndProcessExceptionDumps sampleEnv unknownTypeDump).1 ∧
      Event.mcuPowerOff ∉ (detectAndProcessExceptionDumps sampleEnv unknownTypeDump).1 ∧
      (detectAndProcessExceptionDumps sampleEnv unknownTypeDump).2.isSome = false) := by
  refine ⟨⟨by decide, by decide, by decide, by decide, by decide, by decide⟩,
    ⟨by decide, by decide, by decide, by decide, by decide, by decide⟩,
    by decide, by decide, by decide, by decide, by decide, by decide, by decide⟩

/-! ### The stack dump -/

/-- The inner loop shows the next `min k (additionalData - stackDump)` bytes and
leaves `stackDump` after them. -/
theorem stackItems_drawStackBytes (env : Collaborators) (mem : ByteMem) (posYBottom : Nat) :
    ∀ (k i sd : Nat),
      stackItems (drawStackBytes env mem posYBottom k i sd).1
        = (List.range (min k (additionalDataAddr mem - sd))).map (fun j =>
            StackItem.byte (10 + 10 * env.SPACING_X + 3 * (i + j) * env.SPACING_X)
              (mem (sd + j))) ∧
      (drawStackBytes env mem posYBottom k i sd).2 = sd + min k (additionalDataAddr mem - sd) := by
  intro k
  induction k with
  | zero => intro i sd; simp [drawStackBytes, stackItems]
  | succ k ih =>
    intro i sd
    unfold drawStackBytes
    by_cases h : sd < additionalDataAddr mem
    · rw [if_pos h]
      obtain ⟨ih1, ih2⟩ := ih (i + 1) (sd + 1)
      have hmin : min (k + 1) (additionalDataAddr mem - sd)
          = min k (additionalDataAddr mem - (sd + 1)) + 1 := by omega
      constructor
      · simp only [stackItems, List.filterMap_cons] at ih1 ⊢
        rw [ih1, hmin, List.range_succ_eq_map]
        simp only [drawFormattedString, stackItem, if_neg (show ¬ ("%02X" = "%08X:") by decide),
          if_true, List.map_cons, List.map_map]
        refine congrArg₂ _ rfl ?_
        apply List.map_congr_left
        intro j _
        simp only [Function.comp, Nat.succ_eq_add_one]
        have e1 : i + 1 + j = i + (j + 1) := by omega
        have e2 : sd + 1 + j = sd + (j + 1) := by omega
        rw [e1, e2]
      · simp only []
        rw [ih2]; omega
    · rw [if_neg h]
      have hmin : min (k + 1) (additionalDataAddr mem - sd) = 0 := by omega
      rw [hmin]
      simp [stackItems]

/-- The stack loop with `n` lines left shows `min n (ceil (rest / 8))` lines,
`rest` being the bytes between `stackDump` and `additionalData`. -/
theorem stackItems_drawStackLines (env : Collaborators) (mem : ByteMem) :
    ∀ (n line sd posYBottom : Nat),
      stackItems (drawStackLines env mem n line sd posYBottom)
        = (List.range (min n ((additionalDataAddr mem - sd + 7) / 8))).flatMap (fun l =>
            expectedStackLine env mem (regs mem 13 + 8 * line) sd
              (additionalDataAddr mem - sd) l) := by
  intro n
  induction n with
  | zero => intro line sd y; simp [drawStackLines, stackItems]
  | succ n ih =>
    intro line sd y
    unfold drawStackLines
    by_cases h : sd < additionalDataAddr mem
    · rw [if_pos h]
      obtain ⟨hb1, hb2⟩ := stackItems_drawStackBytes env mem
        (drawFormattedString env false 10 (y + env.SPACING_Y) Color.white "%08X:"
          [FmtArg.num ((regs mem 13 + 8 * line) % 2 ^ 32)]).2 8 0 sd
      have hrest := ih (line + 1)
        (drawStackBytes env mem (drawFormattedString env false 10 (y + env.SPACING_Y)
          Color.white "%08X:" [FmtArg.num ((regs mem 13 + 8 * line) % 2 ^ 32)]).2 8 0 sd).2
        (drawFormattedString env false 10 (y + env.SPACING_Y) Color.white "%08X:"
          [FmtArg.num ((regs mem 13 + 8 * line) % 2 ^ 32)]).2
      simp only [stackItems] at hb1 hrest ⊢
      simp only [List.cons_append, List.filterMap_cons, List.filterMap_append]
      rw [hb1, hrest, hb2]
      have hmin : min (n + 1) ((additionalDataAddr mem - sd + 7) / 8)
          = min n ((additionalDataAddr mem - sd + 7) / 8 - 1) + 1 := by omega
      rw [hmin, List.range_succ_eq_map, List.flatMap_cons, List.flatMap_map]
      have hfirst : stackItem (drawFormattedString env false 10 (y + env.SPACING_Y) Color.white
          "%08X:" [FmtArg.num ((regs mem 13 + 8 * line) % 2 ^ 32)]).1
          = some (StackItem.label ((regs mem 13 + 8 * line) % 2 ^ 32)) := by
        simp [drawFormattedString, stackItem]
      rw [hfirst]
      simp only [expectedStackLine, Nat.mul_zero, Nat.add_zero, Nat.sub_zero, Nat.zero_add,
        List.cons_append]
      refine congrArg₂ _ rfl (congrArg₂ _ rfl ?_)
      by_cases hlong : 8 ≤ additionalDataAddr mem - sd
      · have hsd : sd + min 8 (additionalDataAddr mem - sd) = sd + 8 := by omega
        rw [hsd]
        have hcnt : min n ((additionalDataAddr mem - (sd + 8) + 7) / 8)
            = min n ((additionalDataAddr mem - sd + 7) / 8 - 1) := by omega
        rw [hcnt]
        apply List.flatMap_congr
        intro l _
        simp only [Function.comp, Nat.succ_eq_add_one]
        have e1 : regs mem 13 + 8 * (line + 1) + 8 * l = regs mem 13 + 8 * line + 8 * (l + 1) := by
          omega
        have e2 : additionalDataAddr mem - (sd + 8) - 8 * l
            = additionalDataAddr mem - sd - 8 * (l + 1) := by omega
        rw [e1, e2]
        refine congrArg₂ _ rfl ?_
        apply List.map_congr_left
        intro i _
        have e3 : sd + 8 + 8 * l + i = sd + 8 * (l + 1) + i := by omega
        rw [e3]
      · have hsd : sd + min 8 (additionalDataAddr mem - sd) = additionalDataAddr mem := by omega
        rw [hsd]
        have hc1 : min n ((additionalDataAddr mem - additionalDataAddr mem + 7) / 8) = 0 := by
          omega
        have hc2 : min n ((additionalDataAddr mem - sd + 7) / 8 - 1) = 0 := by omega
        rw [hc1, hc2]
        rfl
    · rw [if_neg h]
      have hmin : min (n + 1) ((additionalDataAddr mem - sd + 7) / 8) = 0 := by omega
      rw [hmin]
      simp [stackItems]

theorem stackItem_other (t : Bool) (x y : Nat) (c : Color) (fmt : String) (args : List FmtArg)
    (h1 : fmt ≠ "%08X:") (h2 : fmt ≠ "%02X") :
    stackItem (Event.drawFormattedString t x y c fmt args) = none := by
  unfold stackItem
  split
  · next heq =>
    injection heq with _ _ _ _ hf _
    subst hf
    rw [if_neg h1, if_neg h2]
  · rfl

/-- In a report, the stack items are those of the loop of lines 183 to 189. -/
theorem stackItems_detect (env : Collaborators) (mem : ByteMem) (ty : List Event × Nat)
    (h : dumpPresent mem = true)
    (hty : drawExceptionType env mem (drawProcessor env mem).2 = some ty) :
    stackItems (detectAndProcessExceptionDumps env mem).1
      = stackItems (drawStackLines env mem 19 0 (stackDumpAddr mem)
          ((drawString env false 10 10 Color.white "Stack dump:").2 + env.SPACING_Y)) := by
  unfold stackItems
  rw [detect_filterMap stackItem env mem ty h hty (fun _ _ _ _ _ => rfl) rfl (fun _ => rfl)
    (fun _ _ _ => rfl) (fun _ => rfl) rfl]
  have h1 : [(drawProcessor env mem).1].filterMap stackItem = [] :=
    drawProcessor_filterMap stackItem env mem (fun _ _ _ _ _ => rfl)
      (fun _ _ _ _ _ => stackItem_other _ _ _ _ _ _ (by decide) (by decide))
  have h2 : ty.1.filterMap stackItem = [] := by
    apply filterMap_nil_of_forall
    intro e he
    obtain ⟨y, fmt, a, rfl, hf | hf⟩ := drawExceptionType_events env mem _ ty hty e he
    · subst hf; exact stackItem_other _ _ _ _ _ _ (by decide) (by decide)
    · subst hf; exact stackItem_other _ _ _ _ _ _ (by decide) (by decide)
  have h3 : (drawCurrentProcess env mem ty.2).1.filterMap stackItem = [] := by
    apply filterMap_nil_of_forall
    intro e he
    unfold drawCurrentProcess at he
    split_ifs at he
    · simp only [drawFormattedString, List.mem_singleton] at he
      rw [he]; exact stackItem_other _ _ _ _ _ _ (by decide) (by decide)
    · simp at he
  have h4 : (drawRegisters env mem 9 0 (posYBeforeRegisters env mem ty.2)).1.filterMap stackItem
      = [] := by
    apply filterMap_nil_of_forall
    intro e he
    obtain ⟨x, y, a, rfl⟩ := drawRegisters_events env mem _ _ _ e he
    exact stackItem_other _ _ _ _ _ _ (by decide) (by decide)
  rw [h1, h2, h3, h4]
  simp

/-- A call that shows no stack item shows no stack cell. -/
theorem stackCell_eq_none (e : Event) (h : stackItem e = none) : stackCell e = none := by
  unfold stackCell
  rw [h]
  rfl

/-- In a report, the stack cells are those of the loop of lines 183 to 189. -/
theorem stackCells_detect (env : Collaborators) (mem : ByteMem) (ty : List Event × Nat)
    (h : dumpPresent mem = true)
    (hty : drawExceptionType env mem (drawProcessor env mem).2 = some ty) :
    stackCells (detectAndProcessExceptionDumps env mem).1
      = stackCells (drawStackLines env mem 19 0 (stackDumpAddr mem)
          ((drawString env false 10 10 Color.white "Stack dump:").2 + env.SPACING_Y)) := by
  unfold stackCells
  rw [detect_filterMap stackCell env mem ty h hty (fun _ _ _ _ _ => rfl) rfl (fun _ => rfl)
    (fun _ _ _ => rfl) (fun _ => rfl) rfl]
  have h1 : [(drawProcessor env mem).1].filterMap stackCell = [] :=
    drawProcessor_filterMap stackCell env mem (fun _ _ _ _ _ => rfl)
      (fun _ _ _ _ _ => stackCell_eq_none _ (stackItem_other _ _ _ _ _ _ (by decide) (by decide)))
  have h2 : ty.1.filterMap stackCell = [] := by
    apply filterMap_nil_of_forall
    intro e he
    obtain ⟨y, fmt, a, rfl, hf | hf⟩ := drawExceptionType_events env mem _ ty hty e he
    · subst hf
      exact stackCell_eq_none _ (stackItem_other _ _ _ _ _ _ (by decide) (by decide))
    · subst hf
      exact stackCell_eq_none _ (stackItem_other _ _ _ _ _ _ (by decide) (by decide))
  have h3 : (drawCurrentProcess env mem ty.2).1.filterMap stackCell = [] := by
    apply filterMap_nil_of_forall
    intro e he
    unfold drawCurrentProcess at he
    split_ifs at he
    · simp only [drawFormattedString, List.mem_singleton] at he
      rw [he]
      exact stackCell_eq_none _ (stackItem_other _ _ _ _ _ _ (by decide) (by decide))
    · simp at he
  have h4 : (drawRegisters env mem 9 0 (posYBeforeRegisters env mem ty.2)).1.filterMap stackCell
      = [] := by
    apply filterMap_nil_of_forall
    intro e he
    obtain ⟨x, y, a, rfl⟩ := drawRegisters_events env mem _ _ _ e he
    exact stackCell_eq_none _ (stackItem_other _ _ _ _ _ _ (by decide) (by decide))
  rw [h1, h2, h3, h4]
  simp

/-- Calls all drawn at the vertical position `y` show their items there. -/
theorem stackCells_of_posY (y : Nat) (l : List Event) (h : ∀ e, e ∈ l → eventPosY e = y) :
    stackCells l = (stackItems l).map (fun it => (y, it)) := by
  induction l with
  | nil => rfl
  | cons a t ih =>
    have ht := ih (fun e he => h e (List.mem_cons_of_mem _ he))
    have ha := h a (List.mem_cons_self _ _)
    simp only [stackCells, stackItems] at ht ⊢
    cases hs : stackItem a with
    | none =>
      have hc : stackCell a = none := stackCell_eq_none a hs
      simp only [List.filterMap_cons, hc, hs]
      exact ht
    | some it =>
      have hc : stackCell a = some (y, it) := by
        unfold stackCell
        rw [hs, ha]
        rfl
      simp only [List.filterMap_cons, hc, hs, List.map_cons, ht]

/-- The inner stack loop draws at the vertical position it is given. -/
theorem drawStackBytes_posY (env : Collaborators) (mem : ByteMem) (posYBottom : Nat) :
    ∀ (n i stackDump : Nat) (e : Event),
      e ∈ (drawStackBytes env mem posYBottom n i stackDump).1 → eventPosY e = posYBottom := by
  intro n
  induction n with
  | zero => intro i sd e he; simp [drawStackBytes] at he
  | succ n ih =>
    intro i sd e he
    unfold drawStackBytes at he
    split_ifs at he
    · simp only [drawFormattedString, List.mem_cons] at he
      rcases he with he | he
      · rw [he]; rfl
      · exact ih _ _ e he
    · simp at he

/-- When the draw of a label returns the vertical position it was given, the
stack loop draws line `l` of those it shows, label and bytes, at the position
`(l + 1) * SPACING_Y` below its initial `posYBottom`. -/
theorem stackCells_drawStackLines (env : Collaborators) (mem : ByteMem)
    (hdraw : ∀ x y a,
      env.drawResult (Event.drawFormattedString false x y Color.white "%08X:" a) = y) :
    ∀ (n line sd posYBottom : Nat),
      stackCells (drawStackLines env mem n line sd posYBottom)
        = (List.range (min n ((additionalDataAddr mem - sd + 7) / 8))).flatMap (fun l =>
            expectedStackLineAt env mem (regs mem 13 + 8 * line) sd
              (additionalDataAddr mem - sd) (posYBottom + (l + 1) * env.SPACING_Y) l) := by
  intro n
  induction n with
  | zero => intro line sd y; simp [drawStackLines, stackCells]
  | succ n ih =>
    intro line sd y
    unfold drawStackLines
    by_cases h : sd < additionalDataAddr mem
    · rw [if_pos h]
      have hd2 : (drawFormattedString env false 10 (y + env.SPACING_Y) Color.white "%08X:"
          [FmtArg.num ((regs mem 13 + 8 * line) % 2 ^ 32)]).2 = y + env.SPACING_Y :=
        hdraw _ _ _
      simp only [hd2]
      obtain ⟨hb1, hb2⟩ := stackItems_drawStackBytes env mem (y + env.SPACING_Y) 8 0 sd
      have hbc := stackCells_of_posY (y + env.SPACING_Y)
        (drawStackBytes env mem (y + env.SPACING_Y) 8 0 sd).1
        (drawStackBytes_posY env mem (y + env.SPACING_Y) 8 0 sd)
      rw [hb1] at hbc
      have hrest := ih (line + 1) (drawStackBytes env mem (y + env.SPACING_Y) 8 0 sd).2
        (y + env.SPACING_Y)
      simp only [stackCells] at hbc hrest ⊢
      simp only [List.cons_append, List.filterMap_cons, List.filterMap_append]
      rw [hbc, hrest, hb2]
      have hmin : min (n + 1) ((additionalDataAddr mem - sd + 7) / 8)
          = min n ((additionalDataAddr mem - sd + 7) / 8 - 1) + 1 := by omega
      rw [hmin, List.range_succ_eq_map, List.flatMap_cons, List.flatMap_map]
      have hfirst : stackCell (drawFormattedString env false 10 (y + env.SPACING_Y) Color.white
          "%08X:" [FmtArg.num ((regs mem 13 + 8 * line) % 2 ^ 32)]).1
          = some (y + env.SPACING_Y, StackItem.label ((regs mem 13 + 8 * line) % 2 ^ 32)) := by
        simp [drawFormattedString, stackCell, stackItem, eventPosY]
      rw [hfirst]
      simp only [expectedStackLineAt, expectedStackLine, Nat.mul_zero, Nat.add_zero,
        Nat.sub_zero, Nat.zero_add, Nat.one_mul, List.map_cons, List.cons_append]
      refine congrArg₂ _ rfl (congrArg₂ _ rfl ?_)
      by_cases hlong : 8 ≤ additionalDataAddr mem - sd
      · have hsd : sd + min 8 (additionalDataAddr mem - sd) = sd + 8 := by omega
        rw [hsd]
        have hcnt : min n ((additionalDataAddr mem - (sd + 8) + 7) / 8)
            = min n ((additionalDataAddr mem - sd + 7) / 8 - 1) := by omega
        rw [hcnt]
        apply List.flatMap_congr
        intro l _
        simp only [Function.comp, Nat.succ_eq_add_one]
        have e1 : regs mem 13 + 8 * (line + 1) + 8 * l = regs mem 13 + 8 * line + 8 * (l + 1) := by
          omega
        have e2 : additionalDataAddr mem - (sd + 8) - 8 * l
            = additionalDataAddr mem - sd - 8 * (l + 1) := by omega
        have e4 : y + env.SPACING_Y + (l + 1) * env.SPACING_Y
            = y + (l + 1 + 1) * env.SPACING_Y := by
          rw [Nat.add_mul (l + 1) 1, Nat.one_mul]
          omega
        rw [e1, e2, e4]
        refine congrArg₂ _ rfl ?_
        rw [List.map_map, List.map_map]
        apply List.map_congr_left
        intro i _
        simp only [Function.comp]
        have e3 : sd + 8 + 8 * l + i = sd + 8 * (l + 1) + i := by omega
        rw [e3]
      · have hsd : sd + min 8 (additionalDataAddr mem - sd) = additionalDataAddr mem := by omega
        rw [hsd]
        have hc1 : min n ((additionalDataAddr mem - additionalDataAddr mem + 7) / 8) = 0 := by
          omega
        have hc2 : min n ((additionalDataAddr mem - sd + 7) / 8 - 1) = 0 := by omega
        rw [hc1, hc2]
        rfl
    · rw [if_neg h]
      have hmin : min (n + 1) ((additionalDataAddr mem - sd + 7) / 8) = 0 := by omega
      rw [hmin]
      simp [stackCells]

theorem filterMap_some_eq_map {α β : Type} (f : α → β) (l : List α) :
    l.filterMap (fun x => some (f x)) = l.map f := by
  induction l with
  | nil => rfl
  | cons a t ih => rw [List.filterMap_cons, List.map_cons, ih]

/-- The labels of lines `0 .. m - 1`. -/
theorem stackLabels_lines (env : Collaborators) (mem : ByteMem) (sp sd n : Nat) (ls : List Nat) :
    stackLabels (ls.flatMap (expectedStackLine env mem sp sd n))
      = ls.map (fun l => (sp + 8 * l) % 2 ^ 32) := by
  induction ls with
  | nil => rfl
  | cons l t ih =>
    simp only [stackLabels] at ih ⊢
    rw [List.flatMap_cons, List.filterMap_append, ih]
    simp [expectedStackLine, List.filterMap_map, Function.comp_def]

/-- The bytes of lines `0 .. m - 1` are the first `min (8 * m) n` bytes. -/
theorem stackByteValues_lines (env : Collaborators) (mem : ByteMem) (sp sd n : Nat) :
    ∀ m, stackByteValues ((List.range m).flatMap (expectedStackLine env mem sp sd n))
      = (List.range (min (8 * m) n)).map (fun k => mem (sd + k)) := by
  intro m
  induction m with
  | zero => simp [stackByteValues]
  | succ m ih =>
    simp only [stackByteValues] at ih ⊢
    rw [List.range_succ, List.flatMap_append, List.filterMap_append, ih, List.flatMap_singleton]
    have hline : List.filterMap (fun it =>
          match it with
          | StackItem.byte _ v => some v
          | _ => none) (expectedStackLine env mem sp sd n m)
        = (List.range (min 8 (n - 8 * m))).map (fun i => mem (sd + 8 * m + i)) := by
      simp only [expectedStackLine, List.filterMap_cons, List.filterMap_map, Function.comp_def]
      exact filterMap_some_eq_map _ _
    rw [hline]
    by_cases hn : 8 * m ≤ n
    · have e1 : min (8 * m) n = 8 * m := by omega
      have e2 : min (8 * (m + 1)) n = 8 * m + min 8 (n - 8 * m) := by omega
      rw [e1, e2, List.range_add, List.map_append, List.map_map]
      refine congrArg₂ _ rfl ?_
      apply List.map_congr_left
      intro i _
      simp only [Function.comp]
      rw [Nat.add_assoc]
    · have e1 : min 8 (n - 8 * m) = 0 := by omega
      have e2 : min (8 * (m + 1)) n = min (8 * m) n := by omega
      rw [e1, e2]
      simp

/-- Claim C11, as the code has it.  The stack loop is reached only when the type
is one of the four of the table of names, and it compares the 32-bit pointers
`stackDump` and `additionalData = stackDump + stackDumpSize`, so the count below
needs the stack section not to wrap around the end of the address space.  For a
valid dump whose type is at most 3, with `stackDumpSize = n` and
`stackDump + n < 2 ^ 32`, the stack dump shows exactly `min 19 (ceil (n / 8))`
lines; line `l` has the label `(SP + 8 * l) mod 2 ^ 32`, `SP` being register 13,
followed by the bytes `8 * l ..` of the stack section, 8 at most; together the
lines show the first `min 152 n` bytes in order.  For `n = 300` these are 19
lines and 152 bytes, for `n = 40` 5 lines.  When the draw of a label returns the
vertical position it was given, the label and the bytes of a line share one
vertical position and line `l` lies `(l + 1) * SPACING_Y` below the first
position of the loop. -/
theorem detectAndProcessExceptionDumps_stack_lines (env : Collaborators) (mem : ByteMem)
    (hm0 : magic0 mem = 0xDEADC0DE) (hm1 : magic1 mem = 0xDEADCAFE)
    (hp : processor mem = 9 ∨ processor mem = 11) (hty : type mem ≤ 3)
    (hwrap : stackDumpAddr mem + stackDumpSize mem < 2 ^ 32) :
    stackItems (detectAndProcessExceptionDumps env mem).1
      = (List.range (min 19 ((stackDumpSize mem + 7) / 8))).flatMap
          (expectedStackLine env mem (regs mem 13) (stackDumpAddr mem) (stackDumpSize mem)) ∧
    stackLabels (stackItems (detectAndProcessExceptionDumps env mem).1)
      = (List.range (min 19 ((stackDumpSize mem + 7) / 8))).map
          (fun l => (regs mem 13 + 8 * l) % 2 ^ 32) ∧
    stackByteValues (stackItems (detectAndProcessExceptionDumps env mem).1)
      = (List.range (min 152 (stackDumpSize mem))).map (fun k => mem (stackDumpAddr mem + k)) ∧
    (stackDumpSize mem = 300 →
      (stackLabels (stackItems (detectAndProcessExceptionDumps env mem).1)).length = 19 ∧
      (stackByteValues (stackItems (detectAndProcessExceptionDumps env mem).1)).length = 152) ∧
    (stackDumpSize mem = 40 →
      (stackLabels (stackItems (detectAndProcessExceptionDumps env mem).1)).length = 5 ∧
      (stackByteValues (stackItems (detectAndProcessExceptionDumps env mem).1)).length = 40) ∧
    ((∀ x y a,
        env.drawResult (Event.drawFormattedString false x y Color.white "%08X:" a) = y) →
      ∃ y0, stackCells (detectAndProcessExceptionDumps env mem).1
        = (List.range (min 19 ((stackDumpSize mem + 7) / 8))).flatMap (fun l =>
            expectedStackLineAt env mem (regs mem 13) (stackDumpAddr mem) (stackDumpSize mem)
              (y0 + (l + 1) * env.SPACING_Y) l)) := by
  have hpres : dumpPresent mem = true := (dumpPresent_iff mem).mpr ⟨hm0, hm1, hp⟩
  obtain ⟨ty, hdraw⟩ := drawExceptionType_of_le env mem (drawProcessor env mem).2 hty
  have hA : additionalDataAddr mem - stackDumpAddr mem = stackDumpSize mem := by
    unfold additionalDataAddr
    rw [Nat.mod_eq_of_lt hwrap]
    omega
  have key : stackItems (detectAndProcessExceptionDumps env mem).1
      = (List.range (min 19 ((stackDumpSize mem + 7) / 8))).flatMap
          (expectedStackLine env mem (regs mem 13) (stackDumpAddr mem) (stackDumpSize mem)) := by
    rw [stackItems_detect env mem ty hpres hdraw, stackItems_drawStackLines, hA]
    rfl
  have hl : stackLabels (stackItems (detectAndProcessExceptionDumps env mem).1)
      = (List.range (min 19 ((stackDumpSize mem + 7) / 8))).map
          (fun l => (regs mem 13 + 8 * l) % 2 ^ 32) := by
    rw [key, stackLabels_lines]
  have hb : stackByteValues (stackItems (detectAndProcessExceptionDumps env mem).1)
      = (List.range (min 152 (stackDumpSize mem))).map
          (fun k => mem (stackDumpAddr mem + k)) := by
    rw [key, stackByteValues_lines]
    have e : min (8 * min 19 ((stackDumpSize mem + 7) / 8)) (stackDumpSize mem)
        = min 152 (stackDumpSize mem) := by omega
    rw [e]
  refine ⟨key, hl, hb, ?_, ?_, ?_⟩
  · intro hn
    rw [hl, hb, hn]
    simp
  · intro hn
    rw [hl, hb, hn]
    simp
  · intro hret
    refine ⟨(drawString env false 10 10 Color.white "Stack dump:").2 + env.SPACING_Y, ?_⟩
    rw [stackCells_detect env mem ty hpres hdraw, stackCells_drawStackLines env mem hret, hA]
    rfl

/-- Witness for C11: `stack40Dump`, whose stack section has 40 bytes, and
`stack300Dump`, whose stack section has 300, both of type 1, with collaborators
whose draws return the position they were given. -/
theorem detectAndProcessExceptionDumps_stack_lines_witness :
    (stackItems (detectAndProcessExceptionDumps sampleEnv stack40Dump).1
      = (List.range (min 19 ((stackDumpSize stack40Dump + 7) / 8))).flatMap
          (expectedStackLine sampleEnv stack40Dump (regs stack40Dump 13)
            (stackDumpAddr stack40Dump) (stackDumpSize stack40Dump)) ∧
    stackLabels (stackItems (detectAndProcessExceptionDumps sampleEnv stack40Dump).1)
      = (List.range (min 19 ((stackDumpSize stack40Dump + 7) / 8))).map
          (fun l => (regs stack40Dump 13 + 8 * l) % 2 ^ 32) ∧
    stackByteValues (stackItems (detectAndProcessExceptionDumps sampleEnv stack40Dump).1)
      = (List.range (min 152 (stackDumpSize stack40Dump))).map
          (fun k => stack40Dump (stackDumpAddr stack40Dump + k))) ∧
    ((stackLabels (stackItems
        (detectAndProcessExceptionDumps sampleEnv stack40Dump).1)).length = 5 ∧
      (stackByteValues (stackItems
        (detectAndProcessExceptionDumps sampleEnv stack40Dump).1)).length = 40) ∧
    ((stackLabels (stackItems
        (detectAndProcessExceptionDumps sampleEnv stack300Dump).1)).length = 19 ∧
      (stackByteValues (stackItems
        (detectAndProcessExceptionDumps sampleEnv stack300Dump).1)).length = 152) ∧
    ∃ y0, stackCells (detectAndProcessExceptionDumps sampleEnv stack40Dump).1
      = (List.range (min 19 ((stackDumpSize stack40Dump + 7) / 8))).flatMap (fun l =>
          expectedStackLineAt sampleEnv stack40Dump (regs stack40Dump 13)
            (stackDumpAddr stack40Dump) (stackDumpSize stack40Dump)
            (y0 + (l + 1) * sampleEnv.SPACING_Y) l) :=
  ⟨⟨(detectAndProcessExceptionDumps_stack_lines sampleEnv stack40Dump (by decide) (by decide)
        (Or.inr (by decide)) (by decide) (by decide)).1,
      (detectAndProcessExceptionDumps_stack_lines sampleEnv stack40Dump (by decide) (by decide)
        (Or.inr (by decide)) (by decide) (by decide)).2.1,
      (detectAndProcessExceptionDumps_stack_lines sampleEnv stack40Dump (by decide) (by decide)
        (Or.inr (by decide)) (by decide) (by decide)).2.2.1⟩,
    (detectAndProcessExceptionDumps_stack_lines sampleEnv stack40Dump (by decide) (by decide)
      (Or.inr (by decide)) (by decide) (by decide)).2.2.2.2.1 (by decide),
    (detectAndProcessExceptionDumps_stack_lines sampleEnv stack300Dump (by decide) (by decide)
      (Or.inr (by decide)) (by decide) (by decide)).2.2.2.1 (by decide),
    (detectAndProcessExceptionDumps_stack_lines sampleEnv stack40Dump (by decide) (by decide)
      (Or.inr (by decide)) (by decide) (by decide)).2.2.2.2.2 (fun _ _ _ => rfl)⟩

/-- Counterexample to C11 as stated.  First group: `hugeStackDump` is a valid dump
whose header has `stackDumpSize = 0xFFFFFFF8`.  The pointer `additionalData` wraps
around to an address below `stackDump`, the loop of line 183 does not run and the
report shows no stack line, where the claim has `min 19 (ceil (n / 8)) = 19`
lines.  Second group: `unknownTypeDump` is a valid dump of type 4 with 8 stack
bytes; the run reads the table of names past its end before the stack loop and
shows no stack line, where the claim has one. -/
theorem detectAndProcessExceptionDumps_stack_lines_counterexample :
    (magic0 hugeStackDump = 0xDEADC0DE ∧ magic1 hugeStackDump = 0xDEADCAFE ∧
      processor hugeStackDump = 11 ∧ type hugeStackDump = 2 ∧
      stackDumpSize hugeStackDump = 0xFFFFFFF8 ∧
      min 19 ((stackDumpSize hugeStackDump + 7) / 8) = 19 ∧
      stackDumpAddr hugeStackDump = 0x25000074 ∧
      additionalDataAddr hugeStackDump = 0x2500006C ∧
      stackItems (detectAndProcessExceptionDumps sampleEnv hugeStackDump).1 = [] ∧
      (detectAndProcessExceptionDumps sampleEnv hugeStackDump).1.getLast?
        = some Event.mcuPowerOff) ∧
    (magic0 unknownTypeDump = 0xDEADC0DE ∧ magic1 unknownTypeDump = 0xDEADCAFE ∧
      processor unknownTypeDump = 11 ∧ type unknownTypeDump = 4 ∧
      stackDumpSize unknownTypeDump = 8 ∧
      min 19 ((stackDumpSize unknownTypeDump + 7) / 8) = 1 ∧
      (detectAndProcessExceptionDumps sampleEnv unknownTypeDump).1.length = 3 ∧
      stackItems (detectAndProcessExceptionDumps sampleEnv unknownTypeDump).1 = []) := by
  refine ⟨⟨by decide, by decide, by decide, by decide, by decide, by decide, by decide,
    by decide, by decide, by decide⟩,
    by decide, by decide, by decide, by decide, by decide, by decide, by decide, by decide⟩

/-! ### The primary installer -/

theorem rd32_wr32_same (mem : ByteMem) (a v : Nat) : rd32 (wr32 mem a v) a = v % 2 ^ 32 := by
  unfold rd32 wr32
  simp only [if_true, if_neg (show ¬ (a + 1 = a) by omega), if_neg (show ¬ (a + 2 = a) by omega),
    if_neg (show ¬ (a + 3 = a) by omega), if_neg (show ¬ (a + 2 = a + 1) by omega),
    if_neg (show ¬ (a + 3 = a + 1) by omega), if_neg (show ¬ (a + 3 = a + 2) by omega)]
  omega

theorem wr32_other (mem : ByteMem) (a v x : Nat) (h : x < a ∨ a + 4 ≤ x) :
    wr32 mem a v x = mem x := by
  unfold wr32
  rw [if_neg (by omega), if_neg (by omega), if_neg (by omega), if_neg (by omega)]

theorem rd32_wr32_other (mem : ByteMem) (a v b : Nat) (h : b + 4 ≤ a ∨ a + 4 ≤ b) :
    rd32 (wr32 mem a v) b = rd32 mem b := by
  unfold rd32
  rw [wr32_other _ _ _ _ (by omega), wr32_other _ _ _ _ (by omega),
    wr32_other _ _ _ _ (by omega), wr32_other _ _ _ _ (by omega)]

theorem rd32_memcpyBytes_outside (mem : ByteMem) (dst : Nat) (bytes : List Nat) (b : Nat)
    (h : b + 4 ≤ dst ∨ dst + bytes.length ≤ b) :
    rd32 (memcpyBytes mem dst bytes) b = rd32 mem b := by
  unfold rd32 memcpyBytes
  rw [if_neg (by omega), if_neg (by omega), if_neg (by omega), if_neg (by omega)]

/-- The memory `installArm9Handlers` leaves, as a chain of stores. -/
theorem installArm9Handlers_eq (blob : Arm9Blob) (mem : ByteMem) :
    installArm9Handlers blob mem =
      wr32 (wr32 (wr32 (wr32 (wr32 (wr32 (wr32 (wr32 (memcpyBytes mem 0x01FF8000 blob.body)
        0x08000008 0xE51FF004) 0x0800000C (blob.headerWord 1))
        0x08000018 0xE51FF004) 0x0800001C (blob.headerWord 2))
        0x08000020 0xE51FF004) 0x08000024 (blob.headerWord 3))
        0x08000028 0xE51FF004) 0x0800002C (blob.headerWord 4) := by
  rfl

/-- Claim C13.  The blob is an array of the firmware image: its header words are
32-bit values and its body, copied to `0x01FF8000`, ends before the vector table
at `0x08000000` (at most `0x06008000` bytes).  After `installArm9Handlers`, for
`i` in `0 .. 3` the word at `0x08000000 + offsets[i]` is `0xE51FF004` and the word
after it is header word `1 + i`; the body bytes are at `0x01FF8000`; the words at
`0x08000000`, `0x08000004`, `0x08000010` and `0x08000014` are as before. -/
theorem installArm9Handlers_stubs (blob : Arm9Blob) (mem : ByteMem)
    (hbody : blob.body.length ≤ 0x06008000) (hword : ∀ k, blob.headerWord k < 2 ^ 32) :
    (∀ i, i < 4 →
      rd32 (installArm9Handlers blob mem) (0x08000000 + offsets.getD i 0) = 0xE51FF004 ∧
      rd32 (installArm9Handlers blob mem) (0x08000000 + offsets.getD i 0 + 4)
        = blob.headerWord (1 + i)) ∧
    (∀ k, k < blob.body.length →
      installArm9Handlers blob mem (0x01FF8000 + k) = blob.body.getD k 0) ∧
    rd32 (installArm9Handlers blob mem) 0x08000000 = rd32 mem 0x08000000 ∧
    rd32 (installArm9Handlers blob mem) 0x08000004 = rd32 mem 0x08000004 ∧
    rd32 (installArm9Handlers blob mem) 0x08000010 = rd32 mem 0x08000010 ∧
    rd32 (installArm9Handlers blob mem) 0x08000014 = rd32 mem 0x08000014 := by
  rw [installArm9Handlers_eq]
  have h1 := hword 1
  have h2 := hword 2
  have h3 := hword 3
  have h4 := hword 4
  have hstub : (0xE51FF004 : Nat) % 2 ^ 32 = 0xE51FF004 := by norm_num
  refine ⟨?_, ?_, ?_, ?_, ?_, ?_⟩
  · intro i hi
    have hcases : i = 0 ∨ i = 1 ∨ i = 2 ∨ i = 3 := by omega
    rcases hcases with hi0 | hi1 | hi2 | hi3
    · rw [hi0]
      have e : offsets.getD 0 0 = 0x08 := rfl
      have e2 : blob.headerWord (1 + 0) = blob.headerWord 1 := rfl
      rw [e, e2]
      constructor
      · rw [rd32_wr32_other _ _ _ _ (by omega), rd32_wr32_other _ _ _ _ (by omega),
          rd32_wr32_other _ _ _ _ (by omega), rd32_wr32_other _ _ _ _ (by omega),
          rd32_wr32_other _ _ _ _ (by omega), rd32_wr32_other _ _ _ _ (by omega),
          rd32_wr32_other _ _ _ _ (by omega), rd32_wr32_same, hstub]
      · rw [rd32_wr32_other _ _ _ _ (by omega), rd32_wr32_other _ _ _ _ (by omega),
          rd32_wr32_other _ _ _ _ (by omega), rd32_wr32_other _ _ _ _ (by omega),
          rd32_wr32_other _ _ _ _ (by omega), rd32_wr32_other _ _ _ _ (by omega),
          rd32_wr32_same, Nat.mod_eq_of_lt h1]
    · rw [hi1]
      have e : offsets.getD 1 0 = 0x18 := rfl
      have e2 : blob.headerWord (1 + 1) = blob.headerWord 2 := rfl
      rw [e, e2]
      constructor
      · rw [rd32_wr32_other _ _ _ _ (by omega), rd32_wr32_other _ _ _ _ (by omega),
          rd32_wr32_other _ _ _ _ (by omega), rd32_wr32_other _ _ _ _ (by omega),
          rd32_wr32_other _ _ _ _ (by omega), rd32_wr32_same, hstub]
      · rw [rd32_wr32_other _ _ _ _ (by omega), rd32_wr32_other _ _ _ _ (by omega),
          rd32_wr32_other _ _ _ _ (by omega), rd32_wr32_other _ _ _ _ (by omega),
          rd32_wr32_same, Nat.mod_eq_of_lt h2]
    · rw [hi2]
      have e : offsets.getD 2 0 = 0x20 := rfl
      have e2 : blob.headerWord (1 + 2) = blob.headerWord 3 := rfl
      rw [e, e2]
      constructor
      · rw [rd32_wr32_other _ _ _ _ (by omega), rd32_wr32_other _ _ _ _ (by omega),
          rd32_wr32_other _ _ _ _ (by omega), rd32_wr32_same, hstub]
      · rw [rd32_wr32_other _ _ _ _ (by omega), rd32_wr32_other _ _ _ _ (by omega),
          rd32_wr32_same, Nat.mod_eq_of_lt h3]
    · rw [hi3]
      have e : offsets.getD 3 0 = 0x28 := rfl
      have e2 : blob.headerWord (1 + 3) = blob.headerWord 4 := rfl
      rw [e, e2]
      constructor
      · rw [rd32_wr32_other _ _ _ _ (by omega), rd32_wr32_same, hstub]
      · rw [rd32_wr32_same, Nat.mod_eq_of_lt h4]
  · intro k hk
    rw [wr32_other _ _ _ _ (by omega), wr32_other _ _ _ _ (by omega),
      wr32_other _ _ _ _ (by omega), wr32_other _ _ _ _ (by omega),
      wr32_other _ _ _ _ (by omega), wr32_other _ _ _ _ (by omega),
      wr32_other _ _ _ _ (by omega), wr32_other _ _ _ _ (by omega)]
    unfold memcpyBytes
    rw [if_pos (by omega)]
    have e : 0x01FF8000 + k - 0x01FF8000 = k := by omega
    rw [e]
  all_goals
    rw [rd32_wr32_other _ _ _ _ (by omega), rd32_wr32_other _ _ _ _ (by omega),
      rd32_wr32_other _ _ _ _ (by omega), rd32_wr32_other _ _ _ _ (by omega),
      rd32_wr32_other _ _ _ _ (by omega), rd32_wr32_other _ _ _ _ (by omega),
      rd32_wr32_other _ _ _ _ (by omega), rd32_wr32_other _ _ _ _ (by omega),
      rd32_memcpyBytes_outside _ _ _ _ (by omega)]

/-- Witness for C13: `sampleArm9Blob` installed in the all-zero memory. -/
theorem installArm9Handlers_stubs_witness :
    (∀ i, i < 4 →
      rd32 (installArm9Handlers sampleArm9Blob noDump) (0x08000000 + offsets.getD i 0)
        = 0xE51FF004 ∧
      rd32 (installArm9Handlers sampleArm9Blob noDump) (0x08000000 + offsets.getD i 0 + 4)
        = sampleArm9Blob.headerWord (1 + i)) ∧
    (∀ k, k < sampleArm9Blob.body.length →
      installArm9Handlers sampleArm9Blob noDump (0x01FF8000 + k)
        = sampleArm9Blob.body.getD k 0) ∧
    rd32 (installArm9Handlers sampleArm9Blob noDump) 0x08000000 = rd32 noDump 0x08000000 ∧
    rd32 (installArm9Handlers sampleArm9Blob noDump) 0x08000004 = rd32 noDump 0x08000004 ∧
    rd32 (installArm9Handlers sampleArm9Blob noDump) 0x08000010 = rd32 noDump 0x08000010 ∧
    rd32 (installArm9Handlers sampleArm9Blob noDump) 0x08000014 = rd32 noDump 0x08000014 :=
  installArm9Handlers_stubs sampleArm9Blob noDump (by decide) (by
    intro k
    simp only [sampleArm9Blob]
    split_ifs <;> norm_num)

/-! ### Where a successful call reads and writes -/

theorem mcuRebootPos_le (page : WordMem) : mcuRebootPos page ≤ 0x400 := by
  have h := (scanFor_spec page 0xE3A0A0C2 0x400 0).2.1
  simpa [mcuRebootPos] using h

/-- When the FPU-init marker is found, the free space starts after it. -/
theorem initFPUPos_lt_freeSpacePos (page : WordMem) (h : initFPUPos page ≠ 0x400) :
    initFPUPos page < freeSpacePos page := by
  obtain ⟨s1, s2, s3, s4⟩ := scanFor_spec page 0xE1A0D002 0x400 0
  obtain ⟨t1, t2, t3, t4⟩ :=
    scanFor_spec page 0xFFFFFFFF (0x400 - initFPUPos page) (initFPUPos page)
  have hle := initFPUPos_le page
  have hfound : page (initFPUPos page) = 0xE1A0D002 := by
    have := s4 (by unfold initFPUPos at h hle; omega)
    exact this
  by_contra hlt
  have heq : freeSpacePos page = initFPUPos page := by
    unfold freeSpacePos at hlt ⊢
    omega
  have hsent : page (freeSpacePos page) = 0xFFFFFFFF := by
    have := t4 (by unfold freeSpacePos at heq; omega)
    exact this
  rw [heq, hfound] at hsent
  omega

/-- The words a successful call leaves as they were. -/
theorem installArm11Handlers_page_frame_aux (blob : Arm11Blob) (page : WordMem)
    (stackAddress codeSetOffset : Nat) (dAbtHandler : List Nat) (dAbtHandlerMemAddress : Nat)
    (h : retCode (installArm11Handlers blob page stackAddress codeSetOffset dAbtHandler
      dAbtHandlerMemAddress) = some 0) :
    ∃ r, installArm11Handlers blob page stackAddress codeSetOffset dAbtHandler
        dAbtHandlerMemAddress = some r ∧
      ∀ i, i ≠ 1 → i ≠ 3 → i ≠ 7 →
        (i < freeSpacePos page ∨ freeSpacePos page + blob.bodyWords < i) →
        r.page i = page i := by
  obtain ⟨_, snip, hr⟩ := installArm11Handlers_success_inv blob page stackAddress codeSetOffset
    dAbtHandler dAbtHandlerMemAddress h
  refine ⟨_, hr, ?_⟩
  intro i h1 h3 h7 hout
  simp only []
  rw [relocLoop_frame _ _ _ _ i hout, writeVectors_other _ _ _ _ h1 h3 h7]
  exact memcpyBody_outside _ _ _ _ (by unfold Arm11Blob.bodyWords at hout; omega)

/-- Claim C19, as the code has it.  The three scans are bounded by the page, the
copy is not.  When `installArm11Handlers` returns 0, the FPU-init marker lies
before the free-space start, which lies in the page, and so does the MCU-reboot
marker; the adjusted branch targets are the words `initFPU + 3 ≤ 1025` and
`mcuReboot - 2`, between -2 and 1021; the validated end word is word
`freeSpace + bodyWords - 1`, and every word the call changes, the vector words 1,
3 and 7 apart, lies in `[freeSpace, freeSpace + bodyWords]`.  These accesses stay
in the page when `freeSpace + bodyWords < 1024`, which the validation does not
ensure. -/
theorem installArm11Handlers_access_bounds (blob : Arm11Blob) (page : WordMem)
    (stackAddress codeSetOffset : Nat) (dAbtHandler : List Nat) (dAbtHandlerMemAddress : Nat)
    (h : retCode (installArm11Handlers blob page stackAddress codeSetOffset dAbtHandler
      dAbtHandlerMemAddress) = some 0) :
    initFPUPos page < freeSpacePos page ∧ freeSpacePos page < 0x400 ∧
    mcuRebootPos page < 0x400 ∧ initFPUPos page + 3 ≤ 1025 ∧
    (-2 ≤ (mcuRebootPos page : Int) - 2 ∧ (mcuRebootPos page : Int) - 2 ≤ 1021) ∧
    endWordPos page blob = freeSpacePos page + blob.bodyWords - 1 ∧
    ∃ r, installArm11Handlers blob page stackAddress codeSetOffset dAbtHandler
        dAbtHandlerMemAddress = some r ∧
      (∀ i, r.page i ≠ page i → i = 1 ∨ i = 3 ∨ i = 7 ∨
        (freeSpacePos page ≤ i ∧ i ≤ freeSpacePos page + blob.bodyWords)) ∧
      (freeSpacePos page + blob.bodyWords < 0x400 →
        endWordPos page blob < 0x400 ∧ ∀ i, 0x400 ≤ i → r.page i = page i) := by
  obtain ⟨hv, _⟩ := installArm11Handlers_success_inv blob page stackAddress codeSetOffset
    dAbtHandler dAbtHandlerMemAddress h
  rw [validationFails_eq_false_iff] at hv
  obtain ⟨ha, hf, hm, _⟩ := hv
  have hlt := initFPUPos_lt_freeSpacePos page ha
  have hfle := freeSpacePos_le page
  have hmle := mcuRebootPos_le page
  obtain ⟨r, hr, hframe⟩ := installArm11Handlers_page_frame_aux blob page stackAddress
    codeSetOffset dAbtHandler dAbtHandlerMemAddress h
  refine ⟨hlt, by omega, by omega, by omega, ⟨by omega, by omega⟩, rfl, r, hr, ?_, ?_⟩
  · intro i hne
    by_contra hcon
    apply hne
    exact hframe i (by omega) (by omega) (by omega) (by omega)
  · intro hfit
    refine ⟨by unfold endWordPos; omega, ?_⟩
    intro i hi
    exact hframe i (by omega) (by omega) (by omega) (by omega)

/-- Witness for C19: `oneWordBlob` on `markedPage`. -/
theorem installArm11Handlers_access_bounds_witness :
    initFPUPos markedPage < freeSpacePos markedPage ∧ freeSpacePos markedPage < 0x400 ∧
    mcuRebootPos markedPage < 0x400 ∧ initFPUPos markedPage + 3 ≤ 1025 ∧
    (-2 ≤ (mcuRebootPos markedPage : Int) - 2 ∧ (mcuRebootPos markedPage : Int) - 2 ≤ 1021) ∧
    endWordPos markedPage oneWordBlob = freeSpacePos markedPage + oneWordBlob.bodyWords - 1 ∧
    ∃ r, installArm11Handlers oneWordBlob markedPage 0x1000 0 [0x1000] 0 = some r ∧
      (∀ i, r.page i ≠ markedPage i → i = 1 ∨ i = 3 ∨ i = 7 ∨
        (freeSpacePos markedPage ≤ i ∧ i ≤ freeSpacePos markedPage + oneWordBlob.bodyWords)) ∧
      (freeSpacePos markedPage + oneWordBlob.bodyWords < 0x400 →
        endWordPos markedPage oneWordBlob < 0x400 ∧
        ∀ i, 0x400 ≤ i → r.page i = markedPage i) :=
  installArm11Handlers_access_bounds oneWordBlob markedPage 0x1000 0 [0x1000] 0 (by decide)

/-- Counterexample to C19 as stated.  On `tailPage` with `bxSecondBlob` the
patcher returns 0 with the free space at word 1023 and a body of 2 words: the
validated end word is word 1024, after the page; the copy changes word 1024 and
the relocation of the `bx r12` in it changes word 1025; the adjusted targets are
the words 1025 and -2. -/
theorem installArm11Handlers_access_bounds_counterexample :
    retCode (installArm11Handlers bxSecondBlob tailPage 0x1000 0 [0x1000] 0) = some 0 ∧
    freeSpacePos tailPage = 1023 ∧ bxSecondBlob.bodyWords = 2 ∧
    endWordPos tailPage bxSecondBlob = 1024 ∧
    initFPUPos tailPage + 3 = 1025 ∧ (mcuRebootPos tailPage : Int) - 2 = -2 ∧
    tailPage 1024 = 0xFFFFFFFF ∧ tailPage 1025 = 0xFFFFFFFF ∧
    (installArm11Handlers bxSecondBlob tailPage 0x1000 0 [0x1000] 0).map
      (fun r => r.page 1024) = some 0xE12FFF1C ∧
    (installArm11Handlers bxSecondBlob tailPage 0x1000 0 [0x1000] 0).map
      (fun r => r.page 1025) = some 0xFFFF0FDB := by
  refine ⟨by decide, by decide, by decide, by decide, by decide, by decide, by decide,
    by decide, by decide, by decide⟩

/-! ### The data-abort snippet after a successful call -/

/-- A successful call ran the scan of the snippet to its end; the result carries
the snippet the scan leaves. -/
theorem installArm11Handlers_success_dAbt (blob : Arm11Blob) (page : WordMem)
    (stackAddress codeSetOffset : Nat) (dAbtHandler : List Nat) (dAbtHandlerMemAddress : Nat)
    (h : retCode (installArm11Handlers blob page stackAddress codeSetOffset dAbtHandler
      dAbtHandlerMemAddress) = some 0) :
    ∃ r, installArm11Handlers blob page stackAddress codeSetOffset dAbtHandler
        dAbtHandlerMemAddress = some r ∧
      dAbtLoop stackAddress (vaDst blob (freeSpacePos page)) dAbtHandlerMemAddress
        (dAbtHandler.length + 1) 0 dAbtHandler = some r.dAbt := by
  have hv : validationFails page blob = false := by
    by_contra hv
    have hv2 : validationFails page blob = true := by simpa using hv
    unfold installArm11Handlers at h
    simp [hv2, retCode] at h
  cases hd : dAbtLoop stackAddress (vaDst blob (freeSpacePos page)) dAbtHandlerMemAddress
      (dAbtHandler.length + 1) 0 dAbtHandler with
  | none =>
    unfold installArm11Handlers at h
    simp [hv, hd, retCode] at h
  | some snip =>
    exact ⟨_, installArm11Handlers_of_valid blob page stackAddress codeSetOffset dAbtHandler
      dAbtHandlerMemAddress snip hv hd, rfl⟩

/-- The scan keeps the length of the snippet and the words before its
position. -/
theorem dAbtLoop_frame (sa dst ma : Nat) : ∀ (fuel pos : Nat) (snip out : List Nat),
    dAbtLoop sa dst ma fuel pos snip = some out →
    out.length = snip.length ∧ ∀ j, j < pos → out[j]? = snip[j]? := by
  intro fuel
  induction fuel with
  | zero => intro pos snip out h; simp [dAbtLoop] at h
  | succ fuel ih =>
    intro pos snip out h
    unfold dAbtLoop at h
    cases hw : snip[pos]? with
    | none => rw [hw] at h; simp at h
    | some w =>
      rw [hw] at h
      simp only [] at h
      split_ifs at h with h1 h2 h3 h4
      · cases h
        exact ⟨rfl, fun _ _ => rfl⟩
      · obtain ⟨hl, hf⟩ := ih _ _ _ h
        rw [List.length_set] at hl
        refine ⟨hl, fun j hj => ?_⟩
        rw [hf j (by omega), List.getElem?_set_ne (by omega)]
      · obtain ⟨hl, hf⟩ := ih _ _ _ h
        rw [List.length_set, List.length_set] at hl
        refine ⟨hl, fun j hj => ?_⟩
        rw [hf j (by omega), List.getElem?_set_ne (by omega), List.getElem?_set_ne (by omega)]
      · obtain ⟨hl, hf⟩ := ih _ _ _ h
        exact ⟨hl, fun j hj => hf j (by omega)⟩

/-- When neither of the two words before a stack-address word at `k` is
`subs pc, lr, 4`, the scan does not pass `k`: the words from `k` on are kept. -/
theorem dAbtLoop_stops (sa dst ma : Nat) : ∀ (fuel pos : Nat) (snip out : List Nat) (k : Nat),
    dAbtLoop sa dst ma fuel pos snip = some out → pos ≤ k → snip[k]? = some sa →
    (pos + 1 ≤ k → snip[k - 1]? ≠ some 0xE29EF004) →
    (pos + 2 ≤ k → snip[k - 2]? ≠ some 0xE29EF004) →
    ∀ j, k ≤ j → out[j]? = snip[j]? := by
  intro fuel
  induction fuel with
  | zero => intro pos snip out k h; simp [dAbtLoop] at h
  | succ fuel ih =>
    intro pos snip out k h hk hsa hk1 hk2 j hj
    unfold dAbtLoop at h
    cases hw : snip[pos]? with
    | none => rw [hw] at h; simp at h
    | some w =>
      rw [hw] at h
      simp only [] at h
      split_ifs at h with h1 h2 h3 h4
      · cases h; rfl
      · have hne : pos ≠ k := by
          intro he; subst he; rw [hw] at hsa; exact h1 (Option.some.inj hsa)
        rw [ih _ _ _ k h (by omega) (by rw [List.getElem?_set_ne (by omega)]; exact hsa)
          (fun hh => by rw [List.getElem?_set_ne (by omega)]; exact hk1 (by omega))
          (fun hh => by rw [List.getElem?_set_ne (by omega)]; exact hk2 (by omega)) j hj,
          List.getElem?_set_ne (by omega)]
      · have hne : pos ≠ k := by
          intro he; subst he; rw [hw] at hsa; exact h1 (Option.some.inj hsa)
        have hne1 : pos + 1 ≠ k := by
          intro he
          apply hk1 (by omega)
          have : k - 1 = pos := by omega
          rw [this, hw, h3]
        have hne2 : pos + 2 ≠ k := by
          intro he
          apply hk2 (by omega)
          have : k - 2 = pos := by omega
          rw [this, hw, h3]
        rw [ih _ _ _ k h (by omega)
          (by rw [List.getElem?_set_ne (by omega), List.getElem?_set_ne (by omega)]; exact hsa)
          (fun hh => by
            rw [List.getElem?_set_ne (by omega), List.getElem?_set_ne (by omega)]
            exact hk1 (by omega))
          (fun hh => by
            rw [List.getElem?_set_ne (by omega), List.getElem?_set_ne (by omega)]
            exact hk2 (by omega)) j hj,
          List.getElem?_set_ne (by omega), List.getElem?_set_ne (by omega)]
      · have hne : pos ≠ k := by
          intro he; subst he; rw [hw] at hsa; exact h1 (Option.some.inj hsa)
        exact ih _ _ _ k h (by omega) hsa (fun hh => hk1 (by omega)) (fun hh => hk2 (by omega))
          j hj

/-- The scan only rewrites `srsdb` words and the two words after a
`subs pc, lr, 4` word. -/
theorem dAbtLoop_unchanged (sa dst ma : Nat) : ∀ (fuel pos : Nat) (snip out : List Nat),
    dAbtLoop sa dst ma fuel pos snip = some out →
    ∀ j, pos ≤ j → snip[j]? ≠ some 0xF96D0513 →
      (pos + 1 ≤ j → snip[j - 1]? ≠ some 0xE29EF004) →
      (pos + 2 ≤ j → snip[j - 2]? ≠ some 0xE29EF004) →
      out[j]? = snip[j]? := by
  intro fuel
  induction fuel with
  | zero => intro pos snip out h; simp [dAbtLoop] at h
  | succ fuel ih =>
    intro pos snip out h j hj hs h1j h2j
    have hcopy := h
    unfold dAbtLoop at h
    cases hw : snip[pos]? with
    | none => rw [hw] at h; simp at h
    | some w =>
      rw [hw] at h
      simp only [] at h
      split_ifs at h with h1 h2 h3 h4
      · cases h; rfl
      · have hne : j ≠ pos := by
          intro he; subst he; rw [hw, h2] at hs; exact hs rfl
        rw [ih _ _ _ h j (by omega) (by rw [List.getElem?_set_ne (by omega)]; exact hs)
          (fun hh => by rw [List.getElem?_set_ne (by omega)]; exact h1j (by omega))
          (fun hh => by rw [List.getElem?_set_ne (by omega)]; exact h2j (by omega)),
          List.getElem?_set_ne (by omega)]
      · have hne1 : j ≠ pos + 1 := by
          intro he
          apply h1j (by omega)
          have : j - 1 = pos := by omega
          rw [this, hw, h3]
        have hne2 : j ≠ pos + 2 := by
          intro he
          apply h2j (by omega)
          have : j - 2 = pos := by omega
          rw [this, hw, h3]
        by_cases hjp : j = pos
        · rw [(dAbtLoop_frame sa dst ma _ _ _ _ h).2 j (by omega),
            List.getElem?_set_ne (by omega), List.getElem?_set_ne (by omega)]
        · rw [ih _ _ _ h j (by omega)
            (by rw [List.getElem?_set_ne (by omega), List.getElem?_set_ne (by omega)]; exact hs)
            (fun hh => by
              rw [List.getElem?_set_ne (by omega), List.getElem?_set_ne (by omega)]
              exact h1j (by omega))
            (fun hh => by
              rw [List.getElem?_set_ne (by omega), List.getElem?_set_ne (by omega)]
              exact h2j (by omega)),
            List.getElem?_set_ne (by omega), List.getElem?_set_ne (by omega)]
      · by_cases hjp : j = pos
        · exact (dAbtLoop_frame sa dst ma _ _ _ _ h).2 j (by omega)
        · exact ih _ _ _ h j (by omega) hs (fun hh => h1j (by omega)) (fun hh => h2j (by omega))

/-- Claim C14, as the code has it.  After a `subs pc, lr, 4` word the scan writes
the next two words and goes on behind them without comparing them with the stack
address.  When `installArm11Handlers` returns 0 and the snippet has a word equal
to `stackAddress` at index `k`, neither of the two words before it being
`0xE29EF004`, the snippet keeps its length and its words from index `k` on.  In
every successful call, a snippet word that is neither `0xF96D0513` nor one of the
two words after a `0xE29EF004` word is left as it was. -/
theorem installArm11Handlers_dAbt_scan_bound (blob : Arm11Blob) (page : WordMem)
    (stackAddress codeSetOffset : Nat) (dAbtHandler : List Nat) (dAbtHandlerMemAddress : Nat)
    (h : retCode (installArm11Handlers blob page stackAddress codeSetOffset dAbtHandler
      dAbtHandlerMemAddress) = some 0) :
    ∃ r, installArm11Handlers blob page stackAddress codeSetOffset dAbtHandler
        dAbtHandlerMemAddress = some r ∧
      r.dAbt.length = dAbtHandler.length ∧
      (∀ k, dAbtHandler[k]? = some stackAddress →
        (1 ≤ k → dAbtHandler[k - 1]? ≠ some 0xE29EF004) →
        (2 ≤ k → dAbtHandler[k - 2]? ≠ some 0xE29EF004) →
        ∀ j, k ≤ j → r.dAbt[j]? = dAbtHandler[j]?) ∧
      (∀ j, dAbtHandler[j]? ≠ some 0xF96D0513 →
        (1 ≤ j → dAbtHandler[j - 1]? ≠ some 0xE29EF004) →
        (2 ≤ j → dAbtHandler[j - 2]? ≠ some 0xE29EF004) →
        r.dAbt[j]? = dAbtHandler[j]?) := by
  obtain ⟨r, hr, hd⟩ := installArm11Handlers_success_dAbt blob page stackAddress codeSetOffset
    dAbtHandler dAbtHandlerMemAddress h
  refine ⟨r, hr, (dAbtLoop_frame _ _ _ _ _ _ _ hd).1, ?_, ?_⟩
  · intro k hk hk1 hk2 j hj
    exact dAbtLoop_stops _ _ _ _ _ _ _ k hd (Nat.zero_le _) hk (fun hh => hk1 (by omega))
      (fun hh => hk2 (by omega)) j hj
  · intro j hs h1 h2
    exact dAbtLoop_unchanged _ _ _ _ _ _ _ hd j (Nat.zero_le _) hs (fun hh => h1 (by omega))
      (fun hh => h2 (by omega))

/-- Witness for C14: a snippet with an `srsdb` word, a `subs pc, lr, 4` word and
the stack address at index 4. -/
theorem installArm11Handlers_dAbt_scan_bound_witness :
    ∃ r, installArm11Handlers oneWordBlob markedPage 0x1000 0
        [0xF96D0513, 0xE29EF004, 0, 0, 0x1000, 0xF96D0513] 0xFFF02000 = some r ∧
      r.dAbt.length = [0xF96D0513, 0xE29EF004, 0, 0, 0x1000, 0xF96D0513].length ∧
      (∀ k, [0xF96D0513, 0xE29EF004, 0, 0, 0x1000, 0xF96D0513][k]? = some 0x1000 →
        (1 ≤ k → [0xF96D0513, 0xE29EF004, 0, 0, 0x1000, 0xF96D0513][k - 1]?
          ≠ some 0xE29EF004) →
        (2 ≤ k → [0xF96D0513, 0xE29EF004, 0, 0, 0x1000, 0xF96D0513][k - 2]?
          ≠ some 0xE29EF004) →
        ∀ j, k ≤ j → r.dAbt[j]? = [0xF96D0513, 0xE29EF004, 0, 0, 0x1000, 0xF96D0513][j]?) ∧
      (∀ j, [0xF96D0513, 0xE29EF004, 0, 0, 0x1000, 0xF96D0513][j]? ≠ some 0xF96D0513 →
        (1 ≤ j → [0xF96D0513, 0xE29EF004, 0, 0, 0x1000, 0xF96D0513][j - 1]?
          ≠ some 0xE29EF004) →
        (2 ≤ j → [0xF96D0513, 0xE29EF004, 0, 0, 0x1000, 0xF96D0513][j - 2]?
          ≠ some 0xE29EF004) →
        r.dAbt[j]? = [0xF96D0513, 0xE29EF004, 0, 0, 0x1000, 0xF96D0513][j]?) :=
  installArm11Handlers_dAbt_scan_bound oneWordBlob markedPage 0x1000 0
    [0xF96D0513, 0xE29EF004, 0, 0, 0x1000, 0xF96D0513] 0xFFF02000 (by decide)

/-- Counterexample to C14 as stated: in the snippet
`[0xE29EF004, 0x1000, 0, 0x1000]` the first word equal to the stack address
`0x1000` is at index 1.  The patcher returns 0; the scan has written `0xE8BD000F`
to index 1 and a branch to index 2, and has stopped at index 3. -/
theorem installArm11Handlers_dAbt_scan_bound_counterexample :
    retCode (installArm11Handlers oneWordBlob markedPage 0x1000 0
      [0xE29EF004, 0x1000, 0, 0x1000] 0xFFF02000) = some 0 ∧
    [0xE29EF004, 0x1000, 0, 0x1000][1]? = some 0x1000 ∧
    [0xE29EF004, 0x1000, 0, 0x1000][0]? ≠ some 0x1000 ∧
    (installArm11Handlers oneWordBlob markedPage 0x1000 0
      [0xE29EF004, 0x1000, 0, 0x1000] 0xFFF02000).map (fun r => r.dAbt)
      = some [0xE29EF004, 0xE8BD000F, 0xEA03B80E, 0x1000] := by
  refine ⟨by decide, by decide, by decide, by decide⟩

/-- The positions the scan visits from `pos` on are at least `pos`. -/
theorem dAbtVisited_ge (sa : Nat) : ∀ (fuel pos : Nat) (snip : List Nat) (j : Nat),
    j ∈ dAbtVisited sa fuel pos snip → pos ≤ j := by
  intro fuel
  induction fuel with
  | zero => intro pos snip j h; simp [dAbtVisited] at h
  | succ fuel ih =>
    intro pos snip j h
    unfold dAbtVisited at h
    cases hw : snip[pos]? with
    | none => rw [hw] at h; simp at h
    | some w =>
      rw [hw] at h
      simp only [] at h
      split_ifs at h
      · simp at h
      · rcases List.mem_cons.mp h with h | h
        · omega
        · have := ih _ _ _ h; omega
      · rcases List.mem_cons.mp h with h | h
        · omega
        · have := ih _ _ _ h; omega

/-- The positions the scan visits from `pos` on depend on the words from `pos`
on only. -/
theorem dAbtVisited_congr (sa : Nat) : ∀ (fuel pos : Nat) (snip snip2 : List Nat),
    (∀ j, pos ≤ j → snip2[j]? = snip[j]?) →
    dAbtVisited sa fuel pos snip2 = dAbtVisited sa fuel pos snip := by
  intro fuel
  induction fuel with
  | zero => intro pos snip snip2 _; rfl
  | succ fuel ih =>
    intro pos snip snip2 h
    unfold dAbtVisited
    rw [h pos (le_refl _)]
    cases snip[pos]? with
    | none => rfl
    | some w =>
      simp only []
      rw [ih (pos + 3) snip snip2 (fun j hj => h j (by omega)),
        ih (pos + 1) snip snip2 (fun j hj => h j (by omega))]

/-- What the scan leaves at the positions it visits: a branch with the
destination `dst` for an `srsdb` word, and `pop {r0-r3}` and such a branch after a
`subs pc, lr, 4` word. -/
theorem dAbtLoop_visited (sa dst ma : Nat) : ∀ (fuel pos : Nat) (snip out : List Nat),
    dAbtLoop sa dst ma fuel pos snip = some out →
    ∀ j, j ∈ dAbtVisited sa fuel pos snip →
      (snip[j]? = some 0xF96D0513 → out[j]? = some (MAKE_BRANCH (vaSrc ma j) dst)) ∧
      (snip[j]? = some 0xE29EF004 → out[j + 1]? = some 0xE8BD000F ∧
        out[j + 2]? = some (MAKE_BRANCH (vaSrc ma (j + 2)) dst)) := by
  intro fuel
  induction fuel with
  | zero => intro pos snip out h; simp [dAbtLoop] at h
  | succ fuel ih =>
    intro pos snip out h j hj
    unfold dAbtLoop at h
    unfold dAbtVisited at hj
    cases hw : snip[pos]? with
    | none => rw [hw] at h; simp at h
    | some w =>
      rw [hw] at h hj
      simp only [] at h hj
      have hpos : pos < snip.length := by
        rcases Nat.lt_or_ge pos snip.length with hlt | hge
        · exact hlt
        · rw [List.getElem?_eq_none hge] at hw; cases hw
      by_cases h1 : w = sa
      · rw [if_pos h1] at hj; simp at hj
      · rw [if_neg h1] at h hj
        by_cases h2 : w = 0xF96D0513
        · rw [if_pos h2] at h
          rw [if_neg (by omega)] at hj
          have hfr := (dAbtLoop_frame sa dst ma _ _ _ _ h).2
          rcases List.mem_cons.mp hj with hj | hj
          · subst hj
            constructor
            · intro _
              rw [hfr j (by omega), List.getElem?_set_self hpos]
            · intro hc
              rw [hw] at hc
              have := Option.some.inj hc
              omega
          · rw [← dAbtVisited_congr sa fuel (pos + 1) snip (snip.set pos
              (MAKE_BRANCH (vaSrc ma pos) dst))
              (fun i hi => List.getElem?_set_ne (by omega))] at hj
            have hge := dAbtVisited_ge sa _ _ _ j hj
            have := ih _ _ _ h j hj
            rw [List.getElem?_set_ne (by omega)] at this
            exact this
        · rw [if_neg h2] at h
          by_cases h3 : w = 0xE29EF004
          · rw [if_pos h3] at h hj
            by_cases h4 : pos + 2 < snip.length
            · rw [if_pos h4] at h
              have hfr := (dAbtLoop_frame sa dst ma _ _ _ _ h).2
              rcases List.mem_cons.mp hj with hj | hj
              · subst hj
                constructor
                · intro hc
                  rw [hw] at hc
                  have := Option.some.inj hc
                  omega
                · intro _
                  constructor
                  · rw [hfr (j + 1) (by omega), List.getElem?_set_ne (by omega),
                      List.getElem?_set_self (by omega)]
                  · rw [hfr (j + 2) (by omega),
                      List.getElem?_set_self (by rw [List.length_set]; omega)]
              · rw [← dAbtVisited_congr sa fuel (pos + 3) snip
                  ((snip.set (pos + 1) 0xE8BD000F).set (pos + 2)
                    (MAKE_BRANCH (vaSrc ma (pos + 2)) dst))
                  (fun i hi => by
                    rw [List.getElem?_set_ne (by omega), List.getElem?_set_ne (by omega)])] at hj
                have hge := dAbtVisited_ge sa _ _ _ j hj
                have := ih _ _ _ h j hj
                rw [List.getElem?_set_ne (by omega), List.getElem?_set_ne (by omega)] at this
                exact this
            · rw [if_neg h4] at h; cases h
          · rw [if_neg h3] at h hj
            rcases List.mem_cons.mp hj with hj | hj
            · subst hj
              constructor
              · intro hc
                rw [hw] at hc
                exact absurd (Option.some.inj hc) h2
              · intro hc
                rw [hw] at hc
                exact absurd (Option.some.inj hc) h3
            · exact ih _ _ _ h j hj

/-- The branches a successful call writes to the snippet have the destination
`va_dst` of line 75, `0xFFFF0000 + 4 * freeSpace + fiqOffset`: the header word is
taken as it is, while line 71 subtracts 32 from it for the branch of vector
slot 7. -/
theorem installArm11Handlers_dAbt_branches (blob : Arm11Blob) (page : WordMem)
    (stackAddress codeSetOffset : Nat) (dAbtHandler : List Nat) (dAbtHandlerMemAddress : Nat)
    (h : retCode (installArm11Handlers blob page stackAddress codeSetOffset dAbtHandler
      dAbtHandlerMemAddress) = some 0) :
    ∃ r, installArm11Handlers blob page stackAddress codeSetOffset dAbtHandler
        dAbtHandlerMemAddress = some r ∧
      ∀ j, j ∈ dAbtVisited stackAddress (dAbtHandler.length + 1) 0 dAbtHandler →
        (dAbtHandler[j]? = some 0xF96D0513 →
          r.dAbt[j]? = some (MAKE_BRANCH (vaSrc dAbtHandlerMemAddress j)
            (vaDst blob (freeSpacePos page)))) ∧
        (dAbtHandler[j]? = some 0xE29EF004 →
          r.dAbt[j + 1]? = some 0xE8BD000F ∧
          r.dAbt[j + 2]? = some (MAKE_BRANCH (vaSrc dAbtHandlerMemAddress (j + 2))
            (vaDst blob (freeSpacePos page)))) := by
  obtain ⟨r, hr, hd⟩ := installArm11Handlers_success_dAbt blob page stackAddress codeSetOffset
    dAbtHandler dAbtHandlerMemAddress h
  exact ⟨r, hr, dAbtLoop_visited _ _ _ _ _ _ _ hd⟩

/-- The destination `va_dst` of line 75 is 32 bytes past the address that the
branch of vector slot 7 (line 71) targets, the page being mapped at `0xFFFF0000`:
line 71 branches to the page byte `4 * freeSpace + fiqOffset - 32`, the FIQ entry
point of the copied body. -/
theorem vaDst_eq_fiq_entry_add_32 (blob : Arm11Blob) (f : Nat)
    (hfit : 4 * f + blob.fiqOffset < 0x10000) :
    (vaDst blob f : Int) = 0xFFFF0000 + (4 * (f : Int) + blob.fiqOffset - 32) + 32 := by
  unfold vaDst
  rw [Nat.mod_eq_of_lt (by omega)]
  push_cast
  ring

/-- Claim C15, evaluated where the code departs from it.  `oneWordBlob` has its
FIQ entry point at blob byte 32, the first body word, which a successful call on
`markedPage` copies to page word 10, the virtual address `0xFFFF0028`.  With the
stack address `0x1000` and the snippet `[0xF96D0513, 0xE29EF004, 0, 0, 0x1000]`
at `0xFFF02000` the call returns 0 and the branch of vector slot 7 decodes to
`0xFFFF0028`.  The word 0 of the snippet, which held the `srsdb` encoding, is a
`B` instruction that decodes to `0xFFFF0048`; the word 2, after the
`subs pc, lr, 4` word, is `0xE8BD000F` and the word 3 is a `B` instruction that
decodes to `0xFFFF0048` as well: 32 bytes past the FIQ entry point, because
line 75 does not subtract the 32 that line 71 subtracts. -/
theorem installArm11Handlers_dAbt_redirect_target :
    retCode (installArm11Handlers oneWordBlob markedPage 0x1000 0
      [0xF96D0513, 0xE29EF004, 0, 0, 0x1000] 0xFFF02000) = some 0 ∧
    freeSpacePos markedPage = 10 ∧ oneWordBlob.fiqOffset = 32 ∧
    0xFFFF0000 + 4 * freeSpacePos markedPage + oneWordBlob.fiqOffset - 32 = 0xFFFF0028 ∧
    (installArm11Handlers oneWordBlob markedPage 0x1000 0
      [0xF96D0513, 0xE29EF004, 0, 0, 0x1000] 0xFFF02000).map
        (fun r => branchTarget (0xFFFF0000 + 4 * 7) (r.page 7)) = some 0xFFFF0028 ∧
    (installArm11Handlers oneWordBlob markedPage 0x1000 0
      [0xF96D0513, 0xE29EF004, 0, 0, 0x1000] 0xFFF02000).map
        (fun r => r.dAbt.getD 0 0) = some (MAKE_BRANCH 0xFFF02000 0xFFFF0048) ∧
    (installArm11Handlers oneWordBlob markedPage 0x1000 0
      [0xF96D0513, 0xE29EF004, 0, 0, 0x1000] 0xFFF02000).map
        (fun r => branchTarget 0xFFF02000 (r.dAbt.getD 0 0)) = some 0xFFFF0048 ∧
    (installArm11Handlers oneWordBlob markedPage 0x1000 0
      [0xF96D0513, 0xE29EF004, 0, 0, 0x1000] 0xFFF02000).map
        (fun r => r.dAbt.getD 2 0) = some 0xE8BD000F ∧
    (installArm11Handlers oneWordBlob markedPage 0x1000 0
      [0xF96D0513, 0xE29EF004, 0, 0, 0x1000] 0xFFF02000).map
        (fun r => r.dAbt.getD 3 0) = some (MAKE_BRANCH (0xFFF02000 + 12) 0xFFFF0048) ∧
    (installArm11Handlers oneWordBlob markedPage 0x1000 0
      [0xF96D0513, 0xE29EF004, 0, 0, 0x1000] 0xFFF02000).map
        (fun r => branchTarget (0xFFF02000 + 12) (r.dAbt.getD 3 0)) = some 0xFFFF0048 := by
  refine ⟨by decide, by decide, by decide, by decide, by decide, by decide, by decide,
    by decide, by decide, by decide⟩

/-! ### The relocation rules -/

/-- The word a relocation step leaves at `pos`. -/
theorem relocStep_at (c : RelocCtx) (mem : WordMem) (pos : Nat) :
    relocStep c mem pos pos = relocated c pos (mem pos) := by
  unfold relocStep relocated
  by_cases h1 : mem pos = 0xFFFF3000
  · rw [if_pos h1, if_pos h1]
    exact wr_same _ _ _
  rw [if_neg h1, if_neg h1]
  by_cases h2 : mem pos = 0xEBFFFFFE
  · rw [if_pos h2, if_pos h2]
    exact wr_same _ _ _
  rw [if_neg h2, if_neg h2]
  by_cases h3 : mem pos = 0xEAFFFFFE
  · rw [if_pos h3, if_pos h3]
    exact wr_same _ _ _
  rw [if_neg h3, if_neg h3]
  by_cases h4 : mem pos = 0xE12FFF1C
  · have h5 : ¬ mem pos = 0xBEEFBEEF := by omega
    rw [if_pos h4, if_neg h5]
    exact wr_other _ _ _ _ (by omega)
  rw [if_neg h4]
  by_cases h5 : mem pos = 0xBEEFBEEF
  · rw [if_pos h5, if_pos h5]
    exact wr_same _ _ _
  rw [if_neg h5, if_neg h5]

/-- The word a relocation step leaves after `pos`. -/
theorem relocStep_next (c : RelocCtx) (mem : WordMem) (pos : Nat) :
    relocStep c mem pos (pos + 1)
      = if mem pos = 0xE12FFF1C then literalValue c.freeSpace (mem (pos + 1))
        else mem (pos + 1) := by
  unfold relocStep literalValue
  by_cases h4 : mem pos = 0xE12FFF1C
  · have h1 : ¬ mem pos = 0xFFFF3000 := by omega
    have h2 : ¬ mem pos = 0xEBFFFFFE := by omega
    have h3 : ¬ mem pos = 0xEAFFFFFE := by omega
    rw [if_neg h1, if_neg h2, if_neg h3, if_pos h4, if_pos h4]
    exact wr_same _ _ _
  rw [if_neg h4, if_neg h4]
  by_cases h1 : mem pos = 0xFFFF3000
  · rw [if_pos h1]
    exact wr_other _ _ _ _ (by omega)
  rw [if_neg h1]
  by_cases h2 : mem pos = 0xEBFFFFFE
  · rw [if_pos h2]
    exact wr_other _ _ _ _ (by omega)
  rw [if_neg h2]
  by_cases h3 : mem pos = 0xEAFFFFFE
  · rw [if_pos h3]
    exact wr_other _ _ _ _ (by omega)
  rw [if_neg h3]
  by_cases h5 : mem pos = 0xBEEFBEEF
  · rw [if_pos h5]
    exact wr_other _ _ _ _ (by omega)
  rw [if_neg h5]

theorem isSentinel_bx : IsSentinel 0xE12FFF1C := by
  unfold IsSentinel
  omega

theorem relocated_of_not_sentinel (c : RelocCtx) (pos w : Nat) (h : ¬ IsSentinel w) :
    relocated c pos w = w := by
  unfold IsSentinel at h
  unfold relocated
  rw [if_neg (by omega), if_neg (by omega), if_neg (by omega), if_neg (by omega)]

/-- The words the relocation loop leaves in the range it scans, when the word
after each `bx r12` is a literal: neither that word nor the value stored for it
is one of the five words the loop looks for. -/
theorem relocLoop_value (c : RelocCtx) : ∀ (n pos : Nat) (mem : WordMem),
    (∀ j, pos ≤ j → j + 1 < pos + n → mem j = 0xE12FFF1C →
      ¬ IsSentinel (mem (j + 1)) ∧ ¬ IsSentinel (literalValue c.freeSpace (mem (j + 1)))) →
    ∀ j, pos ≤ j → j < pos + n →
      relocLoop c n pos mem j
        = if pos < j ∧ mem (j - 1) = 0xE12FFF1C then literalValue c.freeSpace (mem j)
          else relocated c j (mem j) := by
  intro n
  induction n with
  | zero => intro pos mem _ j h1 h2; omega
  | succ n ih =>
    intro pos mem hlit j h1 h2
    unfold relocLoop
    by_cases hj : j = pos
    · subst hj
      rw [relocLoop_frame c n (j + 1) _ j (Or.inl (by omega)), if_neg (by omega)]
      exact relocStep_at c mem j
    · have hbx : ∀ i, pos + 1 < i → relocStep c mem pos i = mem i :=
        fun i hi => relocStep_frame c mem pos i (Or.inr hi)
      have hlit2 : ∀ i, pos + 1 ≤ i → i + 1 < pos + 1 + n → relocStep c mem pos i = 0xE12FFF1C →
          ¬ IsSentinel (relocStep c mem pos (i + 1)) ∧
            ¬ IsSentinel (literalValue c.freeSpace (relocStep c mem pos (i + 1))) := by
        intro i hi1 hi2 hi3
        rw [hbx (i + 1) (by omega)]
        by_cases hip : i = pos + 1
        · subst hip
          rw [relocStep_next] at hi3
          by_cases hp : mem pos = 0xE12FFF1C
          · rw [if_pos hp] at hi3
            have := (hlit pos (le_refl _) (by omega) hp).2
            rw [hi3] at this
            exact absurd isSentinel_bx this
          · rw [if_neg hp] at hi3
            exact hlit (pos + 1) (by omega) (by omega) hi3
        · rw [hbx i (by omega)] at hi3
          exact hlit i (by omega) (by omega) hi3
      rw [ih (pos + 1) _ hlit2 j (by omega) (by omega)]
      by_cases hj1 : j = pos + 1
      · subst hj1
        rw [if_neg (by omega), relocStep_next]
        have e : pos + 1 - 1 = pos := by omega
        rw [e]
        by_cases hp : mem pos = 0xE12FFF1C
        · rw [if_pos hp, if_pos ⟨by omega, hp⟩]
          have hlen : pos + 1 < pos + (n + 1) := by omega
          exact relocated_of_not_sentinel c _ _ (hlit pos (le_refl _) hlen hp).2
        · rw [if_neg hp, if_neg (fun hc => hp hc.2)]
      · rw [hbx j (by omega)]
        have hprev : relocStep c mem pos (j - 1) = 0xE12FFF1C ↔ mem (j - 1) = 0xE12FFF1C := by
          by_cases hj2 : j = pos + 2
          · subst hj2
            have e : pos + 2 - 1 = pos + 1 := by omega
            rw [e, relocStep_next]
            by_cases hp : mem pos = 0xE12FFF1C
            · rw [if_pos hp]
              have hl := hlit pos (le_refl _) (by omega) hp
              constructor
              · intro hc
                rw [hc] at hl
                exact absurd isSentinel_bx hl.2
              · intro hc
                rw [hc] at hl
                exact absurd isSentinel_bx hl.1
            · rw [if_neg hp]
          · rw [hbx (j - 1) (by omega)]
        by_cases hq : mem (j - 1) = 0xE12FFF1C
        · rw [if_pos ⟨by omega, hprev.mpr hq⟩, if_pos ⟨by omega, hq⟩]
        · rw [if_neg (fun hc => hq (hprev.mp hc.2)), if_neg (fun hc => hq hc.2)]

/-- The copied body as the relocation loop finds it, when the three vector slots
lie below the free space. -/
theorem writeVectors_memcpyBody_at (page : WordMem) (blob : Arm11Blob) (f k : Nat)
    (hf : 8 ≤ f) (hk : k < blob.body.length) :
    writeVectors (memcpyBody page f blob.body) blob f (f + k) = blob.body.getD k 0 := by
  rw [writeVectors_other _ _ _ _ (by omega) (by omega) (by omega)]
  unfold memcpyBody
  have e : f + k - f = k := by omega
  rw [if_pos ⟨by omega, by omega⟩, e]

/-- After a successful call whose free space starts at word 8 or later, and whose
blob has a literal after each `bx r12`, each word of the copied region is the
literal rewritten by line 100 when the body word before it is `bx r12`, and the
body word relocated by the other cases of the switch otherwise. -/
theorem installArm11Handlers_relocated (blob : Arm11Blob) (page : WordMem)
    (stackAddress codeSetOffset : Nat) (dAbtHandler : List Nat) (dAbtHandlerMemAddress : Nat)
    (h : retCode (installArm11Handlers blob page stackAddress codeSetOffset dAbtHandler
      dAbtHandlerMemAddress) = some 0)
    (hf : 8 ≤ freeSpacePos page)
    (hlit : ∀ i, i < blob.body.length → blob.body.getD i 0 = 0xE12FFF1C →
      i + 1 < blob.body.length →
      ¬ IsSentinel (blob.body.getD (i + 1) 0) ∧
        ¬ IsSentinel (literalValue (freeSpacePos page) (blob.body.getD (i + 1) 0))) :
    ∃ r, installArm11Handlers blob page stackAddress codeSetOffset dAbtHandler
        dAbtHandlerMemAddress = some r ∧
      ∀ i, i < blob.body.length →
        r.page (freeSpacePos page + i)
          = if 1 ≤ i ∧ blob.body.getD (i - 1) 0 = 0xE12FFF1C then
              literalValue (freeSpacePos page) (blob.body.getD i 0)
            else relocated ⟨stackAddress, codeSetOffset, freeSpacePos page,
              initFPUPos page + 3, (mcuRebootPos page : Int) - 2⟩ (freeSpacePos page + i)
              (blob.body.getD i 0) := by
  obtain ⟨_, snip, hr⟩ := installArm11Handlers_success_inv blob page stackAddress codeSetOffset
    dAbtHandler dAbtHandlerMemAddress h
  refine ⟨_, hr, ?_⟩
  intro i hi
  have hm := writeVectors_memcpyBody_at page blob (freeSpacePos page)
  have hl : ∀ j, freeSpacePos page ≤ j → j + 1 < freeSpacePos page + blob.bodyWords →
      writeVectors (memcpyBody page (freeSpacePos page) blob.body) blob (freeSpacePos page) j
        = 0xE12FFF1C →
      ¬ IsSentinel (writeVectors (memcpyBody page (freeSpacePos page) blob.body) blob
          (freeSpacePos page) (j + 1)) ∧
        ¬ IsSentinel (literalValue (freeSpacePos page)
          (writeVectors (memcpyBody page (freeSpacePos page) blob.body) blob
            (freeSpacePos page) (j + 1))) := by
    intro j hj1 hj2 hj3
    unfold Arm11Blob.bodyWords at hj2
    have e1 : j = freeSpacePos page + (j - freeSpacePos page) := by omega
    have e2 : j + 1 = freeSpacePos page + (j - freeSpacePos page + 1) := by omega
    rw [e1, hm _ hf (by omega)] at hj3
    rw [e2, hm _ hf (by omega)]
    exact hlit _ (by omega) hj3 (by omega)
  show relocLoop _ blob.bodyWords (freeSpacePos page) _ (freeSpacePos page + i) = _
  have hlo : freeSpacePos page ≤ freeSpacePos page + i := by omega
  have hhi : freeSpacePos page + i < freeSpacePos page + blob.bodyWords := by
    unfold Arm11Blob.bodyWords
    omega
  have key := relocLoop_value ⟨stackAddress, codeSetOffset, freeSpacePos page,
    initFPUPos page + 3, (mcuRebootPos page : Int) - 2⟩ blob.bodyWords (freeSpacePos page)
    (writeVectors (memcpyBody page (freeSpacePos page) blob.body) blob (freeSpacePos page))
    hl (freeSpacePos page + i) hlo hhi
  rw [key]
  rw [hm i hf hi]
  by_cases hi1 : 1 ≤ i
  · have e : freeSpacePos page + i - 1 = freeSpacePos page + (i - 1) := by omega
    rw [e, hm (i - 1) hf (by omega)]
    by_cases hp : blob.body.getD (i - 1) 0 = 0xE12FFF1C
    · rw [if_pos ⟨by omega, hp⟩, if_pos ⟨hi1, hp⟩]
    · rw [if_neg (fun hc => hp hc.2), if_neg (fun hc => hp hc.2)]
  · rw [if_neg (fun hc => by omega), if_neg (fun hc => hi1 hc.1)]

/-- Claim C16, as the code has it.  The rules hold when the three vector slots
lie below the free space (it starts at word 8 or later) and each word that
follows a `bx r12` in the body is a literal: neither it nor the value stored for
it is one of the five words the loop looks for.  Then, after a successful call,
for every body word `w` at index `i` and the page word `p` at `freeSpace + i`:
`0xFFFF3000` gives `stackAddress - 16` modulo `2 ^ 32`; `0xBEEFBEEF` gives
`codeSetOffset`; `0xEBFFFFFE` gives the `BL` from the address of `p` to the word 3
after the FPU-init marker; `0xEAFFFFFE` gives the `B` from the address of `p` to
the word 2 before the MCU-reboot marker; a word after `bx r12` gives
`0xFFFF0000 + 4 * freeSpace + w - 32` modulo `2 ^ 32`; every other word is copied
unchanged. -/
theorem installArm11Handlers_relocation_rules (blob : Arm11Blob) (page : WordMem)
    (stackAddress codeSetOffset : Nat) (dAbtHandler : List Nat) (dAbtHandlerMemAddress : Nat)
    (h : retCode (installArm11Handlers blob page stackAddress codeSetOffset dAbtHandler
      dAbtHandlerMemAddress) = some 0)
    (hf : 8 ≤ freeSpacePos page)
    (hlit : ∀ i, i < blob.body.length → blob.body.getD i 0 = 0xE12FFF1C →
      i + 1 < blob.body.length →
      ¬ IsSentinel (blob.body.getD (i + 1) 0) ∧
        ¬ IsSentinel (literalValue (freeSpacePos page) (blob.body.getD (i + 1) 0))) :
    ∃ r, installArm11Handlers blob page stackAddress codeSetOffset dAbtHandler
        dAbtHandlerMemAddress = some r ∧
      ∀ i, i < blob.body.length →
        (blob.body.getD i 0 = 0xFFFF3000 →
          r.page (freeSpacePos page + i) = (stackAddress + (2 ^ 32 - 16)) % 2 ^ 32) ∧
        (blob.body.getD i 0 = 0xBEEFBEEF → r.page (freeSpacePos page + i) = codeSetOffset) ∧
        (blob.body.getD i 0 = 0xEBFFFFFE →
          r.page (freeSpacePos page + i)
            = MAKE_BRANCH_LINK (4 * ((freeSpacePos page + i : Nat) : Int))
                (4 * ((initFPUPos page + 3 : Nat) : Int))) ∧
        (blob.body.getD i 0 = 0xEAFFFFFE →
          r.page (freeSpacePos page + i)
            = MAKE_BRANCH (4 * ((freeSpacePos page + i : Nat) : Int))
                (4 * ((mcuRebootPos page : Int) - 2))) ∧
        (1 ≤ i → blob.body.getD (i - 1) 0 = 0xE12FFF1C →
          r.page (freeSpacePos page + i)
            = (0xFFFF0000 + 4 * freeSpacePos page + blob.body.getD i 0 + (2 ^ 32 - 32))
                % 2 ^ 32) ∧
        (¬ (1 ≤ i ∧ blob.body.getD (i - 1) 0 = 0xE12FFF1C) →
          blob.body.getD i 0 ≠ 0xFFFF3000 → blob.body.getD i 0 ≠ 0xBEEFBEEF →
          blob.body.getD i 0 ≠ 0xEBFFFFFE → blob.body.getD i 0 ≠ 0xEAFFFFFE →
          r.page (freeSpacePos page + i) = blob.body.getD i 0) := by
  obtain ⟨r, hr, hp⟩ := installArm11Handlers_relocated blob page stackAddress codeSetOffset
    dAbtHandler dAbtHandlerMemAddress h hf hlit
  refine ⟨r, hr, ?_⟩
  intro i hi
  have hpi := hp i hi
  by_cases hb : 1 ≤ i ∧ blob.body.getD (i - 1) 0 = 0xE12FFF1C
  · rw [if_pos hb] at hpi
    have hs := (hlit (i - 1) (by omega) hb.2 (by omega)).1
    have e : i - 1 + 1 = i := by omega
    rw [e] at hs
    unfold IsSentinel at hs
    refine ⟨fun hw => absurd (Or.inl hw) hs,
      fun hw => absurd (Or.inr (Or.inr (Or.inr (Or.inr hw)))) hs,
      fun hw => absurd (Or.inr (Or.inl hw)) hs,
      fun hw => absurd (Or.inr (Or.inr (Or.inl hw))) hs,
      fun _ _ => hpi, fun hc => absurd hb hc⟩
  · rw [if_neg hb] at hpi
    unfold relocated at hpi
    refine ⟨fun hw => ?_, fun hw => ?_, fun hw => ?_, fun hw => ?_,
      fun h1 h2 => absurd ⟨h1, h2⟩ hb, fun _ n1 n2 n3 n4 => ?_⟩
    · rw [if_pos hw] at hpi
      exact hpi
    · have n1 : ¬ blob.body.getD i 0 = 0xFFFF3000 := by omega
      have n2 : ¬ blob.body.getD i 0 = 0xEBFFFFFE := by omega
      have n3 : ¬ blob.body.getD i 0 = 0xEAFFFFFE := by omega
      rw [if_neg n1, if_neg n2, if_neg n3, if_pos hw] at hpi
      exact hpi
    · have n1 : ¬ blob.body.getD i 0 = 0xFFFF3000 := by omega
      rw [if_neg n1, if_pos hw] at hpi
      exact hpi
    · have n1 : ¬ blob.body.getD i 0 = 0xFFFF3000 := by omega
      have n2 : ¬ blob.body.getD i 0 = 0xEBFFFFFE := by omega
      rw [if_neg n1, if_neg n2, if_pos hw] at hpi
      exact hpi
    · rw [if_neg n1, if_neg n3, if_neg n4, if_neg n2] at hpi
      exact hpi

/-- Witness for C16: `relocBlob` on `markedPage`, whose free space starts at
word 10, holds each of the five words once, with a literal after `bx r12`. -/
theorem installArm11Handlers_relocation_rules_witness :
    ∃ r, installArm11Handlers relocBlob markedPage 0x1000 0x1234 [0x1000] 0 = some r ∧
      ∀ i, i < relocBlob.body.length →
        (relocBlob.body.getD i 0 = 0xFFFF3000 →
          r.page (freeSpacePos markedPage + i) = (0x1000 + (2 ^ 32 - 16)) % 2 ^ 32) ∧
        (relocBlob.body.getD i 0 = 0xBEEFBEEF → r.page (freeSpacePos markedPage + i) = 0x1234) ∧
        (relocBlob.body.getD i 0 = 0xEBFFFFFE →
          r.page (freeSpacePos markedPage + i)
            = MAKE_BRANCH_LINK (4 * ((freeSpacePos markedPage + i : Nat) : Int))
                (4 * ((initFPUPos markedPage + 3 : Nat) : Int))) ∧
        (relocBlob.body.getD i 0 = 0xEAFFFFFE →
          r.page (freeSpacePos markedPage + i)
            = MAKE_BRANCH (4 * ((freeSpacePos markedPage + i : Nat) : Int))
                (4 * ((mcuRebootPos markedPage : Int) - 2))) ∧
        (1 ≤ i → relocBlob.body.getD (i - 1) 0 = 0xE12FFF1C →
          r.page (freeSpacePos markedPage + i)
            = (0xFFFF0000 + 4 * freeSpacePos markedPage + relocBlob.body.getD i 0
                + (2 ^ 32 - 32)) % 2 ^ 32) ∧
        (¬ (1 ≤ i ∧ relocBlob.body.getD (i - 1) 0 = 0xE12FFF1C) →
          relocBlob.body.getD i 0 ≠ 0xFFFF3000 → relocBlob.body.getD i 0 ≠ 0xBEEFBEEF →
          relocBlob.body.getD i 0 ≠ 0xEBFFFFFE → relocBlob.body.getD i 0 ≠ 0xEAFFFFFE →
          r.page (freeSpacePos markedPage + i) = relocBlob.body.getD i 0) :=
  installArm11Handlers_relocation_rules relocBlob markedPage 0x1000 0x1234 [0x1000] 0
    (by decide) (by decide) (by decide)

/-- Counterexample to C16 as stated.  First group: with `bxStackBlob` on
`markedPage` (free space at word 10) the body word 1 is `0xFFFF3000`, and the
page word 11 ends as `0xFFFE3008`, the literal rewrite of line 100, not as
`stackAddress - 16 = 0xFF0`.  Second group: with `bxLiteralBlob` the body word 1
follows `bx r12`, its literal rewrite is `0xBEEFBEEF`, and the page word 11 ends
as `codeSetOffset = 0x1234` because the next iteration relocates the rewritten
word.  Third group: on `lowFreePage` the free space starts at word 1, the body
of `entryAtStartBlob` is eight zero words, and the page words 1, 3 and 7 of the
copied region end as branch instructions, not as the body words. -/
theorem installArm11Handlers_relocation_rules_counterexample :
    (retCode (installArm11Handlers bxStackBlob markedPage 0x1000 0x1234 [0x1000] 0) = some 0 ∧
      freeSpacePos markedPage = 10 ∧ bxStackBlob.body.getD 1 0 = 0xFFFF3000 ∧
      (installArm11Handlers bxStackBlob markedPage 0x1000 0x1234 [0x1000] 0).map
        (fun r => r.page 11) = some 0xFFFE3008 ∧
      (0x1000 + (2 ^ 32 - 16)) % 2 ^ 32 = 0xFF0) ∧
    (retCode (installArm11Handlers bxLiteralBlob markedPage 0x1000 0x1234 [0x1000] 0) = some 0 ∧
      bxLiteralBlob.body.getD 0 0 = 0xE12FFF1C ∧
      (0xFFFF0000 + 4 * freeSpacePos markedPage + bxLiteralBlob.body.getD 1 0
        + (2 ^ 32 - 32)) % 2 ^ 32 = 0xBEEFBEEF ∧
      (installArm11Handlers bxLiteralBlob markedPage 0x1000 0x1234 [0x1000] 0).map
        (fun r => r.page 11) = some 0x1234) ∧
    (retCode (installArm11Handlers entryAtStartBlob lowFreePage 0x1000 0x1234 [0x1000] 0)
        = some 0 ∧
      freeSpacePos lowFreePage = 1 ∧
      entryAtStartBlob.body = [0, 0, 0, 0, 0, 0, 0, 0] ∧
      (installArm11Handlers entryAtStartBlob lowFreePage 0x1000 0x1234 [0x1000] 0).map
        (fun r => (List.range 8).map (fun i => r.page (1 + i)))
        = some [0xEA00005F, 0, 0xEA00005D, 0, 0, 0, 0xEAFFFFF9, 0]) := by
  refine ⟨⟨by decide, by decide, by decide, by decide, by decide⟩,
    ⟨by decide, by decide, by decide, by decide⟩, by decide, by decide, by decide, by decide⟩

end Luma3DS
